import Mathlib

/-!
# Inventory management system

A shallow embedding of `Inventory_management_system.cpp` and theorems about it.

Modelling conventions

* The global arrays `products`, `categories`, `suppliers`, `transactions` together with
  their counters are lists: the counter is the length of the list, `arr[count++] = x`
  is an append at the end, `arr[i].f = v` is `List.set`.
* `int` is `Int`. A price or an amount is kept in the store as the decimal it stands
  for, an exact rational `ℚ`, and `calculateDiscount`, `purchaseProduct` and
  `getProductStatistics` compute with these in exact arithmetic: a statement about their
  amounts is a statement of exact arithmetic. The `double` arithmetic of the machine is
  modelled in `Binary64`: IEEE 754 binary64 values, with addition, subtraction and
  multiplication rounded to nearest (ties to even), and over them the amount computations
  of the source, `Binary64.calculateDiscount`, `Binary64.purchaseAmounts` and
  `Binary64.totalValue`.
* `std::string` is `String`; `s.empty()` is `s = ""`.
* A function returning an index or `-1` returns `Option Nat`, `none` standing for `-1`.
* Console output is a list of `Output` events, one per reported message or data row;
  screen clearing, titles and prompts are not recorded.
* Console input is passed as already parsed arguments; a numeric extraction
  `cin >> x` is a `NumInput`, which is either a value or a failed extraction.
-/

namespace Inventory

/-! ## Constants -/

def MAX_ITEMS : Nat := 100

def MAX_TRANSACTIONS : Nat := 200

def MIN_STOCK_THRESHOLD : Int := 5

def BULK_DISCOUNT_THRESHOLD : ℚ := 5

def BULK_DISCOUNT_RATE : ℚ := 0.10

/-! ## Data structures -/

structure Product where
  id : Int
  name : String
  category : String
  quantity : Int
  price : ℚ
  active : Bool
deriving DecidableEq, Repr

structure Category where
  name : String
  description : String
  active : Bool
deriving DecidableEq, Repr

structure Supplier where
  name : String
  contact : String
  active : Bool
deriving DecidableEq, Repr

structure Transaction where
  transactionId : Int
  productName : String
  productId : Int
  quantity : Int
  unitPrice : ℚ
  totalPrice : ℚ
  discount : ℚ
  date : String
  time : String
deriving DecidableEq, Repr

/-- The global state of the program: the four arrays (each list holds the first
`count` slots of the array, so `productCount = products.length` and so on) and the
transaction-id counter. -/
structure Store where
  products : List Product
  categories : List Category
  suppliers : List Supplier
  transactions : List Transaction
  nextTransactionId : Int
deriving DecidableEq, Repr

def Store.productCount (s : Store) : Nat := s.products.length

def Store.categoryCount (s : Store) : Nat := s.categories.length

def Store.supplierCount (s : Store) : Nat := s.suppliers.length

def Store.transactionCount (s : Store) : Nat := s.transactions.length

/-- The slot `products[i]`. The array is a zero-initialised global, so a slot that was
never written holds the zero product. -/
def Store.productAt (s : Store) (i : Nat) : Product :=
  s.products.getD i ⟨0, "", "", 0, 0, false⟩

/-- The slot `categories[i]`. -/
def Store.categoryAt (s : Store) (i : Nat) : Category :=
  s.categories.getD i ⟨"", "", false⟩

/-- The slot `suppliers[i]`. -/
def Store.supplierAt (s : Store) (i : Nat) : Supplier :=
  s.suppliers.getD i ⟨"", "", false⟩

/-- The globals at program start, before `loadSampleData` runs. -/
def initialStore : Store :=
  { products := [], categories := [], suppliers := [], transactions := [],
    nextTransactionId := 1 }

/-! ## Console model -/

/-- One event of console output. `error`, `success` and `warning` are the calls of
`printError`, `printSuccess` and `printWarning`; the other constructors are the data
lines written with `cout`. -/
inductive Output where
  | error (message : String)
  | success (message : String)
  | warning (message : String)
  | rule
  | columns (titles : List String)
  | lowStockRow (id : Int) (name : String) (quantity : Int) (status : String)
  | available (quantity : Int)
  | requested (quantity : Int)
  | currentDetails (name category : String) (quantity : Int) (price : ℚ)
  | invoiceHeader (transactionId : Int)
  | invoiceItem (productName : String) (quantity : Int) (unitPrice amount : ℚ)
  | invoiceSubtotal (subtotal : ℚ)
  | invoiceDiscount (discount : ℚ)
  | invoiceTotal (total : ℚ)
deriving DecidableEq, Repr

/-- The result of a numeric extraction `cin >> x`. `ok v`: the extraction succeeded and
stored `v`. `fail stored`: the stream went into the failed state; `stored` is what the
failed extraction left in `x` (`none`: `x` untouched; otherwise the value the library
wrote, zero or the bound of the type on overflow). The caller clears the failed state
with `clearInputBuffer` before it returns. -/
inductive NumInput (α : Type) where
  | ok (value : α)
  | fail (stored : Option α)
deriving DecidableEq, Repr

def printSuccess (message : String) : List Output := [Output.success message]

def printError (message : String) : List Output := [Output.error message]

def printWarning (message : String) : List Output := [Output.warning message]

/-! ## Validation functions -/

def isValidId (id : Int) : Bool := decide (id > 0)

def isValidQuantity (quantity : Int) : Bool := decide (quantity ≥ 0)

def isValidPrice (price : ℚ) : Bool := decide (price ≥ 0)

/-- The linear scan shared by the four `find...` functions:
`for (i = 0; i < count; i++) if (cond(arr[i])) return i; return -1;`. -/
def firstIndex {α : Type} (cond : α → Bool) : List α → Option Nat
  | [] => none
  | x :: xs => if cond x then some 0 else (firstIndex cond xs).map (· + 1)

def findProductById (s : Store) (id : Int) : Option Nat :=
  firstIndex (fun p => p.id == id && p.active) s.products

def findProductByName (s : Store) (name : String) : Option Nat :=
  firstIndex (fun p => p.name == name && p.active) s.products

def findCategoryByName (s : Store) (name : String) : Option Nat :=
  firstIndex (fun c => c.name == name && c.active) s.categories

def findSupplierByName (s : Store) (name : String) : Option Nat :=
  firstIndex (fun c => c.name == name && c.active) s.suppliers

def isDuplicateProductId (s : Store) (id : Int) : Bool :=
  (findProductById s id).isSome

def categoryExists (s : Store) (name : String) : Bool :=
  (findCategoryByName s name).isSome

/-- The source's `validateProductData`: the verdict and the message it prints. -/
def validateProductData (s : Store) (id quantity : Int) (price : ℚ) (category : String) :
    Bool × List Output :=
  if id ≤ 0 then (false, printError "Invalid ID! Must be positive.")
  else if isDuplicateProductId s id then (false, printError "Product ID already exists!")
  else if quantity < 0 then (false, printError "Invalid quantity! Must be non-negative.")
  else if price < 0 then (false, printError "Invalid price! Must be non-negative.")
  else if !categoryExists s category then
    (false, printError "Category does not exist! Please create it first.")
  else (true, [])

/-! ## Pricing -/

/-- The source's `calculateDiscount` in exact arithmetic: the pair `(*discount, *total)`
it writes when no operation rounds. `Binary64.calculateDiscount` is the function in
double precision. -/
def calculateDiscount (quantity : Int) (subtotal : ℚ) : ℚ × ℚ :=
  let discount : ℚ :=
    if (quantity : ℚ) ≥ BULK_DISCOUNT_THRESHOLD then subtotal * BULK_DISCOUNT_RATE else 0
  (discount, subtotal - discount)

/-! ## Low stock alert -/

/-- The column head `checkLowStock` prints before its first row. -/
def lowStockHead : List Output :=
  printWarning "LOW STOCK ALERT!" ++
    [Output.rule, Output.columns ["ID", "Product", "Quantity", "Status"], Output.rule]

/-- The body of the `for` loop of `checkLowStock`, run over the remaining products with
the current value of the flag `hasLowStock`; returns what is printed and the final flag. -/
def checkLowStockLoop : List Product → Bool → List Output × Bool
  | [], hasLowStock => ([], hasLowStock)
  | p :: ps, hasLowStock =>
    if p.active && decide (p.quantity ≤ MIN_STOCK_THRESHOLD) then
      let head := if !hasLowStock then lowStockHead else []
      let row := Output.lowStockRow p.id p.name p.quantity
        (if p.quantity = 0 then "OUT OF STOCK" else "LOW STOCK")
      let rest := checkLowStockLoop ps true
      (head ++ row :: rest.1, rest.2)
    else checkLowStockLoop ps hasLowStock

/-- The source's `checkLowStock`: the store after the call and the lines printed. -/
def checkLowStock (s : Store) : Store × List Output :=
  let r := checkLowStockLoop s.products false
  (s, r.1 ++ (if r.2 then [Output.rule] else []))

/-! ## Product management -/

/-- The source's `addProduct`, the five arguments being the five fields read from the
console in order. -/
def addProduct (s : Store) (id : NumInput Int) (name category : String)
    (quantity : NumInput Int) (price : NumInput ℚ) : Store × List Output :=
  if s.productCount ≥ MAX_ITEMS then (s, printError "Product limit reached!")
  else match id with
  | .fail _ => (s, printError "Invalid input! ID must be a number.")
  | .ok id =>
    if name = "" then (s, printError "Product name cannot be empty!")
    else if category = "" then (s, printError "Category cannot be empty!")
    else match quantity with
    | .fail _ => (s, printError "Invalid input! Quantity must be a number.")
    | .ok quantity =>
      match price with
      | .fail _ => (s, printError "Invalid input! Price must be a number.")
      | .ok price =>
        let v := validateProductData s id quantity price category
        if !v.1 then (s, v.2)
        else
          let newProduct : Product := ⟨id, name, category, quantity, price, true⟩
          ({ s with products := s.products ++ [newProduct] },
            v.2 ++ printSuccess "Product added successfully!" ++
              (if quantity ≤ MIN_STOCK_THRESHOLD then printWarning "This product has low stock!"
               else []))

/-- Write `f (products[i])` back into slot `i`. -/
def Store.modifyProduct (s : Store) (i : Nat) (f : Product → Product) : Store :=
  { s with products := s.products.set i (f (s.productAt i)) }

/-- What a numeric extraction into the field of a record leaves in that field. -/
def NumInput.store {α : Type} (old : α) : NumInput α → α
  | .ok v => v
  | .fail (some v) => v
  | .fail none => old

/-- The source's `updateProduct`. Every field is read straight into `products[index]`,
so each read is a write to the store that happens before the check that follows it. -/
def updateProduct (s : Store) (id : NumInput Int) (newName newCategory : String)
    (quantity : NumInput Int) (price : NumInput ℚ) : Store × List Output :=
  match id with
  | .fail _ => (s, printError "Invalid input! ID must be a number.")
  | .ok id =>
    match findProductById s id with
    | none => (s, printError "Product not found!")
    | some index =>
      let p := s.productAt index
      let details := [Output.currentDetails p.name p.category p.quantity p.price]
      let s1 := s.modifyProduct index (fun p => { p with name := newName })
      if newName = "" then (s1, details ++ printError "Product name cannot be empty!")
      else
        let s2 := s1.modifyProduct index (fun p => { p with category := newCategory })
        if newCategory = "" then (s2, details ++ printError "Category cannot be empty!")
        else if !categoryExists s2 newCategory then
          (s2, details ++ printError "Category does not exist!")
        else
          let s3 := s2.modifyProduct index
            (fun p => { p with quantity := quantity.store p.quantity })
          match quantity with
          | .fail _ => (s3, details ++ printError "Invalid input! Quantity must be a number.")
          | .ok _ =>
            if !isValidQuantity (s3.productAt index).quantity then
              (s3, details ++ printError "Invalid quantity!")
            else
              let s4 := s3.modifyProduct index
                (fun p => { p with price := price.store p.price })
              match price with
              | .fail _ => (s4, details ++ printError "Invalid input! Price must be a number.")
              | .ok _ =>
                if !isValidPrice (s4.productAt index).price then
                  (s4, details ++ printError "Invalid price!")
                else (s4, details ++ printSuccess "Product updated successfully!")

/-- The source's `deleteProduct`. -/
def deleteProduct (s : Store) (id : NumInput Int) : Store × List Output :=
  match id with
  | .fail _ => (s, printError "Invalid input! ID must be a number.")
  | .ok id =>
    match findProductById s id with
    | none => (s, printError "Product not found!")
    | some index =>
      (s.modifyProduct index (fun p => { p with active := false }),
        printSuccess "Product deleted successfully!")

/-! ## Category management -/

/-- The source's `addCategory`. -/
def addCategory (s : Store) (name description : String) : Store × List Output :=
  if s.categoryCount ≥ MAX_ITEMS then (s, printError "Category limit reached!")
  else if name = "" then (s, printError "Category name cannot be empty!")
  else if categoryExists s name then (s, printError "Category already exists!")
  else
    ({ s with categories := s.categories ++ [⟨name, description, true⟩] },
      printSuccess "Category added successfully!")

/-- The source's `deleteCategory`. The loop with `break` that computes `inUse` is
`List.any`. -/
def deleteCategory (s : Store) (name : String) : Store × List Output :=
  if name = "" then (s, printError "Category name cannot be empty!")
  else match findCategoryByName s name with
  | none => (s, printError "Category not found!")
  | some index =>
    let inUse := s.products.any (fun p => p.active && p.category == name)
    if inUse then (s, printError "Cannot delete! Category is in use by products.")
    else
      ({ s with categories :=
            s.categories.set index { s.categoryAt index with active := false } },
        printSuccess "Category deleted successfully!")

/-! ## Supplier management -/

/-- The source's `addSupplier`. -/
def addSupplier (s : Store) (name contact : String) : Store × List Output :=
  if s.supplierCount ≥ MAX_ITEMS then (s, printError "Supplier limit reached!")
  else if name = "" then (s, printError "Supplier name cannot be empty!")
  else if (findSupplierByName s name).isSome then (s, printError "Supplier already exists!")
  else
    ({ s with suppliers := s.suppliers ++ [⟨name, contact, true⟩] },
      printSuccess "Supplier added successfully!")

/-- The source's `deleteSupplier`. -/
def deleteSupplier (s : Store) (name : String) : Store × List Output :=
  if name = "" then (s, printError "Supplier name cannot be empty!")
  else match findSupplierByName s name with
  | none => (s, printError "Supplier not found!")
  | some index =>
    ({ s with suppliers :=
          s.suppliers.set index { s.supplierAt index with active := false } },
      printSuccess "Supplier deleted successfully!")

/-! ## Transactions and purchase -/

/-- The source's `recordTransaction`; `date` and `time` are the two clock readings
`getCurrentDate()` and `getCurrentTime()`. -/
def recordTransaction (s : Store) (productId : Int) (productName : String) (quantity : Int)
    (unitPrice discount total : ℚ) (date time : String) : Store × List Output :=
  if s.transactionCount ≥ MAX_TRANSACTIONS then
    (s, printWarning "Transaction history limit reached!")
  else
    let trans : Transaction :=
      { transactionId := s.nextTransactionId, productId := productId,
        productName := productName, quantity := quantity, unitPrice := unitPrice,
        discount := discount, totalPrice := total, date := date, time := time }
    ({ s with transactions := s.transactions ++ [trans],
              nextTransactionId := s.nextTransactionId + 1 }, [])

/-- The source's `updateInventoryStock`. The pointer argument is the index of the
slot it points to, `none` being `NULL`. -/
def updateInventoryStock (s : Store) (product : Option Nat) (quantitySold : Int) :
    Store × List Output :=
  match product with
  | none => (s, printError "Invalid product pointer!")
  | some i =>
    if (s.productAt i).quantity < quantitySold then (s, printError "Insufficient stock!")
    else (s.modifyProduct i (fun p => { p with quantity := p.quantity - quantitySold }), [])

/-- The four results `getProductStatistics` writes through its pointer arguments. -/
structure Statistics where
  totalProducts : Int
  lowStock : Int
  outOfStock : Int
  totalValue : ℚ
deriving DecidableEq, Repr

/-- One iteration of the loop of `getProductStatistics`, the total value being summed
in exact arithmetic. -/
def statisticsStep (acc : Statistics) (p : Product) : Statistics :=
  if p.active then
    let acc1 : Statistics :=
      { acc with totalProducts := acc.totalProducts + 1,
                 totalValue := acc.totalValue + p.price * p.quantity }
    if p.quantity = 0 then { acc1 with outOfStock := acc1.outOfStock + 1 }
    else if p.quantity ≤ MIN_STOCK_THRESHOLD then { acc1 with lowStock := acc1.lowStock + 1 }
    else acc1
  else acc

/-- The source's `getProductStatistics`, the total value being summed in exact
arithmetic; `Binary64.totalValue` is the sum in double precision. -/
def getProductStatistics (s : Store) : Statistics :=
  s.products.foldl statisticsStep ⟨0, 0, 0, 0⟩

/-- The source's `purchaseProduct`: `name` and `quantity` are the two console reads,
`date` and `time` the clock readings stored in the transaction. The subtotal, the
discount and the total are computed in exact arithmetic; `Binary64.purchaseAmounts` gives
them in double precision. -/
def purchaseProduct (s : Store) (name : String) (quantity : NumInput Int)
    (date time : String) : Store × List Output :=
  if name = "" then (s, printError "Product name cannot be empty!")
  else match findProductByName s name with
  | none => (s, printError "Product not found!")
  | some index =>
    match quantity with
    | .fail _ => (s, printError "Invalid input! Quantity must be a number.")
    | .ok quantity =>
      if quantity ≤ 0 then (s, printError "Invalid quantity! Must be positive.")
      else if (s.productAt index).quantity < quantity then
        (s, printError "Insufficient stock!" ++
          [Output.available (s.productAt index).quantity, Output.requested quantity])
      else
        let unitPrice := (s.productAt index).price
        let subtotal := unitPrice * quantity
        let pricing := calculateDiscount quantity subtotal
        let discount := pricing.1
        let total := pricing.2
        let r1 := updateInventoryStock s (some index) quantity
        let r2 := recordTransaction r1.1 (r1.1.productAt index).id (r1.1.productAt index).name
          quantity unitPrice discount total date time
        let s2 := r2.1
        (s2, r1.2 ++ r2.2 ++
          [Output.invoiceHeader (s2.nextTransactionId - 1),
           Output.invoiceItem (s2.productAt index).name quantity unitPrice subtotal,
           Output.invoiceSubtotal subtotal] ++
          (if discount > 0 then
            Output.invoiceDiscount discount :: printWarning "Bulk discount applied!"
           else []) ++
          [Output.invoiceTotal total] ++
          (if (s2.productAt index).quantity ≤ MIN_STOCK_THRESHOLD then
            printWarning "Low stock alert for this product!"
           else []))

/-! ## Sample data -/

/-- The source's `loadSampleData`. -/
def loadSampleData (s : Store) : Store :=
  { s with
    categories := s.categories ++
      [⟨"Electronics", "Electronic devices and accessories", true⟩,
       ⟨"Clothing", "Apparel and fashion items", true⟩,
       ⟨"Food", "Food and beverages", true⟩],
    products := s.products ++
      [⟨1, "Laptop", "Electronics", 15, 899.99, true⟩,
       ⟨2, "Mouse", "Electronics", 50, 19.99, true⟩,
       ⟨3, "Keyboard", "Electronics", 3, 49.99, true⟩,
       ⟨4, "T-Shirt", "Clothing", 100, 15.99, true⟩,
       ⟨5, "Jeans", "Clothing", 2, 39.99, true⟩],
    suppliers := s.suppliers ++
      [⟨"TechSupply Co", "tech@supply.com", true⟩,
       ⟨"Fashion World", "contact@fashion.com", true⟩] }

/-- The store `main` starts its menu loop with. -/
def seedStore : Store := loadSampleData initialStore

/-! ## The menu loop -/

/-- One pass through the `switch` of `main` that can write to the store, with the
console input the chosen function consumes. The display-only choices (2, 7, 8, 10, 12,
14, 15), an unreadable choice and an unknown choice leave the store as it is. -/
inductive Op where
  | addCategory (name description : String)
  | deleteCategory (name : String)
  | addProduct (id : NumInput Int) (name category : String) (quantity : NumInput Int)
      (price : NumInput ℚ)
  | updateProduct (id : NumInput Int) (newName newCategory : String)
      (quantity : NumInput Int) (price : NumInput ℚ)
  | deleteProduct (id : NumInput Int)
  | purchaseProduct (name : String) (quantity : NumInput Int) (date time : String)
  | addSupplier (name contact : String)
  | deleteSupplier (name : String)
  | display

/-- Run one menu choice. -/
def Op.run (s : Store) : Op → Store × List Output
  | .addCategory name description => Inventory.addCategory s name description
  | .deleteCategory name => Inventory.deleteCategory s name
  | .addProduct id name category quantity price =>
    Inventory.addProduct s id name category quantity price
  | .updateProduct id newName newCategory quantity price =>
    Inventory.updateProduct s id newName newCategory quantity price
  | .deleteProduct id => Inventory.deleteProduct s id
  | .purchaseProduct name quantity date time =>
    Inventory.purchaseProduct s name quantity date time
  | .addSupplier name contact => Inventory.addSupplier s name contact
  | .deleteSupplier name => Inventory.deleteSupplier s name
  | .display => (s, [])

/-- The stores the program can be in: the seed store and whatever a menu choice makes
of a reachable store. -/
inductive Reachable : Store → Prop where
  | seed : Reachable seedStore
  | step (s : Store) (op : Op) : Reachable s → Reachable (op.run s).1

/-! ## Specification-side definitions -/

/-- The four statistics in the words of the specification: the number of active
products, the number of active products with `0 < quantity ≤ 5`, the number of active
products with `quantity = 0`, and the sum over the active products of
`quantity * price`. -/
def statisticsSpec (s : Store) : Statistics :=
  { totalProducts := ((s.products.filter (fun p => p.active)).length : Nat),
    lowStock := ((s.products.filter
      (fun p => p.active && decide (0 < p.quantity) && decide (p.quantity ≤ 5))).length : Nat),
    outOfStock := ((s.products.filter
      (fun p => p.active && decide (p.quantity = 0))).length : Nat),
    totalValue := ((s.products.filter (fun p => p.active)).map
      (fun p => (p.quantity : ℚ) * p.price)).sum }

/-- The products a low-stock alert is about, in the words of the specification: the
active products with `quantity ≤ 5`, in storage order. -/
def lowStockProducts (s : Store) : List Product :=
  s.products.filter (fun p => p.active && decide (p.quantity ≤ 5))

/-- The row `checkLowStock` prints for a product it lists. -/
def lowStockRowOf (p : Product) : Output :=
  Output.lowStockRow p.id p.name p.quantity
    (if p.quantity = 0 then "OUT OF STOCK" else "LOW STOCK")

/-- The invariant on categories: every active category has a non-empty name and no two
active categories (at different positions) share a name. -/
def CategoryInv (s : Store) : Prop :=
  (∀ c ∈ s.categories, c.active = true → c.name ≠ "") ∧
  (∀ (i j : Nat) (a b : Category), s.categories[i]? = some a → s.categories[j]? = some b →
    a.active = true → b.active = true → a.name = b.name → i = j)

/-- No two records of `l` that are both active and sit at different positions share a
key. -/
def UniqueAmongActive {α β : Type} (key : α → β) (active : α → Bool) (l : List α) :
    Prop :=
  ∀ (i j : Nat) (a b : α), l[i]? = some a → l[j]? = some b →
    active a = true → active b = true → key a = key b → i = j

/-- The invariant on product identifiers: every active product has a positive identifier
and no two active products share an identifier. -/
def ProductIdInv (s : Store) : Prop :=
  (∀ p ∈ s.products, p.active = true → 0 < p.id) ∧
  UniqueAmongActive (fun p : Product => p.id) (fun p => p.active) s.products

/-- The invariant on suppliers: every active supplier has a non-empty name and no two
active suppliers share a name. -/
def SupplierInv (s : Store) : Prop :=
  (∀ c ∈ s.suppliers, c.active = true → c.name ≠ "") ∧
  UniqueAmongActive (fun c : Supplier => c.name) (fun c => c.active) s.suppliers

/-- The invariant on the transaction log: at most `MAX_TRANSACTIONS` entries, identifiers
strictly increasing in log order, all below the next identifier to be assigned. -/
def LogInv (s : Store) : Prop :=
  s.transactions.length ≤ MAX_TRANSACTIONS ∧
  (s.transactions.map (fun t => t.transactionId)).Pairwise (fun a b => a < b) ∧
  ∀ t ∈ s.transactions, t.transactionId < s.nextTransactionId

/-- The invariant on the record counts: none exceeds `MAX_ITEMS`. -/
def CapacityInv (s : Store) : Prop :=
  s.productCount ≤ MAX_ITEMS ∧ s.categoryCount ≤ MAX_ITEMS ∧ s.supplierCount ≤ MAX_ITEMS

/-- The constraints on product records: every active product has a non-empty name, a
non-negative quantity, a non-negative price, and a category that is the name of an
active category. -/
def ProductRecordInv (s : Store) : Prop :=
  ∀ p ∈ s.products, p.active = true →
    p.name ≠ "" ∧ 0 ≤ p.quantity ∧ 0 ≤ p.price ∧
      ∃ c ∈ s.categories, c.active = true ∧ c.name = p.category

/-- The stores the program can get to from the store `s` by menu choices. -/
inductive ReachableFrom (s : Store) : Store → Prop where
  | refl : ReachableFrom s s
  | step (t : Store) (op : Op) : ReachableFrom s t → ReachableFrom s (op.run t).1

/-! ## Scenario stores -/

/-- Run a sequence of menu choices. -/
def runOps (s : Store) (ops : List Op) : Store :=
  ops.foldl (fun t op => (op.run t).1) s

/-- The menu choices that add `n` more products, with the identifiers 6, 7, ... -/
def fillProductOps (n : Nat) : List Op :=
  (List.range n).map
    (fun (k : Nat) => Op.addProduct (.ok (6 + (k : Int))) "Item" "Food" (.ok 10) (.ok 1))

/-- The seed store after 95 more products were added: 100 product records. -/
def fullProductStore : Store := runOps seedStore (fillProductOps 95)

/-- The seed store with one more product, "Bulk", of which 1000 are in stock. -/
def bulkStore : Store := (addProduct seedStore (.ok 6) "Bulk" "Food" (.ok 1000) (.ok 1)).1

/-- The menu choices that buy one "Bulk" `n` times. -/
def fillLogOps (n : Nat) : List Op :=
  List.replicate n (Op.purchaseProduct "Bulk" (.ok 1) "01/01/2026" "09:00:00")

/-- The store after 200 single purchases of "Bulk": 200 logged transactions. -/
def fullLogStore : Store := runOps bulkStore (fillLogOps 200)

/-- The seed store after product 7 was added, deleted and added again. -/
def reuseStore : Store :=
  (addProduct
    (deleteProduct (addProduct seedStore (.ok 7) "Tablet" "Electronics" (.ok 4)
      (.ok 300)).1 (.ok 7)).1
    (.ok 7) "Phone" "Electronics" (.ok 20) (.ok 310)).1

/-- The seed store with a second active product named "Laptop". -/
def twoLaptopStore : Store :=
  (addProduct seedStore (.ok 6) "Laptop" "Electronics" (.ok 100) (.ok 1)).1

/-! ## Double precision arithmetic

The `double` of the source as IEEE 754 binary64 in the default rounding mode, round to
nearest with ties to even, every operation being rounded to a double on its own (no
fused multiply-add, no wider intermediate format). -/

namespace Binary64

/-- An IEEE 754 binary64 value. A finite double is an integer number of units of
`2 ^ (-1074)`, the least positive double; `finite u` is the value `u * 2 ^ (-1074)`. The
two zeros are one value, and so are all NaNs. Every conversion, sum and product below
goes through `roundQuotient`, which returns numbers of units that doubles have (see
`isDouble`). -/
inductive Double where
  | finite (units : Int)
  | infinite (negative : Bool)
  | nan
deriving DecidableEq, Repr

/-- The integer nearest to `a / b`, a tie going to the even one. -/
def divRoundEven (a b : Nat) : Nat :=
  let q := a / b
  let r := a % b
  if 2 * r < b then q else if b < 2 * r then q + 1 else if q % 2 = 0 then q else q + 1

/-- The loop that counts the binary digits of `n`, at most `fuel` of them. -/
def bitLengthLoop : Nat → Nat → Nat
  | 0, _ => 0
  | fuel + 1, n => if n = 0 then 0 else bitLengthLoop fuel (n / 2) + 1

/-- The number of binary digits of `n`; `n` halvings are more than enough to reach 0. -/
def bitLength (n : Nat) : Nat := bitLengthLoop n n

/-- The number of units of the double nearest to `num / den` units (round to nearest,
ties to even), were the exponent unbounded above. Below `2 ^ 53` units the doubles are
one unit apart; above, a double has 53 significant binary digits, so the doubles around
`num / den` are `2 ^ shift` units apart. -/
def roundMagnitude (num den : Nat) : Nat :=
  let whole := num / den
  if whole < 2 ^ 53 then divRoundEven num den
  else
    let shift := bitLength whole - 53
    divRoundEven num (den * 2 ^ shift) * 2 ^ shift

/-- The number of units of `2 ^ 1024`, the least magnitude that is beyond the finite
doubles. -/
def overflowUnits : Nat := 2 ^ 2098

/-- The double nearest to `num / den` units, with the sign given; a magnitude that rounds
to `2 ^ 1024` or more overflows to an infinity. -/
def roundQuotient (negative : Bool) (num den : Nat) : Double :=
  let m := roundMagnitude num den
  if overflowUnits ≤ m then .infinite negative
  else .finite (if negative then -(m : Int) else (m : Int))

/-- The conversion of an `int` to `double`. -/
def ofInt (n : Int) : Double := roundQuotient (decide (n < 0)) (n.natAbs * 2 ^ 1074) 1

/-- The double a decimal literal, or a decimal read by `cin >>`, stands for: the one
nearest to it. -/
def ofRat (r : ℚ) : Double := roundQuotient (decide (r.num < 0)) (r.num.natAbs * 2 ^ 1074) r.den

/-- The negation `-a` of a double. -/
def neg : Double → Double
  | .finite a => .finite (-a)
  | .infinite s => .infinite (!s)
  | .nan => .nan

/-- The sum `a + b` of two doubles: the exact sum, rounded. -/
def add : Double → Double → Double
  | .finite a, .finite b => roundQuotient (decide (a + b < 0)) (a + b).natAbs 1
  | .finite _, .infinite s => .infinite s
  | .infinite s, .finite _ => .infinite s
  | .infinite s, .infinite t => if s = t then .infinite s else .nan
  | _, _ => .nan

/-- The difference `a - b` of two doubles. -/
def sub (a b : Double) : Double := add a (neg b)

/-- The product `a * b` of two doubles: the exact product, rounded. -/
def mul : Double → Double → Double
  | .finite a, .finite b => roundQuotient (decide (a * b < 0)) (a * b).natAbs (2 ^ 1074)
  | .finite a, .infinite s => if a = 0 then .nan else .infinite (s != decide (a < 0))
  | .infinite s, .finite b => if b = 0 then .nan else .infinite (s != decide (b < 0))
  | .infinite s, .infinite t => .infinite (s != t)
  | _, _ => .nan

/-- Whether `m` is a number of units that a finite double has: it is below the overflow
bound, and its binary digits below the leading 53 are all zero. -/
def representable (m : Nat) : Bool :=
  decide (m < overflowUnits) && decide (m % 2 ^ (bitLength m - 53) = 0)

/-- Whether a value of the model is a double. -/
def isDouble : Double → Bool
  | .finite u => representable u.natAbs
  | _ => true

/-- The comparison `a <= b` of two doubles; it is false when either is a NaN. -/
def le : Double → Double → Bool
  | .finite a, .finite b => decide (a ≤ b)
  | .finite _, .infinite s => !s
  | .infinite s, .finite _ => s
  | .infinite s, .infinite t => s || !t
  | _, _ => false

/-- The constant `BULK_DISCOUNT_THRESHOLD = 5` as the double it is. -/
def BULK_DISCOUNT_THRESHOLD : Double := ofInt 5

/-- The constant `BULK_DISCOUNT_RATE = 0.10` as the double it is, the one nearest to a
tenth. -/
def BULK_DISCOUNT_RATE : Double := ofRat 0.10

/-- The source's `calculateDiscount` in double precision: the pair `(*discount, *total)`
it writes. The comparison `quantity >= BULK_DISCOUNT_THRESHOLD` converts the quantity to
`double`. -/
def calculateDiscount (quantity : Int) (subtotal : Double) : Double × Double :=
  let discount : Double :=
    if le BULK_DISCOUNT_THRESHOLD (ofInt quantity) then mul subtotal BULK_DISCOUNT_RATE
    else ofInt 0
  (discount, sub subtotal discount)

/-- The locals `subtotal`, `discount` and `total` of `purchaseProduct` in double
precision, for the unit price and the quantity of an accepted purchase; `discount` and
`total` are what `recordTransaction` stores. -/
def purchaseAmounts (unitPrice : Double) (quantity : Int) : Double × Double × Double :=
  let subtotal := mul unitPrice (ofInt quantity)
  let pricing := calculateDiscount quantity subtotal
  (subtotal, pricing.1, pricing.2)

/-- The result `*totalValue` of `getProductStatistics` in double precision: from `0.0`
on, `products[i].price * products[i].quantity` is added for each active product, in
storage order. The price of a record is the double nearest to its decimal. -/
def totalValue (products : List Product) : Double :=
  products.foldl
    (fun acc p => if p.active then add acc (mul (ofRat p.price) (ofInt p.quantity)) else acc)
    (ofInt 0)

end Binary64

/-! ## Lemmas on the linear scan -/

theorem firstIndex_eq_none_iff {α : Type} (cond : α → Bool) (l : List α) :
    firstIndex cond l = none ↔ ∀ x ∈ l, cond x = false := by
  induction l with
  | nil => simp [firstIndex]
  | cons x xs ih =>
    by_cases hx : cond x = true
    · simp [firstIndex, hx]
    · simp [firstIndex, hx, ih]

theorem firstIndex_some_spec {α : Type} (cond : α → Bool) (l : List α) (i : Nat)
    (h : firstIndex cond l = some i) :
    (∃ x, l[i]? = some x ∧ cond x = true) ∧
      ∀ j, j < i → ∀ y, l[j]? = some y → cond y = false := by
  induction l generalizing i with
  | nil => simp [firstIndex] at h
  | cons x xs ih =>
    by_cases hx : cond x = true
    · simp [firstIndex, hx] at h
      subst h
      exact ⟨⟨x, by simp, hx⟩, by intro j hj; omega⟩
    · simp [firstIndex, hx] at h
      obtain ⟨k, hk, rfl⟩ := h
      obtain ⟨⟨y, hy, hcy⟩, hlt⟩ := ih k hk
      refine ⟨⟨y, by simpa using hy, hcy⟩, ?_⟩
      intro j hj z hz
      cases j with
      | zero =>
        simp at hz
        subst hz
        simpa using hx
      | succ j =>
        simp at hz
        exact hlt j (by omega) z hz

theorem firstIndex_lt_length {α : Type} (cond : α → Bool) (l : List α) (i : Nat)
    (h : firstIndex cond l = some i) : i < l.length := by
  obtain ⟨⟨x, hx, _⟩, _⟩ := firstIndex_some_spec cond l i h
  by_contra hlt
  rw [List.getElem?_eq_none (by omega)] at hx
  exact absurd hx (by simp)

/-! ## Lemmas on the store -/

theorem productAt_modifyProduct_self (s : Store) (i : Nat) (f : Product → Product)
    (hi : i < s.products.length) : (s.modifyProduct i f).productAt i = f (s.productAt i) := by
  simp [Store.modifyProduct, Store.productAt, List.getD_eq_getElem?_getD, hi]

theorem productAt_modifyProduct_other (s : Store) (i j : Nat) (f : Product → Product)
    (hij : i ≠ j) : (s.modifyProduct i f).productAt j = s.productAt j := by
  simp [Store.modifyProduct, Store.productAt, List.getD_eq_getElem?_getD,
    List.getElem?_set_ne hij]

theorem recordTransaction_products (s : Store) (pid : Int) (pn : String) (q : Int)
    (u d t : ℚ) (date time : String) :
    (recordTransaction s pid pn q u d t date time).1.products = s.products := by
  unfold recordTransaction
  split <;> rfl

theorem recordTransaction_productAt (s : Store) (pid : Int) (pn : String) (q : Int)
    (u d t : ℚ) (date time : String) (j : Nat) :
    (recordTransaction s pid pn q u d t date time).1.productAt j = s.productAt j := by
  simp [Store.productAt, recordTransaction_products]

theorem findProductByName_some (s : Store) (n : String) (i : Nat)
    (h : findProductByName s n = some i) :
    i < s.products.length ∧ (s.productAt i).name = n ∧ (s.productAt i).active = true ∧
      ∀ j, j < i → ¬ ((s.productAt j).name = n ∧ (s.productAt j).active = true) := by
  have hi : i < s.products.length := firstIndex_lt_length _ _ _ h
  obtain ⟨⟨x, hx, hc⟩, hlt⟩ := firstIndex_some_spec _ _ _ h
  have hxi : s.productAt i = x := by
    simp [Store.productAt, List.getD_eq_getElem?_getD, hx]
  simp only [Bool.and_eq_true, beq_iff_eq] at hc
  refine ⟨hi, by rw [hxi]; exact hc.1, by rw [hxi]; exact hc.2, ?_⟩
  intro j hj hcon
  have hjl : j < s.products.length := by omega
  have hy : s.products[j]? = some (s.productAt j) := by
    simp [Store.productAt, List.getD_eq_getElem?_getD, List.getElem?_eq_getElem hjl]
  have := hlt j hj _ hy
  simp [hcon.1, hcon.2] at this

/-- The store a purchase that passes all checks ends in: the stock of the resolved slot
is decremented and the transaction is recorded with the pricing of `calculateDiscount`. -/
theorem purchaseProduct_accepted (s : Store) (n : String) (q : Int) (date time : String)
    (i : Nat) (hn : n ≠ "") (hf : findProductByName s n = some i) (hq : 0 < q)
    (hle : q ≤ (s.productAt i).quantity) :
    (purchaseProduct s n (.ok q) date time).1 =
      (recordTransaction
        (s.modifyProduct i (fun p => { p with quantity := p.quantity - q }))
        (s.productAt i).id (s.productAt i).name q (s.productAt i).price
        (calculateDiscount q ((s.productAt i).price * q)).1
        (calculateDiscount q ((s.productAt i).price * q)).2 date time).1 := by
  have hi : i < s.products.length := firstIndex_lt_length _ _ _ hf
  have h1 : ¬ q ≤ 0 := by omega
  have h2 : ¬ (s.productAt i).quantity < q := by omega
  simp [purchaseProduct, hn, hf, h1, h2, updateInventoryStock, productAt_modifyProduct_self, hi]

/-- A purchase that passes all checks prints no error. -/
theorem purchaseProduct_accepted_no_error (s : Store) (n : String) (q : Int)
    (date time : String) (i : Nat) (hn : n ≠ "") (hf : findProductByName s n = some i)
    (hq : 0 < q) (hle : q ≤ (s.productAt i).quantity) (m : String) :
    Output.error m ∉ (purchaseProduct s n (.ok q) date time).2 := by
  have h1 : ¬ q ≤ 0 := by omega
  have h2 : ¬ (s.productAt i).quantity < q := by omega
  simp only [purchaseProduct, hn, hf, h1, h2, updateInventoryStock, recordTransaction,
    printWarning, if_false]
  split_ifs <;> simp

/-! ## Lemmas on the statistics loop -/

theorem foldl_statisticsStep (l : List Product) (acc : Statistics) :
    l.foldl statisticsStep acc =
      { totalProducts := acc.totalProducts + (l.countP (fun p => p.active) : Nat),
        lowStock := acc.lowStock + (l.countP
          (fun p => p.active && decide (p.quantity ≠ 0) && decide (p.quantity ≤ 5)) : Nat),
        outOfStock := acc.outOfStock +
          (l.countP (fun p => p.active && decide (p.quantity = 0)) : Nat),
        totalValue := acc.totalValue +
          (l.map (fun p => if p.active then p.price * (p.quantity : ℚ) else 0)).sum } := by
  induction l generalizing acc with
  | nil => simp
  | cons p ps ih =>
    rw [List.foldl_cons, ih]
    by_cases ha : p.active = true
    · by_cases h0 : p.quantity = 0
      · simp [statisticsStep, ha, h0, List.countP_cons]
        refine ⟨?_, ?_⟩ <;> ring
      · by_cases h5 : p.quantity ≤ 5
        · simp [statisticsStep, ha, h0, h5, List.countP_cons, MIN_STOCK_THRESHOLD]
          refine ⟨?_, ?_, ?_⟩ <;> ring
        · simp [statisticsStep, ha, h0, h5, List.countP_cons, MIN_STOCK_THRESHOLD]
          refine ⟨?_, ?_⟩ <;> ring
    · simp [statisticsStep, ha, List.countP_cons]

theorem countP_set {α : Type} (f : α → Bool) (l : List α) (i : Nat) (a b : α)
    (h : l[i]? = some a) :
    (l.set i b).countP f + (if f a then 1 else 0) = l.countP f + (if f b then 1 else 0) := by
  induction l generalizing i with
  | nil => simp at h
  | cons x xs ih =>
    cases i with
    | zero =>
      simp at h
      subst h
      simp [List.countP_cons]
      omega
    | succ i =>
      simp at h
      have := ih i h
      simp [List.countP_cons]
      omega

theorem sum_map_set {α : Type} (g : α → ℚ) (l : List α) (i : Nat) (a b : α)
    (h : l[i]? = some a) :
    ((l.set i b).map g).sum = (l.map g).sum - g a + g b := by
  induction l generalizing i with
  | nil => simp at h
  | cons x xs ih =>
    cases i with
    | zero =>
      simp at h
      subst h
      simp
      ring
    | succ i =>
      simp at h
      rw [List.set_cons_succ, List.map_cons, List.sum_cons, ih i h, List.map_cons,
        List.sum_cons]
      ring

theorem sum_map_active (l : List Product) :
    (l.map (fun p => if p.active then p.price * (p.quantity : ℚ) else 0)).sum =
      ((l.filter (fun p => p.active)).map (fun p => (p.quantity : ℚ) * p.price)).sum := by
  induction l with
  | nil => simp
  | cons p ps ih =>
    by_cases ha : p.active = true
    · simp [ha, ih]
      ring
    · simp [ha, ih]

theorem getElem?_productAt (s : Store) (i : Nat) (hi : i < s.products.length) :
    s.products[i]? = some (s.productAt i) := by
  simp [Store.productAt, List.getD_eq_getElem?_getD, List.getElem?_eq_getElem hi]

/-! ## Lemmas on the low-stock loop -/

theorem checkLowStockLoop_eq (l : List Product) (has : Bool) :
    checkLowStockLoop l has =
      ((if has || (l.filter (fun p => p.active && decide (p.quantity ≤ 5))).isEmpty then []
        else lowStockHead) ++
        (l.filter (fun p => p.active && decide (p.quantity ≤ 5))).map lowStockRowOf,
       has || !(l.filter (fun p => p.active && decide (p.quantity ≤ 5))).isEmpty) := by
  induction l generalizing has with
  | nil => simp [checkLowStockLoop]
  | cons p ps ih =>
    by_cases hp : (p.active && decide (p.quantity ≤ 5)) = true
    · have hp2 : (p.active && decide (p.quantity ≤ MIN_STOCK_THRESHOLD)) = true := hp
      rw [checkLowStockLoop, if_pos hp2, ih]
      simp only [List.filter_cons, hp, if_true]
      cases has <;> simp [lowStockRowOf]
    · have hp2 : ¬ (p.active && decide (p.quantity ≤ MIN_STOCK_THRESHOLD)) = true := hp
      rw [checkLowStockLoop, if_neg hp2, ih]
      simp only [List.filter_cons, hp, if_false]
      simp

/-! ## Lemmas on validation -/

theorem isDuplicateProductId_iff (s : Store) (id : Int) :
    isDuplicateProductId s id = true ↔ ∃ p ∈ s.products, p.active = true ∧ p.id = id := by
  have h := firstIndex_eq_none_iff (fun p : Product => p.id == id && p.active) s.products
  rw [isDuplicateProductId, findProductById, Option.isSome_iff_ne_none, Ne, h]
  simp only [not_forall]
  constructor
  · rintro ⟨p, hp, hc⟩
    refine ⟨p, hp, ?_⟩
    simpa [and_comm] using hc
  · rintro ⟨p, hp, ha, hid⟩
    exact ⟨p, hp, by simp [ha, hid]⟩

theorem categoryExists_iff (s : Store) (name : String) :
    categoryExists s name = true ↔ ∃ c ∈ s.categories, c.active = true ∧ c.name = name := by
  have h := firstIndex_eq_none_iff (fun c : Category => c.name == name && c.active)
    s.categories
  rw [categoryExists, findCategoryByName, Option.isSome_iff_ne_none, Ne, h]
  simp only [not_forall]
  constructor
  · rintro ⟨p, hp, hc⟩
    refine ⟨p, hp, ?_⟩
    simpa [and_comm] using hc
  · rintro ⟨p, hp, ha, hid⟩
    exact ⟨p, hp, by simp [ha, hid]⟩

/-! ## Categories are only written by `addCategory` and `deleteCategory` -/

theorem recordTransaction_categories (s : Store) (pid : Int) (pn : String) (q : Int)
    (u d t : ℚ) (date time : String) :
    (recordTransaction s pid pn q u d t date time).1.categories = s.categories := by
  unfold recordTransaction
  split <;> rfl

theorem updateInventoryStock_categories (s : Store) (product : Option Nat) (q : Int) :
    (updateInventoryStock s product q).1.categories = s.categories := by
  unfold updateInventoryStock
  repeat' split
  all_goals rfl

theorem addProduct_categories (s : Store) (id : NumInput Int) (name category : String)
    (quantity : NumInput Int) (price : NumInput ℚ) :
    (addProduct s id name category quantity price).1.categories = s.categories := by
  unfold addProduct
  dsimp only
  repeat' split
  all_goals rfl

theorem updateProduct_categories (s : Store) (id : NumInput Int) (newName newCategory : String)
    (quantity : NumInput Int) (price : NumInput ℚ) :
    (updateProduct s id newName newCategory quantity price).1.categories = s.categories := by
  unfold updateProduct
  dsimp only
  repeat' split
  all_goals rfl

theorem deleteProduct_categories (s : Store) (id : NumInput Int) :
    (deleteProduct s id).1.categories = s.categories := by
  unfold deleteProduct
  repeat' split
  all_goals rfl

theorem purchaseProduct_categories (s : Store) (name : String) (quantity : NumInput Int)
    (date time : String) :
    (purchaseProduct s name quantity date time).1.categories = s.categories := by
  unfold purchaseProduct
  dsimp only
  repeat' split
  all_goals first
    | rfl
    | simp only [recordTransaction_categories, updateInventoryStock_categories]

theorem addSupplier_categories (s : Store) (name contact : String) :
    (addSupplier s name contact).1.categories = s.categories := by
  unfold addSupplier
  repeat' split
  all_goals rfl

theorem deleteSupplier_categories (s : Store) (name : String) :
    (deleteSupplier s name).1.categories = s.categories := by
  unfold deleteSupplier
  repeat' split
  all_goals rfl

theorem findCategoryByName_some (s : Store) (n : String) (i : Nat)
    (h : findCategoryByName s n = some i) :
    i < s.categories.length ∧ s.categories[i]? = some (s.categoryAt i) ∧
      (s.categoryAt i).name = n ∧ (s.categoryAt i).active = true := by
  have hi : i < s.categories.length := firstIndex_lt_length _ _ _ h
  obtain ⟨⟨x, hx, hc⟩, _⟩ := firstIndex_some_spec _ _ _ h
  have hxi : s.categoryAt i = x := by
    simp [Store.categoryAt, List.getD_eq_getElem?_getD, hx]
  simp only [Bool.and_eq_true, beq_iff_eq] at hc
  exact ⟨hi, by rw [hxi]; exact hx, by rw [hxi]; exact hc.1, by rw [hxi]; exact hc.2⟩

theorem seedStore_categoryInv : CategoryInv seedStore := by
  constructor
  · intro c hc _
    simp [seedStore, loadSampleData, initialStore] at hc
    rcases hc with rfl | rfl | rfl <;> decide
  · intro i j a b hi hj _ _ hab
    have hil : i < 3 := by
      by_contra hcon
      rw [List.getElem?_eq_none (by simp [seedStore, loadSampleData, initialStore]; omega)] at hi
      exact absurd hi (by simp)
    have hjl : j < 3 := by
      by_contra hcon
      rw [List.getElem?_eq_none (by simp [seedStore, loadSampleData, initialStore]; omega)] at hj
      exact absurd hj (by simp)
    interval_cases i <;> interval_cases j <;>
      simp [seedStore, loadSampleData, initialStore] at hi hj <;>
      subst hi <;> subst hj <;> first | rfl | exact absurd hab (by decide)

theorem addCategory_categoryInv (s : Store) (name description : String)
    (h : CategoryInv s) : CategoryInv (addCategory s name description).1 := by
  unfold addCategory
  split
  · exact h
  · split
    · exact h
    · split
      · exact h
      · rename_i hcap hname hex
        have hnone : ¬ ∃ c ∈ s.categories, c.active = true ∧ c.name = name :=
          mt (categoryExists_iff s name).mpr hex
        have hlast : ∀ (k : Nat) (x : Category),
            (s.categories ++ [(⟨name, description, true⟩ : Category)])[k]? = some x →
            (k < s.categories.length ∧ s.categories[k]? = some x) ∨
            (k = s.categories.length ∧ x = ⟨name, description, true⟩) := by
          intro k x hk
          by_cases hlt : k < s.categories.length
          · left
            rw [List.getElem?_append_left hlt] at hk
            exact ⟨hlt, hk⟩
          · right
            rw [List.getElem?_append_right (by omega)] at hk
            have hk0 : k - s.categories.length = 0 := by
              by_contra hne
              rw [List.getElem?_eq_none (by simp; omega)] at hk
              exact absurd hk (by simp)
            rw [hk0] at hk
            simp at hk
            exact ⟨by omega, hk.symm⟩
        constructor
        · intro c hc hact
          simp only [List.mem_append, List.mem_singleton] at hc
          rcases hc with hc | rfl
          · exact h.1 c hc hact
          · exact hname
        · intro i j a b hi hj ha hb hab
          rcases hlast i a hi with ⟨_, hi'⟩ | ⟨hi', rfl⟩
          · rcases hlast j b hj with ⟨_, hj'⟩ | ⟨hj', rfl⟩
            · exact h.2 i j a b hi' hj' ha hb hab
            · exact absurd ⟨a, List.getElem?_mem hi', ha, hab⟩ hnone
          · rcases hlast j b hj with ⟨_, hj'⟩ | ⟨hj', _⟩
            · exact absurd ⟨b, List.getElem?_mem hj', hb, hab.symm⟩ hnone
            · omega

theorem set_inactive_categoryInv (s : Store) (i : Nat) (h : CategoryInv s) :
    CategoryInv
      { s with categories := s.categories.set i { s.categoryAt i with active := false } } := by
  have hget : ∀ (k : Nat) (x : Category),
      (s.categories.set i { s.categoryAt i with active := false })[k]? = some x →
      x.active = true → s.categories[k]? = some x := by
    intro k x hk hact
    by_cases hik : i = k
    · subst hik
      rw [List.getElem?_set_self'] at hk
      cases hs : s.categories[i]? with
      | none => simp [hs] at hk
      | some y =>
        simp [hs] at hk
        subst hk
        simp at hact
    · rw [List.getElem?_set_ne hik] at hk
      exact hk
  constructor
  · intro c hc hact
    obtain ⟨k, hk⟩ := List.getElem?_of_mem hc
    exact h.1 c (List.getElem?_mem (hget k c hk hact)) hact
  · intro a b x y ha hb hx hy hxy
    exact h.2 a b x y (hget a x ha hx) (hget b y hb hy) hx hy hxy

theorem deleteCategory_categoryInv (s : Store) (name : String)
    (h : CategoryInv s) : CategoryInv (deleteCategory s name).1 := by
  unfold deleteCategory
  dsimp only
  repeat' split
  all_goals first | exact h | exact set_inactive_categoryInv s _ h

theorem run_categoryInv (s : Store) (op : Op) (h : CategoryInv s) :
    CategoryInv (op.run s).1 := by
  cases op with
  | addCategory name description => exact addCategory_categoryInv s name description h
  | deleteCategory name => exact deleteCategory_categoryInv s name h
  | addProduct id name category quantity price =>
    exact ⟨by rw [Op.run, addProduct_categories]; exact h.1,
      by rw [Op.run, addProduct_categories]; exact h.2⟩
  | updateProduct id newName newCategory quantity price =>
    exact ⟨by rw [Op.run, updateProduct_categories]; exact h.1,
      by rw [Op.run, updateProduct_categories]; exact h.2⟩
  | deleteProduct id =>
    exact ⟨by rw [Op.run, deleteProduct_categories]; exact h.1,
      by rw [Op.run, deleteProduct_categories]; exact h.2⟩
  | purchaseProduct name quantity date time =>
    exact ⟨by rw [Op.run, purchaseProduct_categories]; exact h.1,
      by rw [Op.run, purchaseProduct_categories]; exact h.2⟩
  | addSupplier name contact =>
    exact ⟨by rw [Op.run, addSupplier_categories]; exact h.1,
      by rw [Op.run, addSupplier_categories]; exact h.2⟩
  | deleteSupplier name =>
    exact ⟨by rw [Op.run, deleteSupplier_categories]; exact h.1,
      by rw [Op.run, deleteSupplier_categories]; exact h.2⟩
  | display => exact h

theorem reachable_categoryInv (s : Store) (h : Reachable s) : CategoryInv s := by
  induction h with
  | seed => exact seedStore_categoryInv
  | step s op _ ih => exact run_categoryInv s op ih

/-! ## Lemmas on uniqueness among active records -/

theorem getElem?_append_singleton_cases {α : Type} (l : List α) (x : α) (k : Nat) (y : α)
    (hk : (l ++ [x])[k]? = some y) :
    (k < l.length ∧ l[k]? = some y) ∨ (k = l.length ∧ y = x) := by
  by_cases hlt : k < l.length
  · left
    rw [List.getElem?_append_left hlt] at hk
    exact ⟨hlt, hk⟩
  · right
    rw [List.getElem?_append_right (by omega)] at hk
    have hk0 : k - l.length = 0 := by
      by_contra hne
      rw [List.getElem?_eq_none (by simp; omega)] at hk
      exact absurd hk (by simp)
    rw [hk0] at hk
    simp at hk
    exact ⟨by omega, hk.symm⟩

theorem uniqueAmongActive_append {α β : Type} (key : α → β) (active : α → Bool)
    (l : List α) (x : α) (h : UniqueAmongActive key active l)
    (hx : ∀ a ∈ l, active a = true → key a ≠ key x) :
    UniqueAmongActive key active (l ++ [x]) := by
  intro i j a b hi hj ha hb hab
  rcases getElem?_append_singleton_cases l x i a hi with ⟨_, hi'⟩ | ⟨hi', hax⟩
  · rcases getElem?_append_singleton_cases l x j b hj with ⟨_, hj'⟩ | ⟨hj', hbx⟩
    · exact h i j a b hi' hj' ha hb hab
    · rw [hbx] at hab
      exact absurd hab (hx a (List.getElem?_mem hi') ha)
  · rcases getElem?_append_singleton_cases l x j b hj with ⟨_, hj'⟩ | ⟨hj', _⟩
    · rw [hax] at hab
      exact absurd hab.symm (hx b (List.getElem?_mem hj') hb)
    · omega

/-- An active record of `l.set i x` sits over an active record of `l` with the same key,
provided `x`, when active, replaces an active record with the same key. -/
theorem getElem?_set_active {α β : Type} (key : α → β) (active : α → Bool)
    (l : List α) (i : Nat) (x : α)
    (hx : ∀ y, l[i]? = some y → active x = true → active y = true ∧ key x = key y)
    (k : Nat) (z : α) (hk : (l.set i x)[k]? = some z) (hz : active z = true) :
    ∃ w, l[k]? = some w ∧ active w = true ∧ key w = key z := by
  by_cases hik : i = k
  · subst hik
    rw [List.getElem?_set_self'] at hk
    cases hs : l[i]? with
    | none => simp [hs] at hk
    | some y =>
      simp [hs] at hk
      subst hk
      obtain ⟨hy, hkey⟩ := hx y hs hz
      exact ⟨y, rfl, hy, hkey.symm⟩
  · rw [List.getElem?_set_ne hik] at hk
    exact ⟨z, hk, hz, rfl⟩

theorem uniqueAmongActive_set {α β : Type} (key : α → β) (active : α → Bool)
    (l : List α) (i : Nat) (x : α) (h : UniqueAmongActive key active l)
    (hx : ∀ y, l[i]? = some y → active x = true → active y = true ∧ key x = key y) :
    UniqueAmongActive key active (l.set i x) := by
  intro a b p q ha hb hp hq hpq
  obtain ⟨p', hp1, hp2, hp3⟩ := getElem?_set_active key active l i x hx a p ha hp
  obtain ⟨q', hq1, hq2, hq3⟩ := getElem?_set_active key active l i x hx b q hb hq
  exact h a b p' q' hp1 hq1 hp2 hq2 (by rw [hp3, hq3, hpq])

theorem forall_active_set {α β : Type} (key : α → β) (active : α → Bool) (P : β → Prop)
    (l : List α) (i : Nat) (x : α) (h : ∀ a ∈ l, active a = true → P (key a))
    (hx : ∀ y, l[i]? = some y → active x = true → active y = true ∧ key x = key y) :
    ∀ a ∈ l.set i x, active a = true → P (key a) := by
  intro a ha hact
  obtain ⟨k, hk⟩ := List.getElem?_of_mem ha
  obtain ⟨w, hw1, hw2, hw3⟩ := getElem?_set_active key active l i x hx k a hk hact
  rw [← hw3]
  exact h w (List.getElem?_mem hw1) hw2

/-! ## What each menu function writes -/

theorem set_map_eq {α β : Type} (key : α → β) (l : List α) (i : Nat) (x : α)
    (h : ∀ y, l[i]? = some y → key x = key y) : (l.set i x).map key = l.map key := by
  induction l generalizing i with
  | nil => simp
  | cons a as ih =>
    cases i with
    | zero =>
      have := h a (by simp)
      simp [this]
    | succ i =>
      have := ih i (fun y hy => h y (by simpa using hy))
      simp [this]

theorem modifyProduct_keys (s : Store) (i : Nat) (f : Product → Product)
    (hf : ∀ p, ((f p).id, (f p).active) = (p.id, p.active)) :
    (s.modifyProduct i f).products.map (fun p => (p.id, p.active)) =
      s.products.map (fun p => (p.id, p.active)) := by
  apply set_map_eq
  intro y hy
  have : s.productAt i = y := by
    simp [Store.productAt, List.getD_eq_getElem?_getD, hy]
  rw [this]
  exact hf y

theorem updateInventoryStock_keys (s : Store) (product : Option Nat) (q : Int) :
    (updateInventoryStock s product q).1.products.map (fun p => (p.id, p.active)) =
      s.products.map (fun p => (p.id, p.active)) := by
  unfold updateInventoryStock
  repeat' split
  all_goals first | rfl | exact modifyProduct_keys s _ _ (fun p => rfl)

theorem updateProduct_keys (s : Store) (id : NumInput Int) (newName newCategory : String)
    (quantity : NumInput Int) (price : NumInput ℚ) :
    (updateProduct s id newName newCategory quantity price).1.products.map
        (fun p => (p.id, p.active)) =
      s.products.map (fun p => (p.id, p.active)) := by
  unfold updateProduct
  dsimp only
  repeat' split
  all_goals
    repeat' first
      | rfl
      | (intro p; rfl)
      | (refine Eq.trans (modifyProduct_keys _ _ _ ?_) ?_)

theorem purchaseProduct_keys (s : Store) (name : String) (quantity : NumInput Int)
    (date time : String) :
    (purchaseProduct s name quantity date time).1.products.map (fun p => (p.id, p.active)) =
      s.products.map (fun p => (p.id, p.active)) := by
  unfold purchaseProduct
  dsimp only
  repeat' split
  all_goals first
    | rfl
    | simp only [recordTransaction_products, updateInventoryStock_keys]

theorem getElem?_of_map_eq {α β : Type} (key : α → β) (l l' : List α)
    (h : l'.map key = l.map key) (i : Nat) (a : α) (ha : l'[i]? = some a) :
    ∃ b, l[i]? = some b ∧ key b = key a := by
  have h1 : (l'.map key)[i]? = some (key a) := by simp [ha]
  rw [h] at h1
  simp at h1
  exact h1

theorem productIdInv_of_keys (s t : Store)
    (hk : t.products.map (fun p => (p.id, p.active)) =
      s.products.map (fun p => (p.id, p.active)))
    (h : ProductIdInv s) : ProductIdInv t := by
  constructor
  · intro p hp hact
    obtain ⟨k, hk1⟩ := List.getElem?_of_mem hp
    obtain ⟨b, hb, hkey⟩ := getElem?_of_map_eq _ _ _ hk k p hk1
    simp only [Prod.mk.injEq] at hkey
    rw [← hkey.1]
    exact h.1 b (List.getElem?_mem hb) (by rw [hkey.2]; exact hact)
  · intro i j a b hi hj ha hb hab
    obtain ⟨a', ha1, ha2⟩ := getElem?_of_map_eq _ _ _ hk i a hi
    obtain ⟨b', hb1, hb2⟩ := getElem?_of_map_eq _ _ _ hk j b hj
    simp only [Prod.mk.injEq] at ha2 hb2
    exact h.2 i j a' b' ha1 hb1 (ha2.2.trans ha) (hb2.2.trans hb)
      (ha2.1.trans (Eq.trans hab hb2.1.symm))

theorem products_length_of_keys (s t : Store)
    (hk : t.products.map (fun p => (p.id, p.active)) =
      s.products.map (fun p => (p.id, p.active))) :
    t.products.length = s.products.length := by
  have := congrArg List.length hk
  simpa using this

theorem recordTransaction_suppliers (s : Store) (pid : Int) (pn : String) (q : Int)
    (u d t : ℚ) (date time : String) :
    (recordTransaction s pid pn q u d t date time).1.suppliers = s.suppliers := by
  unfold recordTransaction
  split <;> rfl

theorem updateInventoryStock_rest (s : Store) (product : Option Nat) (q : Int) :
    (updateInventoryStock s product q).1.suppliers = s.suppliers ∧
    (updateInventoryStock s product q).1.transactions = s.transactions ∧
    (updateInventoryStock s product q).1.nextTransactionId = s.nextTransactionId := by
  unfold updateInventoryStock
  repeat' split
  all_goals exact ⟨rfl, rfl, rfl⟩

theorem addCategory_rest (s : Store) (name description : String) :
    (addCategory s name description).1.products = s.products ∧
    (addCategory s name description).1.suppliers = s.suppliers ∧
    (addCategory s name description).1.transactions = s.transactions ∧
    (addCategory s name description).1.nextTransactionId = s.nextTransactionId := by
  unfold addCategory
  repeat' split
  all_goals exact ⟨rfl, rfl, rfl, rfl⟩

theorem deleteCategory_rest (s : Store) (name : String) :
    (deleteCategory s name).1.products = s.products ∧
    (deleteCategory s name).1.suppliers = s.suppliers ∧
    (deleteCategory s name).1.transactions = s.transactions ∧
    (deleteCategory s name).1.nextTransactionId = s.nextTransactionId := by
  unfold deleteCategory
  dsimp only
  repeat' split
  all_goals exact ⟨rfl, rfl, rfl, rfl⟩

theorem addSupplier_rest (s : Store) (name contact : String) :
    (addSupplier s name contact).1.products = s.products ∧
    (addSupplier s name contact).1.transactions = s.transactions ∧
    (addSupplier s name contact).1.nextTransactionId = s.nextTransactionId := by
  unfold addSupplier
  repeat' split
  all_goals exact ⟨rfl, rfl, rfl⟩

theorem deleteSupplier_rest (s : Store) (name : String) :
    (deleteSupplier s name).1.products = s.products ∧
    (deleteSupplier s name).1.transactions = s.transactions ∧
    (deleteSupplier s name).1.nextTransactionId = s.nextTransactionId := by
  unfold deleteSupplier
  repeat' split
  all_goals exact ⟨rfl, rfl, rfl⟩

theorem addProduct_rest (s : Store) (id : NumInput Int) (name category : String)
    (quantity : NumInput Int) (price : NumInput ℚ) :
    (addProduct s id name category quantity price).1.suppliers = s.suppliers ∧
    (addProduct s id name category quantity price).1.transactions = s.transactions ∧
    (addProduct s id name category quantity price).1.nextTransactionId =
      s.nextTransactionId := by
  unfold addProduct
  dsimp only
  repeat' split
  all_goals exact ⟨rfl, rfl, rfl⟩

theorem updateProduct_rest (s : Store) (id : NumInput Int) (newName newCategory : String)
    (quantity : NumInput Int) (price : NumInput ℚ) :
    (updateProduct s id newName newCategory quantity price).1.suppliers = s.suppliers ∧
    (updateProduct s id newName newCategory quantity price).1.transactions =
      s.transactions ∧
    (updateProduct s id newName newCategory quantity price).1.nextTransactionId =
      s.nextTransactionId := by
  unfold updateProduct
  dsimp only
  repeat' split
  all_goals exact ⟨rfl, rfl, rfl⟩

theorem deleteProduct_rest (s : Store) (id : NumInput Int) :
    (deleteProduct s id).1.suppliers = s.suppliers ∧
    (deleteProduct s id).1.transactions = s.transactions ∧
    (deleteProduct s id).1.nextTransactionId = s.nextTransactionId := by
  unfold deleteProduct
  repeat' split
  all_goals exact ⟨rfl, rfl, rfl⟩

theorem purchaseProduct_suppliers (s : Store) (name : String) (quantity : NumInput Int)
    (date time : String) :
    (purchaseProduct s name quantity date time).1.suppliers = s.suppliers := by
  unfold purchaseProduct
  dsimp only
  repeat' split
  all_goals first
    | rfl
    | simp only [recordTransaction_suppliers, (updateInventoryStock_rest _ _ _).1]

/-- What `purchaseProduct` does to the log: nothing, or it appends one transaction that
carries the old value of the id counter and advances the counter by one. -/
theorem purchaseProduct_log (s : Store) (name : String) (quantity : NumInput Int)
    (date time : String) :
    ((purchaseProduct s name quantity date time).1.transactions = s.transactions ∧
      (purchaseProduct s name quantity date time).1.nextTransactionId =
        s.nextTransactionId) ∨
    (s.transactions.length < MAX_TRANSACTIONS ∧
      ∃ t : Transaction, t.transactionId = s.nextTransactionId ∧
        (purchaseProduct s name quantity date time).1.transactions = s.transactions ++ [t] ∧
        (purchaseProduct s name quantity date time).1.nextTransactionId =
          s.nextTransactionId + 1) := by
  unfold purchaseProduct
  dsimp only
  repeat' split
  all_goals first
    | exact Or.inl ⟨rfl, rfl⟩
    | (simp only [recordTransaction, Store.transactionCount,
        (updateInventoryStock_rest _ _ _).2.1, (updateInventoryStock_rest _ _ _).2.2]
       split
       · exact Or.inl ⟨(updateInventoryStock_rest _ _ _).2.1,
           (updateInventoryStock_rest _ _ _).2.2⟩
       · rename_i hlen
         exact Or.inr ⟨by omega, _, rfl, rfl, rfl⟩)

theorem addProduct_cases (s : Store) (id : NumInput Int) (name category : String)
    (quantity : NumInput Int) (price : NumInput ℚ) :
    (addProduct s id name category quantity price).1 = s ∨
    ∃ (i q : Int) (p : ℚ), id = .ok i ∧ quantity = .ok q ∧ price = .ok p ∧
      s.productCount < MAX_ITEMS ∧ name ≠ "" ∧ category ≠ "" ∧
      (validateProductData s i q p category).1 = true ∧
      (addProduct s id name category quantity price).1 =
        { s with products := s.products ++ [⟨i, name, category, q, p, true⟩] } := by
  unfold addProduct
  dsimp only
  repeat' split
  all_goals first
    | exact Or.inl rfl
    | (rename_i hcap _ i hname hcat _ q _ p hv _
       exact Or.inr ⟨i, q, p, rfl, rfl, rfl, by omega, hname, hcat, by simpa using hv, rfl⟩)

theorem deleteProduct_cases (s : Store) (id : NumInput Int) :
    (deleteProduct s id).1 = s ∨
    ∃ (i : Int) (k : Nat), id = .ok i ∧ findProductById s i = some k ∧
      (deleteProduct s id).1 =
        { s with products := s.products.set k { s.productAt k with active := false } } := by
  unfold deleteProduct
  repeat' split
  all_goals first
    | exact Or.inl rfl
    | (rename_i i _ k hk
       exact Or.inr ⟨i, k, rfl, hk, rfl⟩)

theorem addCategory_cases (s : Store) (name description : String) :
    (addCategory s name description).1 = s ∨
    (s.categoryCount < MAX_ITEMS ∧ name ≠ "" ∧ categoryExists s name = false ∧
      (addCategory s name description).1 =
        { s with categories := s.categories ++ [⟨name, description, true⟩] }) := by
  unfold addCategory
  repeat' split
  all_goals first
    | exact Or.inl rfl
    | (rename_i hcap hname hex
       exact Or.inr ⟨by omega, hname, by simpa using hex, rfl⟩)

theorem deleteCategory_cases (s : Store) (name : String) :
    (deleteCategory s name).1 = s ∨
    ∃ k : Nat, findCategoryByName s name = some k ∧
      (deleteCategory s name).1 =
        { s with categories := s.categories.set k { s.categoryAt k with active := false } } := by
  unfold deleteCategory
  dsimp only
  repeat' split
  all_goals first
    | exact Or.inl rfl
    | (rename_i k hk _
       exact Or.inr ⟨k, hk, rfl⟩)

theorem addSupplier_cases (s : Store) (name contact : String) :
    (addSupplier s name contact).1 = s ∨
    (s.supplierCount < MAX_ITEMS ∧ name ≠ "" ∧ findSupplierByName s name = none ∧
      (addSupplier s name contact).1 =
        { s with suppliers := s.suppliers ++ [⟨name, contact, true⟩] }) := by
  unfold addSupplier
  repeat' split
  all_goals first
    | exact Or.inl rfl
    | (rename_i hcap hname hex
       exact Or.inr ⟨by omega, hname, by simpa using hex, rfl⟩)

theorem deleteSupplier_cases (s : Store) (name : String) :
    (deleteSupplier s name).1 = s ∨
    ∃ k : Nat, findSupplierByName s name = some k ∧
      (deleteSupplier s name).1 =
        { s with suppliers := s.suppliers.set k { s.supplierAt k with active := false } } := by
  unfold deleteSupplier
  repeat' split
  all_goals first
    | exact Or.inl rfl
    | (rename_i k hk
       exact Or.inr ⟨k, hk, rfl⟩)

/-! ## Invariants of the reachable stores -/

theorem validateProductData_true (s : Store) (id quantity : Int) (price : ℚ)
    (category : String) (h : (validateProductData s id quantity price category).1 = true) :
    0 < id ∧ isDuplicateProductId s id = false ∧ 0 ≤ quantity ∧ 0 ≤ price ∧
      categoryExists s category = true := by
  unfold validateProductData at h
  by_cases h1 : id ≤ 0
  · simp [h1] at h
  · by_cases h2 : isDuplicateProductId s id = true
    · simp [h1, h2] at h
    · by_cases h3 : quantity < 0
      · simp [h1, h2, h3] at h
      · by_cases h4 : price < 0
        · simp [h1, h2, h3, h4] at h
        · by_cases h5 : categoryExists s category = true
          · exact ⟨by omega, by simpa using h2, by omega, by simpa using h4, h5⟩
          · simp [h1, h2, h3, h4, h5] at h

theorem seedStore_productIdInv : ProductIdInv seedStore := by
  constructor
  · intro p hp _
    simp [seedStore, loadSampleData, initialStore] at hp
    rcases hp with rfl | rfl | rfl | rfl | rfl <;> decide
  · intro i j a b hi hj _ _ hab
    have hil : i < 5 := by
      by_contra hcon
      rw [List.getElem?_eq_none (by simp [seedStore, loadSampleData, initialStore]; omega)] at hi
      exact absurd hi (by simp)
    have hjl : j < 5 := by
      by_contra hcon
      rw [List.getElem?_eq_none (by simp [seedStore, loadSampleData, initialStore]; omega)] at hj
      exact absurd hj (by simp)
    interval_cases i <;> interval_cases j <;>
      simp [seedStore, loadSampleData, initialStore] at hi hj <;>
      subst hi <;> subst hj <;> first | rfl | exact absurd hab (by decide)

theorem addProduct_productIdInv (s : Store) (id : NumInput Int) (name category : String)
    (quantity : NumInput Int) (price : NumInput ℚ) (h : ProductIdInv s) :
    ProductIdInv (addProduct s id name category quantity price).1 := by
  rcases addProduct_cases s id name category quantity price with
    hs | ⟨i, q, p, _, _, _, _, _, _, hv, hs⟩
  · rw [hs]
    exact h
  · rw [hs]
    obtain ⟨hpos, hdup, _, _, _⟩ := validateProductData_true s i q p category hv
    have hnone : ¬ ∃ x ∈ s.products, x.active = true ∧ x.id = i := by
      intro hex
      have := (isDuplicateProductId_iff s i).mpr hex
      rw [hdup] at this
      exact absurd this (by simp)
    constructor
    · intro x hx hact
      simp only [List.mem_append, List.mem_singleton] at hx
      rcases hx with hx | rfl
      · exact h.1 x hx hact
      · exact hpos
    · apply uniqueAmongActive_append _ _ _ _ h.2
      intro a ha hact hid
      exact hnone ⟨a, ha, hact, hid⟩

theorem deleteProduct_productIdInv (s : Store) (id : NumInput Int) (h : ProductIdInv s) :
    ProductIdInv (deleteProduct s id).1 := by
  rcases deleteProduct_cases s id with hs | ⟨i, k, _, _, hs⟩
  · rw [hs]
    exact h
  · rw [hs]
    constructor
    · exact forall_active_set (fun p : Product => p.id) (fun p => p.active) (fun n => 0 < n)
        s.products k _ h.1 (by intro y _ hact; simp at hact)
    · exact uniqueAmongActive_set _ _ _ _ _ h.2 (by intro y _ hact; simp at hact)

theorem run_productIdInv (s : Store) (op : Op) (h : ProductIdInv s) :
    ProductIdInv (op.run s).1 := by
  cases op with
  | addCategory name description =>
    exact ⟨by rw [Op.run, (addCategory_rest s name description).1]; exact h.1,
      by rw [Op.run, (addCategory_rest s name description).1]; exact h.2⟩
  | deleteCategory name =>
    exact ⟨by rw [Op.run, (deleteCategory_rest s name).1]; exact h.1,
      by rw [Op.run, (deleteCategory_rest s name).1]; exact h.2⟩
  | addProduct id name category quantity price =>
    exact addProduct_productIdInv s id name category quantity price h
  | updateProduct id newName newCategory quantity price =>
    exact productIdInv_of_keys s _ (updateProduct_keys s id newName newCategory quantity price) h
  | deleteProduct id => exact deleteProduct_productIdInv s id h
  | purchaseProduct name quantity date time =>
    exact productIdInv_of_keys s _ (purchaseProduct_keys s name quantity date time) h
  | addSupplier name contact =>
    exact ⟨by rw [Op.run, (addSupplier_rest s name contact).1]; exact h.1,
      by rw [Op.run, (addSupplier_rest s name contact).1]; exact h.2⟩
  | deleteSupplier name =>
    exact ⟨by rw [Op.run, (deleteSupplier_rest s name).1]; exact h.1,
      by rw [Op.run, (deleteSupplier_rest s name).1]; exact h.2⟩
  | display => exact h

theorem reachable_productIdInv (s : Store) (h : Reachable s) : ProductIdInv s := by
  induction h with
  | seed => exact seedStore_productIdInv
  | step s op _ ih => exact run_productIdInv s op ih

theorem seedStore_supplierInv : SupplierInv seedStore := by
  constructor
  · intro c hc _
    simp [seedStore, loadSampleData, initialStore] at hc
    rcases hc with rfl | rfl <;> decide
  · intro i j a b hi hj _ _ hab
    have hil : i < 2 := by
      by_contra hcon
      rw [List.getElem?_eq_none (by simp [seedStore, loadSampleData, initialStore]; omega)] at hi
      exact absurd hi (by simp)
    have hjl : j < 2 := by
      by_contra hcon
      rw [List.getElem?_eq_none (by simp [seedStore, loadSampleData, initialStore]; omega)] at hj
      exact absurd hj (by simp)
    interval_cases i <;> interval_cases j <;>
      simp [seedStore, loadSampleData, initialStore] at hi hj <;>
      subst hi <;> subst hj <;> first | rfl | exact absurd hab (by decide)

theorem addSupplier_supplierInv (s : Store) (name contact : String) (h : SupplierInv s) :
    SupplierInv (addSupplier s name contact).1 := by
  rcases addSupplier_cases s name contact with hs | ⟨_, hname, hnone, hs⟩
  · rw [hs]
    exact h
  · rw [hs]
    have hno := (firstIndex_eq_none_iff _ _).mp hnone
    constructor
    · intro x hx hact
      simp only [List.mem_append, List.mem_singleton] at hx
      rcases hx with hx | rfl
      · exact h.1 x hx hact
      · exact hname
    · apply uniqueAmongActive_append _ _ _ _ h.2
      intro a ha hact hid
      have := hno a ha
      simp only [Bool.and_eq_false_imp, beq_iff_eq] at this
      have := this hid
      rw [hact] at this
      exact absurd this (by simp)

theorem deleteSupplier_supplierInv (s : Store) (name : String) (h : SupplierInv s) :
    SupplierInv (deleteSupplier s name).1 := by
  rcases deleteSupplier_cases s name with hs | ⟨k, _, hs⟩
  · rw [hs]
    exact h
  · rw [hs]
    constructor
    · exact forall_active_set (fun c : Supplier => c.name) (fun c => c.active)
        (fun n => n ≠ "") s.suppliers k _ h.1 (by intro y _ hact; simp at hact)
    · exact uniqueAmongActive_set _ _ _ _ _ h.2 (by intro y _ hact; simp at hact)

theorem run_supplierInv (s : Store) (op : Op) (h : SupplierInv s) :
    SupplierInv (op.run s).1 := by
  cases op with
  | addCategory name description =>
    exact ⟨by rw [Op.run, (addCategory_rest s name description).2.1]; exact h.1,
      by rw [Op.run, (addCategory_rest s name description).2.1]; exact h.2⟩
  | deleteCategory name =>
    exact ⟨by rw [Op.run, (deleteCategory_rest s name).2.1]; exact h.1,
      by rw [Op.run, (deleteCategory_rest s name).2.1]; exact h.2⟩
  | addProduct id name category quantity price =>
    exact ⟨by rw [Op.run, (addProduct_rest s id name category quantity price).1]; exact h.1,
      by rw [Op.run, (addProduct_rest s id name category quantity price).1]; exact h.2⟩
  | updateProduct id newName newCategory quantity price =>
    exact ⟨by
        rw [Op.run, (updateProduct_rest s id newName newCategory quantity price).1]
        exact h.1,
      by
        rw [Op.run, (updateProduct_rest s id newName newCategory quantity price).1]
        exact h.2⟩
  | deleteProduct id =>
    exact ⟨by rw [Op.run, (deleteProduct_rest s id).1]; exact h.1,
      by rw [Op.run, (deleteProduct_rest s id).1]; exact h.2⟩
  | purchaseProduct name quantity date time =>
    exact ⟨by rw [Op.run, purchaseProduct_suppliers]; exact h.1,
      by rw [Op.run, purchaseProduct_suppliers]; exact h.2⟩
  | addSupplier name contact => exact addSupplier_supplierInv s name contact h
  | deleteSupplier name => exact deleteSupplier_supplierInv s name h
  | display => exact h

theorem reachable_supplierInv (s : Store) (h : Reachable s) : SupplierInv s := by
  induction h with
  | seed => exact seedStore_supplierInv
  | step s op _ ih => exact run_supplierInv s op ih

/-- What a menu choice does to the log: nothing, or it appends one transaction that
carries the old value of the id counter and advances the counter by one. -/
theorem run_log (s : Store) (op : Op) :
    ((op.run s).1.transactions = s.transactions ∧
      (op.run s).1.nextTransactionId = s.nextTransactionId) ∨
    (s.transactions.length < MAX_TRANSACTIONS ∧
      ∃ t : Transaction, t.transactionId = s.nextTransactionId ∧
        (op.run s).1.transactions = s.transactions ++ [t] ∧
        (op.run s).1.nextTransactionId = s.nextTransactionId + 1) := by
  cases op with
  | addCategory name description =>
    exact Or.inl ⟨(addCategory_rest s name description).2.2.1,
      (addCategory_rest s name description).2.2.2⟩
  | deleteCategory name =>
    exact Or.inl ⟨(deleteCategory_rest s name).2.2.1, (deleteCategory_rest s name).2.2.2⟩
  | addProduct id name category quantity price =>
    exact Or.inl ⟨(addProduct_rest s id name category quantity price).2.1,
      (addProduct_rest s id name category quantity price).2.2⟩
  | updateProduct id newName newCategory quantity price =>
    exact Or.inl ⟨(updateProduct_rest s id newName newCategory quantity price).2.1,
      (updateProduct_rest s id newName newCategory quantity price).2.2⟩
  | deleteProduct id =>
    exact Or.inl ⟨(deleteProduct_rest s id).2.1, (deleteProduct_rest s id).2.2⟩
  | purchaseProduct name quantity date time =>
    exact purchaseProduct_log s name quantity date time
  | addSupplier name contact =>
    exact Or.inl ⟨(addSupplier_rest s name contact).2.1, (addSupplier_rest s name contact).2.2⟩
  | deleteSupplier name =>
    exact Or.inl ⟨(deleteSupplier_rest s name).2.1, (deleteSupplier_rest s name).2.2⟩
  | display => exact Or.inl ⟨rfl, rfl⟩

theorem run_logInv (s : Store) (op : Op) (h : LogInv s) : LogInv (op.run s).1 := by
  obtain ⟨hlen, hsorted, hbelow⟩ := h
  rcases run_log s op with ⟨ht, hn⟩ | ⟨hlt, t, hid, ht, hn⟩
  · exact ⟨by rw [ht]; exact hlen, by rw [ht]; exact hsorted, by rw [ht, hn]; exact hbelow⟩
  · refine ⟨?_, ?_, ?_⟩
    · rw [ht]
      simp only [List.length_append, List.length_singleton]
      omega
    · rw [ht, List.map_append, List.pairwise_append]
      refine ⟨hsorted, by simp, ?_⟩
      intro a ha b hb
      simp only [List.map_cons, List.map_nil, List.mem_singleton] at hb
      obtain ⟨x, hx, rfl⟩ := List.mem_map.mp ha
      rw [hb, hid]
      exact hbelow x hx
    · rw [ht, hn]
      intro x hx
      simp only [List.mem_append, List.mem_singleton] at hx
      rcases hx with hx | rfl
      · have := hbelow x hx
        omega
      · rw [hid]
        omega

theorem seedStore_logInv : LogInv seedStore := by
  refine ⟨?_, ?_, ?_⟩ <;> simp [seedStore, loadSampleData, initialStore]

theorem reachable_logInv (s : Store) (h : Reachable s) : LogInv s := by
  induction h with
  | seed => exact seedStore_logInv
  | step s op _ ih => exact run_logInv s op ih

/-- What a menu choice does to the three record counts: each stays, or grows by one
from below `MAX_ITEMS`. -/
theorem run_counts (s : Store) (op : Op) :
    ((op.run s).1.productCount = s.productCount ∨
      (s.productCount < MAX_ITEMS ∧ (op.run s).1.productCount = s.productCount + 1)) ∧
    ((op.run s).1.categoryCount = s.categoryCount ∨
      (s.categoryCount < MAX_ITEMS ∧ (op.run s).1.categoryCount = s.categoryCount + 1)) ∧
    ((op.run s).1.supplierCount = s.supplierCount ∨
      (s.supplierCount < MAX_ITEMS ∧ (op.run s).1.supplierCount = s.supplierCount + 1)) := by
  cases op with
  | addCategory name description =>
    refine ⟨Or.inl ?_, ?_, Or.inl ?_⟩
    · simp only [Op.run, Store.productCount, (addCategory_rest s name description).1]
    · rcases addCategory_cases s name description with hs | ⟨hcap, _, _, hs⟩
      · exact Or.inl (by simp only [Op.run, hs])
      · exact Or.inr ⟨hcap, by simp only [Op.run, hs, Store.categoryCount]; simp⟩
    · simp only [Op.run, Store.supplierCount, (addCategory_rest s name description).2.1]
  | deleteCategory name =>
    refine ⟨Or.inl ?_, Or.inl ?_, Or.inl ?_⟩
    · simp only [Op.run, Store.productCount, (deleteCategory_rest s name).1]
    · rcases deleteCategory_cases s name with hs | ⟨k, _, hs⟩
      · simp only [Op.run, hs]
      · simp only [Op.run, hs, Store.categoryCount]; simp
    · simp only [Op.run, Store.supplierCount, (deleteCategory_rest s name).2.1]
  | addProduct id name category quantity price =>
    refine ⟨?_, Or.inl ?_, Or.inl ?_⟩
    · rcases addProduct_cases s id name category quantity price with
        hs | ⟨_, _, _, _, _, _, hcap, _, _, _, hs⟩
      · exact Or.inl (by simp only [Op.run, hs])
      · exact Or.inr ⟨hcap, by simp only [Op.run, hs, Store.productCount]; simp⟩
    · simp only [Op.run, Store.categoryCount, addProduct_categories]
    · simp only [Op.run, Store.supplierCount,
        (addProduct_rest s id name category quantity price).1]
  | updateProduct id newName newCategory quantity price =>
    refine ⟨Or.inl ?_, Or.inl ?_, Or.inl ?_⟩
    · exact products_length_of_keys s _
        (updateProduct_keys s id newName newCategory quantity price)
    · simp only [Op.run, Store.categoryCount, updateProduct_categories]
    · simp only [Op.run, Store.supplierCount,
        (updateProduct_rest s id newName newCategory quantity price).1]
  | deleteProduct id =>
    refine ⟨Or.inl ?_, Or.inl ?_, Or.inl ?_⟩
    · rcases deleteProduct_cases s id with hs | ⟨_, k, _, _, hs⟩
      · simp only [Op.run, hs]
      · simp only [Op.run, hs, Store.productCount]; simp
    · simp only [Op.run, Store.categoryCount, deleteProduct_categories]
    · simp only [Op.run, Store.supplierCount, (deleteProduct_rest s id).1]
  | purchaseProduct name quantity date time =>
    refine ⟨Or.inl ?_, Or.inl ?_, Or.inl ?_⟩
    · exact products_length_of_keys s _ (purchaseProduct_keys s name quantity date time)
    · simp only [Op.run, Store.categoryCount, purchaseProduct_categories]
    · simp only [Op.run, Store.supplierCount, purchaseProduct_suppliers]
  | addSupplier name contact =>
    refine ⟨Or.inl ?_, Or.inl ?_, ?_⟩
    · simp only [Op.run, Store.productCount, (addSupplier_rest s name contact).1]
    · simp only [Op.run, Store.categoryCount, addSupplier_categories]
    · rcases addSupplier_cases s name contact with hs | ⟨hcap, _, _, hs⟩
      · exact Or.inl (by simp only [Op.run, hs])
      · exact Or.inr ⟨hcap, by simp only [Op.run, hs, Store.supplierCount]; simp⟩
  | deleteSupplier name =>
    refine ⟨Or.inl ?_, Or.inl ?_, Or.inl ?_⟩
    · simp only [Op.run, Store.productCount, (deleteSupplier_rest s name).1]
    · simp only [Op.run, Store.categoryCount, deleteSupplier_categories]
    · rcases deleteSupplier_cases s name with hs | ⟨k, _, hs⟩
      · simp only [Op.run, hs]
      · simp only [Op.run, hs, Store.supplierCount]; simp
  | display => exact ⟨Or.inl rfl, Or.inl rfl, Or.inl rfl⟩

theorem run_capacityInv (s : Store) (op : Op) (h : CapacityInv s) :
    CapacityInv (op.run s).1 := by
  obtain ⟨hp, hc, hs⟩ := h
  obtain ⟨h1, h2, h3⟩ := run_counts s op
  refine ⟨?_, ?_, ?_⟩
  · rcases h1 with h1 | ⟨hlt, h1⟩ <;> (rw [h1]; omega)
  · rcases h2 with h2 | ⟨hlt, h2⟩ <;> (rw [h2]; omega)
  · rcases h3 with h3 | ⟨hlt, h3⟩ <;> (rw [h3]; omega)

theorem reachable_capacityInv (s : Store) (h : Reachable s) : CapacityInv s := by
  induction h with
  | seed =>
    refine ⟨?_, ?_, ?_⟩ <;>
    simp [seedStore, loadSampleData, initialStore, Store.productCount, Store.categoryCount,
      Store.supplierCount, MAX_ITEMS]
  | step s op _ ih => exact run_capacityInv s op ih

theorem reachableFrom_productCount (s t : Store) (h : ReachableFrom s t) :
    s.productCount ≤ t.productCount := by
  induction h with
  | refl => exact le_refl _
  | step t op _ ih =>
    rcases (run_counts t op).1 with h1 | ⟨_, h1⟩ <;> (rw [h1]; omega)

/-! ## The product constraints under the menu choices other than `updateProduct` -/

theorem deleteCategory_cases_guard (s : Store) (name : String) :
    (deleteCategory s name).1 = s ∨
    ∃ k : Nat, findCategoryByName s name = some k ∧
      (∀ p ∈ s.products, p.active = true → p.category ≠ name) ∧
      (deleteCategory s name).1 =
        { s with categories := s.categories.set k { s.categoryAt k with active := false } } := by
  unfold deleteCategory
  dsimp only
  repeat' split
  all_goals first
    | exact Or.inl rfl
    | (rename_i k hk huse
       refine Or.inr ⟨k, hk, ?_, rfl⟩
       intro p hp hact hcat
       apply huse
       rw [List.any_eq_true]
       exact ⟨p, hp, by simp [hact, hcat]⟩)

theorem purchaseProduct_cases (s : Store) (name : String) (quantity : NumInput Int)
    (date time : String) :
    (purchaseProduct s name quantity date time).1.products = s.products ∨
    ∃ (i : Nat) (q : Int), i < s.products.length ∧ 0 < q ∧ q ≤ (s.productAt i).quantity ∧
      (purchaseProduct s name quantity date time).1.products =
        s.products.set i { s.productAt i with quantity := (s.productAt i).quantity - q } := by
  by_cases hn : name = ""
  · exact Or.inl (by simp [purchaseProduct, hn])
  · cases hf : findProductByName s name with
    | none => exact Or.inl (by simp [purchaseProduct, hn, hf])
    | some i =>
      cases quantity with
      | fail stored => exact Or.inl (by simp [purchaseProduct, hn, hf])
      | ok q =>
        by_cases hq : q ≤ 0
        · exact Or.inl (by simp [purchaseProduct, hn, hf, hq])
        · by_cases hstock : (s.productAt i).quantity < q
          · exact Or.inl (by simp [purchaseProduct, hn, hf, hq, hstock])
          · refine Or.inr ⟨i, q, firstIndex_lt_length _ _ _ hf, by omega, by omega, ?_⟩
            rw [purchaseProduct_accepted s name q date time i hn hf (by omega) (by omega),
              recordTransaction_products]
            rfl

theorem run_productRecordInv (s : Store) (op : Op)
    (hop : ∀ id newName newCategory quantity price,
      op ≠ Op.updateProduct id newName newCategory quantity price)
    (h : ProductRecordInv s) : ProductRecordInv (op.run s).1 := by
  cases op with
  | addCategory name description =>
    intro p hp hact
    rw [Op.run, (addCategory_rest s name description).1] at hp
    obtain ⟨h1, h2, h3, c, hcm, hca, hcn⟩ := h p hp hact
    refine ⟨h1, h2, h3, c, ?_, hca, hcn⟩
    rcases addCategory_cases s name description with hs | ⟨_, _, _, hs⟩
    · rw [Op.run, hs]
      exact hcm
    · rw [Op.run, hs]
      exact List.mem_append_left _ hcm
  | deleteCategory name =>
    intro p hp hact
    rw [Op.run, (deleteCategory_rest s name).1] at hp
    obtain ⟨h1, h2, h3, c, hcm, hca, hcn⟩ := h p hp hact
    refine ⟨h1, h2, h3, c, ?_, hca, hcn⟩
    rcases deleteCategory_cases_guard s name with hs | ⟨k, hk, hguard, hs⟩
    · rw [Op.run, hs]
      exact hcm
    · rw [Op.run, hs]
      obtain ⟨_, hget, hkname, _⟩ := findCategoryByName_some s name k hk
      obtain ⟨j, hj⟩ := List.getElem?_of_mem hcm
      have hjk : k ≠ j := by
        intro hkj
        subst hkj
        rw [hget] at hj
        have hceq : s.categoryAt k = c := Option.some.inj hj
        exact hguard p hp hact (by rw [← hcn, ← hceq, hkname])
      apply List.getElem?_mem
      show (s.categories.set k _)[j]? = some c
      rw [List.getElem?_set_ne hjk]
      exact hj
  | addProduct id name category quantity price =>
    intro p hp hact
    rw [Op.run, addProduct_categories]
    rcases addProduct_cases s id name category quantity price with
      hs | ⟨i, q, pr, _, _, _, _, hname, _, hv, hs⟩
    · rw [Op.run, hs] at hp
      exact h p hp hact
    · rw [Op.run, hs] at hp
      simp only [List.mem_append, List.mem_singleton] at hp
      rcases hp with hp | rfl
      · exact h p hp hact
      · obtain ⟨_, _, hq, hpr, hcat⟩ := validateProductData_true s i q pr category hv
        exact ⟨hname, hq, hpr, (categoryExists_iff s category).mp hcat⟩
  | updateProduct id newName newCategory quantity price =>
    exact absurd rfl (hop id newName newCategory quantity price)
  | deleteProduct id =>
    intro p hp hact
    rw [Op.run, deleteProduct_categories]
    rcases deleteProduct_cases s id with hs | ⟨_, k, _, _, hs⟩
    · rw [Op.run, hs] at hp
      exact h p hp hact
    · rw [Op.run, hs] at hp
      rcases List.mem_or_eq_of_mem_set hp with hp | rfl
      · exact h p hp hact
      · simp at hact
  | purchaseProduct name quantity date time =>
    intro p hp hact
    rw [Op.run, purchaseProduct_categories]
    rcases purchaseProduct_cases s name quantity date time with hs | ⟨i, q, hi, hq, hle, hs⟩
    · rw [Op.run, hs] at hp
      exact h p hp hact
    · rw [Op.run, hs] at hp
      rcases List.mem_or_eq_of_mem_set hp with hp | rfl
      · exact h p hp hact
      · have hmem : s.productAt i ∈ s.products := List.getElem?_mem (getElem?_productAt s i hi)
        obtain ⟨h1, _, h3, h4⟩ := h (s.productAt i) hmem hact
        exact ⟨h1, by simp only; omega, h3, h4⟩
  | addSupplier name contact =>
    intro p hp hact
    rw [Op.run, (addSupplier_rest s name contact).1] at hp
    rw [Op.run, addSupplier_categories]
    exact h p hp hact
  | deleteSupplier name =>
    intro p hp hact
    rw [Op.run, (deleteSupplier_rest s name).1] at hp
    rw [Op.run, deleteSupplier_categories]
    exact h p hp hact
  | display => exact h

theorem seedStore_productRecordInv : ProductRecordInv seedStore := by
  intro p hp _
  simp [seedStore, loadSampleData, initialStore] at hp
  rcases hp with rfl | rfl | rfl | rfl | rfl <;>
    refine ⟨by decide, by decide, by norm_num, ?_⟩ <;>
    simp [seedStore, loadSampleData, initialStore]

/-- Along a run from the seed store that never chooses `updateProduct`, the constraints
on product records hold. -/
theorem runOps_productRecordInv (s : Store) (ops : List Op)
    (hops : ∀ op ∈ ops, ∀ id newName newCategory quantity price,
      op ≠ Op.updateProduct id newName newCategory quantity price)
    (h : ProductRecordInv s) : ProductRecordInv (runOps s ops) := by
  induction ops generalizing s with
  | nil => exact h
  | cons op ops ih =>
    exact ih (op.run s).1 (fun o ho => hops o (List.mem_cons_of_mem _ ho))
      (run_productRecordInv s op (hops op (List.mem_cons_self _ _)) h)

/-! ## Lemmas on the scenario stores -/

theorem reachable_runOps (s : Store) (ops : List Op) (h : Reachable s) :
    Reachable (runOps s ops) := by
  induction ops generalizing s with
  | nil => exact h
  | cons op ops ih => exact ih _ (Reachable.step s op h)

theorem runOps_append (s : Store) (ops : List Op) (op : Op) :
    runOps s (ops ++ [op]) = (op.run (runOps s ops)).1 := by
  simp [runOps, List.foldl_append]

theorem fillProductOps_succ (n : Nat) :
    fillProductOps (n + 1) = fillProductOps n ++
      [Op.addProduct (.ok (6 + (n : Int))) "Item" "Food" (.ok 10) (.ok 1)] := by
  simp [fillProductOps, List.range_succ]

theorem runOps_fillProductOps (n : Nat) (hn : n ≤ 95) :
    runOps seedStore (fillProductOps n) =
      { seedStore with
        products := seedStore.products ++
          (List.range n).map
              (fun (k : Nat) => ⟨6 + (k : Int), "Item", "Food", 10, 1, true⟩) } := by
  induction n with
  | zero => simp [runOps, fillProductOps]
  | succ n ih =>
    rw [fillProductOps_succ, runOps_append, ih (by omega)]
    have hdup : isDuplicateProductId
        { seedStore with
          products := seedStore.products ++
            (List.range n).map
              (fun (k : Nat) => ⟨6 + (k : Int), "Item", "Food", 10, 1, true⟩) }
        (6 + (n : Int)) = false := by
      by_contra hcon
      obtain ⟨p, hp, _, hid⟩ := (isDuplicateProductId_iff _ _).mp (by simpa using hcon)
      simp only [List.mem_append, List.mem_map, List.mem_range] at hp
      rcases hp with hp | ⟨k, hk, rfl⟩
      · simp [seedStore, loadSampleData, initialStore] at hp
        rcases hp with rfl | rfl | rfl | rfl | rfl <;> simp at hid <;> omega
      · simp at hid
        omega
    have hcat : categoryExists
        { seedStore with
          products := seedStore.products ++
            (List.range n).map
              (fun (k : Nat) => ⟨6 + (k : Int), "Item", "Food", 10, 1, true⟩) }
        "Food" = true := by
      simp [categoryExists, findCategoryByName, firstIndex, seedStore, loadSampleData,
        initialStore]
    have hcap : ¬ (Store.productCount
        { seedStore with
          products := seedStore.products ++
            (List.range n).map
              (fun (k : Nat) => ⟨6 + (k : Int), "Item", "Food", 10, 1, true⟩) }
        ≥ MAX_ITEMS) := by
      simp [Store.productCount, seedStore, loadSampleData, initialStore, MAX_ITEMS]
      omega
    have hid : ¬ (6 + (n : Int) ≤ 0) := by omega
    have hprice : ¬ ((1 : ℚ) < 0) := by norm_num
    simp [Op.run, addProduct, validateProductData, hdup, hcat, hcap, hid, hprice,
      List.range_succ]

theorem fullProductStore_spec :
    Reachable fullProductStore ∧ fullProductStore.productCount = 100 ∧
      findProductById fullProductStore 1 = some 0 := by
  refine ⟨reachable_runOps _ _ Reachable.seed, ?_, ?_⟩
  · rw [fullProductStore, runOps_fillProductOps 95 (le_refl _)]
    simp [Store.productCount, seedStore, loadSampleData, initialStore]
  · rw [fullProductStore, runOps_fillProductOps 95 (le_refl _)]
    simp [findProductById, firstIndex, seedStore, loadSampleData, initialStore]

theorem bulkStore_eq :
    bulkStore =
      { seedStore with
        products := seedStore.products ++ [⟨6, "Bulk", "Food", 1000, 1, true⟩] } := by
  have hprice : ¬ ((1 : ℚ) < 0) := by norm_num
  simp [bulkStore, addProduct, validateProductData, isDuplicateProductId, categoryExists,
    findCategoryByName, findProductById, firstIndex, seedStore, loadSampleData,
    initialStore, Store.productCount, MAX_ITEMS, hprice]

theorem fillLogOps_succ (n : Nat) :
    fillLogOps (n + 1) = fillLogOps n ++
      [Op.purchaseProduct "Bulk" (.ok 1) "01/01/2026" "09:00:00"] := by
  simp [fillLogOps, List.replicate_succ']

theorem runOps_fillLogOps (n : Nat) (hn : n ≤ 200) :
    runOps bulkStore (fillLogOps n) =
      { seedStore with
        products := seedStore.products ++
          [⟨6, "Bulk", "Food", 1000 - (n : Int), 1, true⟩],
        transactions := (List.range n).map
          (fun (k : Nat) => ⟨(k : Int) + 1, "Bulk", 6, 1, 1, 1, 0, "01/01/2026", "09:00:00"⟩),
        nextTransactionId := (n : Int) + 1 } := by
  induction n with
  | zero =>
    simp [runOps, fillLogOps, bulkStore_eq, seedStore, loadSampleData, initialStore]
  | succ n ih =>
    rw [fillLogOps_succ, runOps_append, ih (by omega)]
    have hstock : ¬ (1000 - (n : Int) < 1) := by omega
    have hlen : ¬ (200 ≤ n) := by omega
    have hq : ¬ ((5 : ℚ) ≤ 1) := by norm_num
    simp [Op.run, purchaseProduct, findProductByName, firstIndex, seedStore, loadSampleData,
      initialStore, Store.productAt, calculateDiscount, updateInventoryStock,
      recordTransaction, Store.modifyProduct, Store.transactionCount, MAX_TRANSACTIONS,
      BULK_DISCOUNT_THRESHOLD, hstock, hlen, hq, List.range_succ]
    omega

theorem fullLogStore_spec :
    Reachable fullLogStore ∧ fullLogStore.transactions.length = 200 ∧
      findProductByName fullLogStore "Bulk" = some 5 ∧
      (fullLogStore.productAt 5).quantity = 800 ∧ fullLogStore.nextTransactionId = 201 := by
  have hb : Reachable bulkStore :=
    Reachable.step seedStore (Op.addProduct (.ok 6) "Bulk" "Food" (.ok 1000) (.ok 1))
      Reachable.seed
  refine ⟨reachable_runOps _ _ hb, ?_, ?_, ?_, ?_⟩ <;>
  rw [fullLogStore, runOps_fillLogOps 200 (le_refl _)]
  · simp only [List.length_map, List.length_range]
  · simp [findProductByName, firstIndex, seedStore, loadSampleData, initialStore]
  · simp [seedStore, loadSampleData, initialStore, Store.productAt]
  · norm_num

/-! ## What a delete that finds its record does -/

theorem deleteProduct_found (s : Store) (i : Int) (k : Nat)
    (h : findProductById s i = some k) :
    k < s.productCount ∧ (s.productAt k).active = true ∧
    deleteProduct s (.ok i) =
      ({ s with products := s.products.set k { s.productAt k with active := false } },
        printSuccess "Product deleted successfully!") ∧
    (deleteProduct s (.ok i)).1.productAt k = { s.productAt k with active := false } ∧
    (∀ j, j ≠ k → (deleteProduct s (.ok i)).1.productAt j = s.productAt j) ∧
    (deleteProduct s (.ok i)).1.productCount = s.productCount := by
  have hk : k < s.products.length := firstIndex_lt_length _ _ _ h
  obtain ⟨⟨x, hx, hc⟩, _⟩ := firstIndex_some_spec _ _ _ h
  have hxk : s.productAt k = x := by
    simp [Store.productAt, List.getD_eq_getElem?_getD, hx]
  simp only [Bool.and_eq_true, beq_iff_eq] at hc
  have hdel : deleteProduct s (.ok i) =
      (s.modifyProduct k (fun p => { p with active := false }),
        printSuccess "Product deleted successfully!") := by
    simp [deleteProduct, h]
  refine ⟨hk, by rw [hxk]; exact hc.2, by rw [hdel]; rfl, ?_, ?_, ?_⟩
  · rw [hdel]
    exact productAt_modifyProduct_self s k _ hk
  · intro j hj
    rw [hdel]
    exact productAt_modifyProduct_other s k j _ (Ne.symm hj)
  · rw [hdel]
    simp [Store.productCount, Store.modifyProduct]

theorem deleteCategory_found (s : Store) (name : String) (k : Nat) (hn : name ≠ "")
    (h : findCategoryByName s name = some k)
    (hfree : ∀ p ∈ s.products, p.active = true → p.category ≠ name) :
    k < s.categoryCount ∧ (s.categoryAt k).active = true ∧
    deleteCategory s name =
      ({ s with categories := s.categories.set k { s.categoryAt k with active := false } },
        printSuccess "Category deleted successfully!") ∧
    (deleteCategory s name).1.categoryAt k = { s.categoryAt k with active := false } ∧
    (∀ j, j ≠ k → (deleteCategory s name).1.categoryAt j = s.categoryAt j) ∧
    (deleteCategory s name).1.categoryCount = s.categoryCount := by
  obtain ⟨hk, _, _, hact⟩ := findCategoryByName_some s name k h
  have huse : s.products.any (fun p => p.active && p.category == name) = false := by
    rw [List.any_eq_false]
    intro p hp
    by_cases ha : p.active = true
    · simp [ha, hfree p hp ha]
    · simp [ha]
  have hdel : deleteCategory s name =
      ({ s with categories := s.categories.set k { s.categoryAt k with active := false } },
        printSuccess "Category deleted successfully!") := by
    simp [deleteCategory, hn, h, huse]
  refine ⟨hk, hact, hdel, ?_, ?_, ?_⟩
  · rw [hdel]
    simp [Store.categoryAt, List.getD_eq_getElem?_getD, hk]
  · intro j hj
    rw [hdel]
    simp [Store.categoryAt, List.getD_eq_getElem?_getD, List.getElem?_set_ne (Ne.symm hj)]
  · rw [hdel]
    simp [Store.categoryCount]

theorem deleteSupplier_found (s : Store) (name : String) (k : Nat) (hn : name ≠ "")
    (h : findSupplierByName s name = some k) :
    k < s.supplierCount ∧ (s.supplierAt k).active = true ∧
    deleteSupplier s name =
      ({ s with suppliers := s.suppliers.set k { s.supplierAt k with active := false } },
        printSuccess "Supplier deleted successfully!") ∧
    (deleteSupplier s name).1.supplierAt k = { s.supplierAt k with active := false } ∧
    (∀ j, j ≠ k → (deleteSupplier s name).1.supplierAt j = s.supplierAt j) ∧
    (deleteSupplier s name).1.supplierCount = s.supplierCount := by
  have hk : k < s.suppliers.length := firstIndex_lt_length _ _ _ h
  obtain ⟨⟨x, hx, hc⟩, _⟩ := firstIndex_some_spec _ _ _ h
  have hxk : s.supplierAt k = x := by
    simp [Store.supplierAt, List.getD_eq_getElem?_getD, hx]
  simp only [Bool.and_eq_true, beq_iff_eq] at hc
  have hdel : deleteSupplier s name =
      ({ s with suppliers := s.suppliers.set k { s.supplierAt k with active := false } },
        printSuccess "Supplier deleted successfully!") := by
    simp [deleteSupplier, hn, h]
  refine ⟨hk, by rw [hxk]; exact hc.2, hdel, ?_, ?_, ?_⟩
  · rw [hdel]
    simp [Store.supplierAt, List.getD_eq_getElem?_getD, hk]
  · intro j hj
    rw [hdel]
    simp [Store.supplierAt, List.getD_eq_getElem?_getD, List.getElem?_set_ne (Ne.symm hj)]
  · rw [hdel]
    simp [Store.supplierCount]

/-! ## Lemmas on double precision arithmetic -/

theorem Binary64.bitLengthLoop_pow_le (fuel n : Nat) (hn : n ≠ 0) :
    2 ^ (Binary64.bitLengthLoop fuel n - 1) ≤ n := by
  induction fuel generalizing n with
  | zero =>
    simp only [Binary64.bitLengthLoop]
    simp
    omega
  | succ f ih =>
    simp only [Binary64.bitLengthLoop, if_neg hn, Nat.add_sub_cancel]
    by_cases h0 : Binary64.bitLengthLoop f (n / 2) = 0
    · rw [h0]
      simp
      omega
    · have h2 : n / 2 ≠ 0 := by
        intro h2
        apply h0
        rw [h2]
        cases f <;> simp [Binary64.bitLengthLoop]
      have := ih (n / 2) h2
      have hpow : 2 ^ Binary64.bitLengthLoop f (n / 2) =
          2 * 2 ^ (Binary64.bitLengthLoop f (n / 2) - 1) := by
        rw [← Nat.pow_succ']
        congr 1
        omega
      rw [hpow]
      omega

theorem Binary64.bitLengthLoop_lt (fuel n : Nat) (h : n ≤ fuel) :
    n < 2 ^ Binary64.bitLengthLoop fuel n := by
  induction fuel generalizing n with
  | zero =>
    have h0 : n = 0 := by omega
    rw [h0]
    simp [Binary64.bitLengthLoop]
  | succ f ih =>
    by_cases hn : n = 0
    · rw [hn]
      simp [Binary64.bitLengthLoop]
    · simp only [Binary64.bitLengthLoop, if_neg hn]
      have := ih (n / 2) (by omega)
      rw [Nat.pow_succ]
      omega

theorem Binary64.bitLength_spec (n : Nat) (hn : n ≠ 0) :
    2 ^ (Binary64.bitLength n - 1) ≤ n ∧ n < 2 ^ Binary64.bitLength n :=
  ⟨Binary64.bitLengthLoop_pow_le n n hn, Binary64.bitLengthLoop_lt n n (le_refl n)⟩

theorem Binary64.divRoundEven_ge (a b : Nat) : a / b ≤ Binary64.divRoundEven a b := by
  simp only [Binary64.divRoundEven]
  split
  · exact le_refl _
  · split
    · omega
    · split <;> omega

theorem Binary64.roundMagnitude_ge (num c e : Nat) (hc : c ≤ 2 ^ 53)
    (hbig : 2 ^ 53 ≤ c * 2 ^ e) (h : c * 2 ^ e ≤ num) :
    c * 2 ^ e ≤ Binary64.roundMagnitude num 1 := by
  have hnot : ¬ (num < 2 ^ 53) := by omega
  simp only [Binary64.roundMagnitude, Nat.div_one, Nat.one_mul, if_neg hnot]
  generalize hsh : Binary64.bitLength num - 53 = shift
  have hdiv := Binary64.divRoundEven_ge num (2 ^ shift)
  have hmul : num / 2 ^ shift * 2 ^ shift ≤
      Binary64.divRoundEven num (2 ^ shift) * 2 ^ shift := Nat.mul_le_mul_right _ hdiv
  refine le_trans ?_ hmul
  have hspos : 0 < 2 ^ shift := Nat.two_pow_pos shift
  by_cases hs : shift ≤ e
  · obtain ⟨k, hk⟩ : ∃ k, e = shift + k := ⟨e - shift, by omega⟩
    have hT : c * 2 ^ e = (c * 2 ^ k) * 2 ^ shift := by
      rw [hk, Nat.pow_add]
      ring
    have hq : c * 2 ^ k ≤ num / 2 ^ shift := by
      rw [Nat.le_div_iff_mul_le hspos, ← hT]
      exact h
    rw [hT]
    exact Nat.mul_le_mul_right _ hq
  · have hn0 : num ≠ 0 := by
      have : 0 < 2 ^ 53 := Nat.two_pow_pos 53
      omega
    have hb := (Binary64.bitLength_spec num hn0).1
    have hbl : Binary64.bitLength num - 1 = shift + 52 := by omega
    rw [hbl, Nat.pow_add] at hb
    have hq : 2 ^ 52 ≤ num / 2 ^ shift := by
      rw [Nat.le_div_iff_mul_le hspos, Nat.mul_comm]
      exact hb
    obtain ⟨k, hk⟩ : ∃ k, shift = e + 1 + k := ⟨shift - (e + 1), by omega⟩
    have h1 : c * 2 ^ e ≤ 2 ^ 53 * 2 ^ e := Nat.mul_le_mul_right _ hc
    have h2 : 2 ^ 53 * 2 ^ e ≤ 2 ^ 52 * 2 ^ shift := by
      rw [hk, Nat.pow_add, Nat.pow_add, Nat.pow_one]
      have hk1 : 1 ≤ 2 ^ k := Nat.two_pow_pos k
      have h53 : (2 : Nat) ^ 53 = 2 ^ 52 * 2 := by norm_num
      rw [h53]
      calc 2 ^ 52 * 2 * 2 ^ e = 2 ^ 52 * (2 ^ e * 2 * 1) := by ring
        _ ≤ 2 ^ 52 * (2 ^ e * 2 * 2 ^ k) :=
          Nat.mul_le_mul_left _ (Nat.mul_le_mul_left _ hk1)
    exact le_trans h1 (le_trans h2 (Nat.mul_le_mul_right _ hq))

theorem Binary64.roundMagnitude_ge_five (e num : Nat) (he : 53 ≤ e) (h : 5 * 2 ^ e ≤ num) :
    5 * 2 ^ e ≤ Binary64.roundMagnitude num 1 := by
  have h1 : (2 : Nat) ^ 53 ≤ 2 ^ e := Nat.pow_le_pow_right (by decide) he
  exact Binary64.roundMagnitude_ge num 5 e (by norm_num) (by omega) h

theorem Binary64.threshold_eq :
    Binary64.BULK_DISCOUNT_THRESHOLD = .finite ((5 * 2 ^ 1074 : Nat) : Int) := by
  decide!

theorem Binary64.le_threshold_ofInt (q : Int) :
    Binary64.le Binary64.BULK_DISCOUNT_THRESHOLD (Binary64.ofInt q) = decide (5 ≤ q) := by
  by_cases hneg : q < 0
  · rw [Binary64.threshold_eq]
    have hpos : (0 : Int) ≤ ((5 * 2 ^ 1074 : Nat) : Int) := Int.ofNat_nonneg _
    have hgen : ∀ P : Nat, 0 < P → ((5 * P : Nat) : Int) ≠ 0 := by
      intro P hP
      omega
    have hne := hgen _ (Nat.two_pow_pos 1074)
    have h5 : ¬ (5 ≤ q) := by omega
    simp only [Binary64.ofInt, Binary64.roundQuotient, hneg, decide_True, h5, decide_False]
    split
    · rfl
    · simp only [Binary64.le, if_true, decide_eq_false_iff_not, not_le]
      have : (0 : Int) ≤ (Binary64.roundMagnitude (q.natAbs * 2 ^ 1074) 1 : Int) :=
        Int.ofNat_nonneg _
      omega
  · by_cases h5 : 5 ≤ q
    · rw [Binary64.threshold_eq]
      have hnat : 5 * 2 ^ 1074 ≤ q.natAbs * 2 ^ 1074 :=
        Nat.mul_le_mul_right (2 ^ 1074) (by omega)
      have hm := Binary64.roundMagnitude_ge_five 1074 (q.natAbs * 2 ^ 1074) (by decide) hnat
      simp only [Binary64.ofInt, Binary64.roundQuotient, hneg, decide_False, h5, decide_True]
      split
      · rfl
      · simp only [Binary64.le, decide_eq_true_eq]
        exact Int.ofNat_le.mpr hm
    · have h0 : 0 ≤ q := by omega
      have h4 : q < 5 := by omega
      interval_cases q <;> decide!

theorem Binary64.divRoundEven_le (a b : Nat) : Binary64.divRoundEven a b ≤ a / b + 1 := by
  simp only [Binary64.divRoundEven]
  split
  · omega
  · split
    · omega
    · split <;> omega

theorem Binary64.bitLength_unique (n b : Nat) (hb : 0 < b) (h1 : 2 ^ (b - 1) ≤ n)
    (h2 : n < 2 ^ b) : Binary64.bitLength n = b := by
  have hn : n ≠ 0 := by
    have : 0 < 2 ^ (b - 1) := Nat.two_pow_pos _
    omega
  obtain ⟨h3, h4⟩ := Binary64.bitLength_spec n hn
  have h5 : 2 ^ (Binary64.bitLength n - 1) < 2 ^ b := lt_of_le_of_lt h3 h2
  have h6 : 2 ^ (b - 1) < 2 ^ Binary64.bitLength n := lt_of_le_of_lt h1 h4
  have h7 := (Nat.pow_lt_pow_iff_right (by decide : 1 < 2)).mp h5
  have h8 := (Nat.pow_lt_pow_iff_right (by decide : 1 < 2)).mp h6
  omega

theorem Binary64.bitLength_le_of_lt (n : Nat) (h : n < 2 ^ 53) : Binary64.bitLength n ≤ 53 := by
  by_cases hn : n = 0
  · rw [hn]
    simp [Binary64.bitLength, Binary64.bitLengthLoop]
  · obtain ⟨h3, _⟩ := Binary64.bitLength_spec n hn
    have h5 : 2 ^ (Binary64.bitLength n - 1) < 2 ^ 53 := lt_of_le_of_lt h3 h
    have h7 := (Nat.pow_lt_pow_iff_right (by decide : 1 < 2)).mp h5
    omega

theorem Binary64.roundMagnitude_digits (num den : Nat) :
    Binary64.roundMagnitude num den %
      2 ^ (Binary64.bitLength (Binary64.roundMagnitude num den) - 53) = 0 := by
  simp only [Binary64.roundMagnitude]
  split
  · rename_i hsmall
    have hle := Binary64.divRoundEven_le num den
    by_cases hr : Binary64.divRoundEven num den < 2 ^ 53
    · have := Binary64.bitLength_le_of_lt _ hr
      have h0 : Binary64.bitLength (Binary64.divRoundEven num den) - 53 = 0 := by omega
      rw [h0]
      simp [Nat.mod_one]
    · have heq : Binary64.divRoundEven num den = 2 ^ 53 := by omega
      rw [heq]
      have hb : Binary64.bitLength (2 ^ 53) = 54 :=
        Binary64.bitLength_unique _ 54 (by decide) (le_refl _) (by norm_num)
      rw [hb]
      norm_num
  · rename_i hbig
    have hw : num / den ≠ 0 := by
      have : 0 < 2 ^ 53 := Nat.two_pow_pos 53
      omega
    obtain ⟨hlo, hhi⟩ := Binary64.bitLength_spec (num / den) hw
    generalize hbl : Binary64.bitLength (num / den) = b at hlo hhi
    have hb54 : 54 ≤ b := by
      have h5 : 2 ^ 53 < 2 ^ b := lt_of_le_of_lt (not_lt.mp hbig) hhi
      have := (Nat.pow_lt_pow_iff_right (by decide : 1 < 2)).mp h5
      omega
    obtain ⟨t, ht⟩ : ∃ t, b = 53 + t := ⟨b - 53, by omega⟩
    have ht1 : 1 ≤ t := by omega
    have hsh : b - 53 = t := by omega
    rw [hsh]
    have hfloor : num / (den * 2 ^ t) = num / den / 2 ^ t :=
      (Nat.div_div_eq_div_mul _ _ _).symm
    have hge := Binary64.divRoundEven_ge num (den * 2 ^ t)
    have hle := Binary64.divRoundEven_le num (den * 2 ^ t)
    rw [hfloor] at hge hle
    have hpos : 0 < 2 ^ t := Nat.two_pow_pos _
    have hf1 : 2 ^ 52 ≤ num / den / 2 ^ t := by
      rw [Nat.le_div_iff_mul_le hpos, ← Nat.pow_add]
      have : b - 1 = 52 + t := by omega
      rw [← this]
      exact hlo
    have hf2 : num / den / 2 ^ t < 2 ^ 53 := by
      rw [Nat.div_lt_iff_lt_mul hpos, ← Nat.pow_add, ← ht]
      exact hhi
    generalize Binary64.divRoundEven num (den * 2 ^ t) = k at hge hle
    by_cases hk : k < 2 ^ 53
    · have hb : Binary64.bitLength (k * 2 ^ t) = 53 + t := by
        apply Binary64.bitLength_unique _ _ (by omega)
        · have : 53 + t - 1 = 52 + t := by omega
          rw [this, Nat.pow_add]
          exact Nat.mul_le_mul_right _ (by omega)
        · rw [Nat.pow_add]
          exact Nat.mul_lt_mul_of_pos_right hk hpos
      rw [hb, Nat.add_sub_cancel_left]
      exact Nat.mul_mod_left _ _
    · have heq : k = 2 ^ 53 := by omega
      rw [heq]
      have hb : Binary64.bitLength (2 ^ 53 * 2 ^ t) = 54 + t := by
        apply Binary64.bitLength_unique _ _ (by omega)
        · have : 54 + t - 1 = 53 + t := by omega
          rw [this, Nat.pow_add]
        · rw [← Nat.pow_add]
          exact Nat.pow_lt_pow_right (by decide) (by omega)
      rw [hb]
      have : 54 + t - 53 = t + 1 := by omega
      rw [this]
      have h53 : (2 : Nat) ^ 53 * 2 ^ t = 2 ^ 52 * 2 ^ (t + 1) := by ring
      rw [h53]
      exact Nat.mul_mod_left _ _

theorem Binary64.roundMagnitude_self (m : Nat)
    (h : m % 2 ^ (Binary64.bitLength m - 53) = 0) : Binary64.roundMagnitude m 1 = m := by
  have hone : ∀ n : Nat, Binary64.divRoundEven n 1 = n := by
    intro n
    simp [Binary64.divRoundEven, Nat.mod_one]
  simp only [Binary64.roundMagnitude, Nat.div_one, Nat.one_mul]
  split
  · exact hone m
  · generalize Binary64.bitLength m - 53 = shift at h
    have hpos : 0 < 2 ^ shift := Nat.two_pow_pos _
    have hdvd : m / 2 ^ shift * 2 ^ shift = m := Nat.div_mul_cancel (Nat.dvd_of_mod_eq_zero h)
    have hr : Binary64.divRoundEven m (2 ^ shift) = m / 2 ^ shift := by
      simp only [Binary64.divRoundEven, h]
      simp [hpos]
    rw [hr, hdvd]

theorem Binary64.isDouble_roundQuotient (negative : Bool) (num den : Nat) :
    Binary64.isDouble (Binary64.roundQuotient negative num den) = true := by
  simp only [Binary64.roundQuotient]
  split
  · rfl
  · rename_i hlt
    have hd := Binary64.roundMagnitude_digits num den
    cases negative <;>
      simp [Binary64.isDouble, Binary64.representable, hd, not_le.mp hlt]

theorem Binary64.isDouble_mul (a b : Binary64.Double) :
    Binary64.isDouble (Binary64.mul a b) = true := by
  unfold Binary64.mul
  split
  · exact Binary64.isDouble_roundQuotient _ _ _
  · split <;> rfl
  · split <;> rfl
  · rfl
  · rfl

theorem Binary64.add_zero (x : Binary64.Double) (h : Binary64.isDouble x = true) :
    Binary64.add x (Binary64.ofInt 0) = x := by
  have h0 : Binary64.ofInt 0 = .finite 0 := by decide!
  rw [h0]
  cases x with
  | finite u =>
    simp only [Binary64.isDouble, Binary64.representable, Bool.and_eq_true,
      decide_eq_true_eq] at h
    have hself := Binary64.roundMagnitude_self _ h.2
    simp only [Binary64.add, Binary64.roundQuotient, Int.add_zero, hself,
      if_neg (not_le.mpr h.1)]
    clear h hself h0
    by_cases hu : u < 0
    · have e : -(u.natAbs : Int) = u := by omega
      simp only [hu, decide_True, if_true, e]
    · have e : (u.natAbs : Int) = u := by omega
      simp only [hu, decide_False, e]
      simp
  | infinite s => rfl
  | nan => rfl

theorem Binary64.sub_zero (x : Binary64.Double) (h : Binary64.isDouble x = true) :
    Binary64.sub x (Binary64.ofInt 0) = x := by
  have h0 : Binary64.neg (Binary64.ofInt 0) = Binary64.ofInt 0 := by decide!
  rw [Binary64.sub, h0]
  exact Binary64.add_zero x h

theorem Binary64.purchaseAmounts_small (unitPrice : Binary64.Double) (q : Int) (h : q < 5) :
    Binary64.purchaseAmounts unitPrice q =
      (Binary64.mul unitPrice (Binary64.ofInt q), Binary64.ofInt 0,
        Binary64.mul unitPrice (Binary64.ofInt q)) := by
  have hd : decide (5 ≤ q) = false := decide_eq_false (by omega)
  simp only [Binary64.purchaseAmounts, Binary64.calculateDiscount,
    Binary64.le_threshold_ofInt, hd, Bool.false_eq_true, if_false,
    Binary64.sub_zero _ (Binary64.isDouble_mul _ _)]

theorem Binary64.foldl_totalValue_filter (l : List Product) (acc : Binary64.Double) :
    (l.filter (fun p => p.active)).foldl
      (fun acc p =>
        if p.active then
          Binary64.add acc (Binary64.mul (Binary64.ofRat p.price) (Binary64.ofInt p.quantity))
        else acc) acc =
    l.foldl
      (fun acc p =>
        if p.active then
          Binary64.add acc (Binary64.mul (Binary64.ofRat p.price) (Binary64.ofInt p.quantity))
        else acc) acc := by
  induction l generalizing acc with
  | nil => rfl
  | cons p ps ih =>
    by_cases hp : p.active = true
    · simp only [List.filter_cons, hp, if_true, List.foldl_cons]
      exact ih _
    · simp only [List.filter_cons, hp, if_false, List.foldl_cons]
      exact ih _

/-! ## Pricing engine -/

/-- C1, counterexample to the claim as stated: in double precision five units at 0.06 have
the subtotal 0.3, for which `calculateDiscount` returns the discount 0.03 and the total 0.27,
and `total + discount` is 0.30000000000000004, not the subtotal. Ten units at 0.11 have the
subtotal 1.1 and get the discount 0.11000000000000001, which is not 0.11, the tenth of
1.1. -/
theorem calculateDiscount_double_counterexample :
    Binary64.mul (Binary64.ofRat 0.06) (Binary64.ofInt 5) = Binary64.ofRat 0.3 ∧
    Binary64.calculateDiscount 5 (Binary64.ofRat 0.3) =
      (Binary64.ofRat 0.03, Binary64.ofRat 0.27) ∧
    Binary64.add (Binary64.calculateDiscount 5 (Binary64.ofRat 0.3)).2
      (Binary64.calculateDiscount 5 (Binary64.ofRat 0.3)).1 =
        Binary64.ofRat 0.30000000000000004 ∧
    Binary64.add (Binary64.calculateDiscount 5 (Binary64.ofRat 0.3)).2
      (Binary64.calculateDiscount 5 (Binary64.ofRat 0.3)).1 ≠ Binary64.ofRat 0.3 ∧
    Binary64.mul (Binary64.ofRat 0.11) (Binary64.ofInt 10) = Binary64.ofRat 1.1 ∧
    Binary64.calculateDiscount 10 (Binary64.ofRat 1.1) =
      (Binary64.ofRat 0.11000000000000001, Binary64.ofRat 0.9900000000000001) ∧
    (Binary64.calculateDiscount 10 (Binary64.ofRat 1.1)).1 ≠ Binary64.ofRat 0.11 := by
  decide!

/-- C1, amended: for every quantity and every subtotal, `calculateDiscount` returns the
discount `subtotal * 0.10` when the quantity is at least 5 and the discount 0 when it is
below 5, and in both cases the total `subtotal - discount`; in the double arithmetic of the
code the product and the difference are the rounded ones. In double precision
`total + discount = subtotal` when the quantity is below 5, where the total is the
subtotal itself. In exact arithmetic the discount is `subtotal * 0.10` and
`total + discount = subtotal` for every quantity. Four units at 899.99 have subtotal
3599.96, discount 0 and total 3599.96, five units get the ten percent, in exact arithmetic
and in double precision alike. -/
theorem calculateDiscount_contract :
    (∀ (q : Int) (subtotal : Binary64.Double),
      (5 ≤ q → (Binary64.calculateDiscount q subtotal).1 =
        Binary64.mul subtotal (Binary64.ofRat 0.10)) ∧
      (q < 5 → (Binary64.calculateDiscount q subtotal).1 = Binary64.ofInt 0) ∧
      (Binary64.calculateDiscount q subtotal).2 =
        Binary64.sub subtotal (Binary64.calculateDiscount q subtotal).1 ∧
      (q < 5 → Binary64.isDouble subtotal = true →
        (Binary64.calculateDiscount q subtotal).2 = subtotal ∧
        Binary64.add (Binary64.calculateDiscount q subtotal).2
          (Binary64.calculateDiscount q subtotal).1 = subtotal)) ∧
    (∀ (q : Int) (subtotal : ℚ),
      (5 ≤ q → (calculateDiscount q subtotal).1 = subtotal * 0.10) ∧
      (q < 5 → (calculateDiscount q subtotal).1 = 0) ∧
      (calculateDiscount q subtotal).2 = subtotal - (calculateDiscount q subtotal).1 ∧
      (calculateDiscount q subtotal).2 + (calculateDiscount q subtotal).1 = subtotal) ∧
    ((899.99 : ℚ) * (4 : Int) = 3599.96 ∧
      calculateDiscount 4 (899.99 * (4 : Int)) = (0, 3599.96)) ∧
    calculateDiscount 5 (899.99 * (5 : Int)) = (449.995, 4049.955) ∧
    (Binary64.mul (Binary64.ofRat 899.99) (Binary64.ofInt 4) = Binary64.ofRat 3599.96 ∧
      Binary64.calculateDiscount 4 (Binary64.ofRat 3599.96) =
        (Binary64.ofInt 0, Binary64.ofRat 3599.96)) ∧
    Binary64.calculateDiscount 5 (Binary64.mul (Binary64.ofRat 899.99) (Binary64.ofInt 5)) =
      (Binary64.ofRat 449.995, Binary64.ofRat 4049.955) := by
  refine ⟨?_, ?_, ?_, ?_, by decide!, by decide!⟩
  · intro q subtotal
    have hle := Binary64.le_threshold_ofInt q
    refine ⟨?_, ?_, ?_, ?_⟩
    · intro h
      have hd : decide (5 ≤ q) = true := decide_eq_true h
      simp only [Binary64.calculateDiscount, hle, hd, if_true, Binary64.BULK_DISCOUNT_RATE]
    · intro h
      have hd : decide (5 ≤ q) = false := decide_eq_false (by omega)
      simp only [Binary64.calculateDiscount, hle, hd]
      simp
    · simp only [Binary64.calculateDiscount]
    · intro h hs
      have hd : decide (5 ≤ q) = false := decide_eq_false (by omega)
      simp only [Binary64.calculateDiscount, hle, hd, Bool.false_eq_true, if_false,
        Binary64.sub_zero subtotal hs, Binary64.add_zero subtotal hs, and_self]
  · intro q subtotal
    have hcast : (5 : ℚ) ≤ (q : ℚ) ↔ 5 ≤ q := by exact_mod_cast Iff.rfl
    refine ⟨?_, ?_, ?_, ?_⟩
    · intro h
      have h5 : (5 : ℚ) ≤ (q : ℚ) := hcast.mpr h
      simp only [calculateDiscount, BULK_DISCOUNT_THRESHOLD, BULK_DISCOUNT_RATE, ge_iff_le,
        if_pos h5]
    · intro h
      have h5 : ¬ (5 : ℚ) ≤ (q : ℚ) := fun h5 => absurd (hcast.mp h5) (by omega)
      simp only [calculateDiscount, BULK_DISCOUNT_THRESHOLD, ge_iff_le, if_neg h5]
    · simp only [calculateDiscount]
    · simp only [calculateDiscount]
      ring
  · constructor
    · norm_num
    · norm_num [calculateDiscount, BULK_DISCOUNT_THRESHOLD]
  · norm_num [calculateDiscount, BULK_DISCOUNT_THRESHOLD, BULK_DISCOUNT_RATE]

/-- Seven units at 899.99 have the subtotal 6299.93 and get the discount 629.993, the
rounded product of the subtotal and 0.10; three units get none, and for four units with
the subtotal 3599.96 the total and `total + discount` are the subtotal. -/
theorem calculateDiscount_contract_witness :
    Binary64.isDouble (Binary64.ofRat 3599.96) = true ∧
    ((Binary64.calculateDiscount 4 (Binary64.ofRat 3599.96)).2 = Binary64.ofRat 3599.96 ∧
      Binary64.add (Binary64.calculateDiscount 4 (Binary64.ofRat 3599.96)).2
        (Binary64.calculateDiscount 4 (Binary64.ofRat 3599.96)).1 =
          Binary64.ofRat 3599.96) ∧
    Binary64.mul (Binary64.ofRat 899.99) (Binary64.ofInt 7) = Binary64.ofRat 6299.93 ∧
    (Binary64.calculateDiscount 7 (Binary64.ofRat 6299.93)).1 =
      Binary64.mul (Binary64.ofRat 6299.93) (Binary64.ofRat 0.10) ∧
    Binary64.mul (Binary64.ofRat 6299.93) (Binary64.ofRat 0.10) = Binary64.ofRat 629.993 ∧
    (Binary64.calculateDiscount 3 (Binary64.mul (Binary64.ofRat 899.99) (Binary64.ofInt 3))).1 =
      Binary64.ofInt 0 ∧
    (calculateDiscount 7 6299.93).1 = 6299.93 * 0.10 :=
  ⟨by decide!,
    (calculateDiscount_contract.1 4 (Binary64.ofRat 3599.96)).2.2.2 (by decide) (by decide!),
    by decide!,
    (calculateDiscount_contract.1 7 (Binary64.ofRat 6299.93)).1 (by decide),
    by decide!,
    (calculateDiscount_contract.1 3
      (Binary64.mul (Binary64.ofRat 899.99) (Binary64.ofInt 3))).2.1 (by decide),
    (calculateDiscount_contract.2.1 7 6299.93).1 (by decide)⟩

/-! ## Purchase workflow -/

/-- C2: a purchase request for `q` units of `n` that names no active product, or has
`q ≤ 0`, or asks for more than the stock of the product it resolves to, leaves the whole
store as it was (no quantity changes, no transaction is appended, the transaction-id
counter keeps its value) and prints exactly one error: the message of the first check
that fails. -/
theorem purchaseProduct_rejected_atomic (s : Store) (n : String) (q : Int)
    (date time : String)
    (h : findProductByName s n = none ∨ q ≤ 0 ∨
      ∃ i, findProductByName s n = some i ∧ (s.productAt i).quantity < q) :
    (purchaseProduct s n (.ok q) date time).1 = s ∧
    (n = "" → (purchaseProduct s n (.ok q) date time).2 =
      printError "Product name cannot be empty!") ∧
    (n ≠ "" → findProductByName s n = none →
      (purchaseProduct s n (.ok q) date time).2 = printError "Product not found!") ∧
    (n ≠ "" → (findProductByName s n).isSome → q ≤ 0 →
      (purchaseProduct s n (.ok q) date time).2 =
        printError "Invalid quantity! Must be positive.") ∧
    (n ≠ "" → ∀ i, findProductByName s n = some i → 0 < q →
      (s.productAt i).quantity < q →
      (purchaseProduct s n (.ok q) date time).2 =
        printError "Insufficient stock!" ++
          [Output.available (s.productAt i).quantity, Output.requested q]) := by
  by_cases hn : n = ""
  · simp [purchaseProduct, hn]
  · cases hf : findProductByName s n with
    | none => simp [purchaseProduct, hn, hf]
    | some i =>
      by_cases hq : q ≤ 0
      · simp [purchaseProduct, hn, hf, hq]
      · have hlt : (s.productAt i).quantity < q := by
          rcases h with h | h | ⟨j, hj, hlt⟩
          · simp [hf] at h
          · exact absurd h hq
          · rw [hf] at hj
            cases hj
            exact hlt
        simp [purchaseProduct, hn, hf, hq, hlt]

/-- The Keyboard scenario: on the seed store Keyboard has stock 3, a request for 5 is
rejected as insufficient stock and the store is not touched. -/
theorem purchaseProduct_rejected_atomic_witness :
    (seedStore.productAt 2).name = "Keyboard" ∧ (seedStore.productAt 2).quantity = 3 ∧
    (purchaseProduct seedStore "Keyboard" (.ok 5) "01/01/2026" "09:00:00").1 = seedStore ∧
    (purchaseProduct seedStore "Keyboard" (.ok 5) "01/01/2026" "09:00:00").2 =
      printError "Insufficient stock!" ++ [Output.available 3, Output.requested 5] := by
  have hfind : findProductByName seedStore "Keyboard" = some 2 := by
    simp [findProductByName, seedStore, loadSampleData, initialStore, firstIndex]
  have hq : (seedStore.productAt 2).quantity = 3 := by
    simp [Store.productAt, seedStore, loadSampleData, initialStore]
  have hname : (seedStore.productAt 2).name = "Keyboard" := by
    simp [Store.productAt, seedStore, loadSampleData, initialStore]
  have hlt : (seedStore.productAt 2).quantity < 5 := by rw [hq]; decide
  have h := purchaseProduct_rejected_atomic seedStore "Keyboard" 5 "01/01/2026" "09:00:00"
    (Or.inr (Or.inr ⟨2, hfind, hlt⟩))
  refine ⟨hname, hq, h.1, ?_⟩
  have h4 := h.2.2.2.2 (by decide) 2 hfind (by decide) hlt
  rw [hq] at h4
  exact h4

/-- C3, counterexample to the claim as stated, at two reachable stores.
First store: the seed store after adding a second active product named "Laptop" (id 6,
stock 100). An active product named "Laptop" with stock 100 exists and `1 ≤ 50 ≤ 100`,
yet the purchase of 50 "Laptop" resolves to the first product of that name (stock 15),
is rejected as insufficient stock and changes no quantity.
Second store: the seed store after an `updateProduct` of product 1 with an empty new
name. An active product named "" with stock 15 exists and `1 ≤ 5 ≤ 15`, yet the purchase
of 5 by that name is rejected before any lookup and the stock stays 15. -/
theorem purchaseProduct_stock_counterexample :
    (Reachable (addProduct seedStore (.ok 6) "Laptop" "Electronics" (.ok 100) (.ok 1)).1 ∧
      (addProduct seedStore (.ok 6) "Laptop" "Electronics" (.ok 100) (.ok 1)).1.productAt 5
        = ⟨6, "Laptop", "Electronics", 100, 1, true⟩ ∧
      ((1 : Int) ≤ 50 ∧ (50 : Int) ≤ 100) ∧
      findProductByName (addProduct seedStore (.ok 6) "Laptop" "Electronics" (.ok 100)
        (.ok 1)).1 "Laptop" = some 0 ∧
      purchaseProduct (addProduct seedStore (.ok 6) "Laptop" "Electronics" (.ok 100)
          (.ok 1)).1 "Laptop" (.ok 50) "01/01/2026" "09:00:00" =
        ((addProduct seedStore (.ok 6) "Laptop" "Electronics" (.ok 100) (.ok 1)).1,
          printError "Insufficient stock!" ++ [Output.available 15, Output.requested 50]) ∧
      ((purchaseProduct (addProduct seedStore (.ok 6) "Laptop" "Electronics" (.ok 100)
          (.ok 1)).1 "Laptop" (.ok 50) "01/01/2026" "09:00:00").1.productAt 0).quantity
        ≠ 100 - 50) ∧
    (Reachable (updateProduct seedStore (.ok 1) "" "" (.ok 0) (.ok 0)).1 ∧
      ((updateProduct seedStore (.ok 1) "" "" (.ok 0) (.ok 0)).1.productAt 0).active = true ∧
      ((updateProduct seedStore (.ok 1) "" "" (.ok 0) (.ok 0)).1.productAt 0).name = "" ∧
      ((updateProduct seedStore (.ok 1) "" "" (.ok 0) (.ok 0)).1.productAt 0).quantity = 15 ∧
      ((1 : Int) ≤ 5 ∧ (5 : Int) ≤ 15) ∧
      findProductByName (updateProduct seedStore (.ok 1) "" "" (.ok 0) (.ok 0)).1 ""
        = some 0 ∧
      (purchaseProduct (updateProduct seedStore (.ok 1) "" "" (.ok 0) (.ok 0)).1 ""
        (.ok 5) "01/01/2026" "09:00:00").2 = printError "Product name cannot be empty!" ∧
      ((purchaseProduct (updateProduct seedStore (.ok 1) "" "" (.ok 0) (.ok 0)).1 ""
        (.ok 5) "01/01/2026" "09:00:00").1.productAt 0).quantity ≠ 15 - 5) := by
  have hadd : (addProduct seedStore (.ok 6) "Laptop" "Electronics" (.ok 100) (.ok 1)).1 =
      { seedStore with
        products := seedStore.products ++ [⟨6, "Laptop", "Electronics", 100, 1, true⟩] } := by
    have hprice : ¬ ((1 : ℚ) < 0) := by norm_num
    simp [addProduct, validateProductData, isDuplicateProductId, categoryExists,
      findCategoryByName, findProductById, firstIndex, seedStore, loadSampleData,
      initialStore, Store.productCount, MAX_ITEMS, hprice]
  constructor
  · refine ⟨Reachable.step seedStore
      (Op.addProduct (.ok 6) "Laptop" "Electronics" (.ok 100) (.ok 1)) Reachable.seed,
      ?_, by decide, ?_, ?_, ?_⟩ <;>
    rw [hadd] <;>
    simp [purchaseProduct, findProductByName, firstIndex, seedStore, loadSampleData,
      initialStore, Store.productAt, printError]
  · refine ⟨Reachable.step seedStore (Op.updateProduct (.ok 1) "" "" (.ok 0) (.ok 0))
      Reachable.seed, ?_, ?_, ?_, by decide, ?_, ?_, ?_⟩ <;>
    simp [purchaseProduct, updateProduct, findProductById, findProductByName, firstIndex,
      seedStore, loadSampleData, initialStore, Store.modifyProduct, Store.productAt]

/-- C3, amended: when the name `n` is not empty and the purchase resolves it to slot `i`
(the first active product named `n`) whose stock is at least `q ≥ 1`, then after
`purchaseProduct` the stock of that slot is the old stock minus `q`, the second stock
check inside `updateInventoryStock` rejects nothing and no error is printed, the log
grows by exactly one entry when it held fewer than 200, and when it held 200 (or more)
the log is unchanged while the stock is decremented all the same. -/
theorem purchaseProduct_accepted_stock (s : Store) (n : String) (q : Int)
    (date time : String) (i : Nat) (hn : n ≠ "") (hf : findProductByName s n = some i)
    (hq : 1 ≤ q) (hle : q ≤ (s.productAt i).quantity) :
    ((purchaseProduct s n (.ok q) date time).1.productAt i).quantity =
      (s.productAt i).quantity - q ∧
    (updateInventoryStock s (some i) q).2 = [] ∧
    ((updateInventoryStock s (some i) q).1.productAt i).quantity =
      (s.productAt i).quantity - q ∧
    (∀ m, Output.error m ∉ (purchaseProduct s n (.ok q) date time).2) ∧
    (s.transactions.length < 200 →
      (purchaseProduct s n (.ok q) date time).1.transactions.length =
        s.transactions.length + 1) ∧
    (200 ≤ s.transactions.length →
      (purchaseProduct s n (.ok q) date time).1.transactions = s.transactions) := by
  have hi : i < s.products.length := firstIndex_lt_length _ _ _ hf
  have h2 : ¬ (s.productAt i).quantity < q := by omega
  have herr := purchaseProduct_accepted_no_error s n q date time i hn hf (by omega) hle
  rw [purchaseProduct_accepted s n q date time i hn hf (by omega) hle]
  refine ⟨?_, ?_, ?_, herr, ?_, ?_⟩
  · rw [recordTransaction_productAt, productAt_modifyProduct_self s i _ hi]
  · simp [updateInventoryStock, h2]
  · simp [updateInventoryStock, h2, productAt_modifyProduct_self, hi]
  · intro hlen
    have : ¬ (MAX_TRANSACTIONS ≤ s.transactions.length) := by
      simp [MAX_TRANSACTIONS]; omega
    simp [recordTransaction, Store.transactionCount, Store.modifyProduct, this]
  · intro hlen
    have : MAX_TRANSACTIONS ≤ s.transactions.length := by
      simp [MAX_TRANSACTIONS]; omega
    simp [recordTransaction, Store.transactionCount, Store.modifyProduct, this]

/-- Six Laptop bought on the seed store (stock 15, empty log): stock 9, one log entry. -/
theorem purchaseProduct_accepted_stock_witness :
    ((purchaseProduct seedStore "Laptop" (.ok 6) "01/01/2026" "09:00:00").1.productAt 0).quantity
      = 9 ∧
    (purchaseProduct seedStore "Laptop" (.ok 6) "01/01/2026" "09:00:00").1.transactions.length
      = 1 := by
  have hfind : findProductByName seedStore "Laptop" = some 0 := by
    simp [findProductByName, seedStore, loadSampleData, initialStore, firstIndex]
  have hq : (seedStore.productAt 0).quantity = 15 := by
    simp [Store.productAt, seedStore, loadSampleData, initialStore]
  have hlen : seedStore.transactions.length = 0 := by
    simp [seedStore, loadSampleData, initialStore]
  have h := purchaseProduct_accepted_stock seedStore "Laptop" 6 "01/01/2026" "09:00:00" 0
    (by decide) hfind (by decide) (by rw [hq]; decide)
  refine ⟨?_, ?_⟩
  · rw [h.1, hq]
    decide
  · rw [h.2.2.2.2.1 (by rw [hlen]; decide), hlen]

/-- C4, counterexample to the claim as stated: thirteen Laptop bought on the seed store,
at the unit price 899.99 with 15 in stock and an empty log, is a purchase that passes all
checks and is logged. In double precision its subtotal `unitPrice * 13` is 11699.87 and
the pricing engine returns the discount 1169.987 and the total 10529.883000000002, the two
amounts stored in the transaction; `totalPrice + discount` is 11699.870000000003, which is
not `13 * unitPrice`. -/
theorem purchaseProduct_snapshot_double_counterexample :
    seedStore.transactions = [] ∧
    findProductByName seedStore "Laptop" = some 0 ∧
    (seedStore.productAt 0).quantity = 15 ∧ (seedStore.productAt 0).price = 899.99 ∧
    (purchaseProduct seedStore "Laptop" (.ok 13) "01/01/2026" "09:00:00").1.transactions.map
      (fun t => (t.transactionId, t.productName, t.quantity, t.unitPrice)) =
        [(1, "Laptop", 13, 899.99)] ∧
    Binary64.purchaseAmounts (Binary64.ofRat 899.99) 13 =
      (Binary64.ofRat 11699.87, Binary64.ofRat 1169.987,
        Binary64.ofRat 10529.883000000002) ∧
    Binary64.add (Binary64.purchaseAmounts (Binary64.ofRat 899.99) 13).2.2
      (Binary64.purchaseAmounts (Binary64.ofRat 899.99) 13).2.1 =
        Binary64.ofRat 11699.870000000003 ∧
    Binary64.add (Binary64.purchaseAmounts (Binary64.ofRat 899.99) 13).2.2
      (Binary64.purchaseAmounts (Binary64.ofRat 899.99) 13).2.1 ≠
        Binary64.mul (Binary64.ofInt 13) (Binary64.ofRat 899.99) := by
  decide!

/-- C4, amended: a purchase of `q` units that passes all checks (non-empty name resolved to
slot `i`, `1 ≤ q ≤ stock`) while the log holds fewer than 200 entries appends exactly one
transaction. Its identifier is the value of the id counter before the purchase and the
counter advances by one; it carries the identifier and the name of the resolved product
(the name being the requested one), the quantity `q`, the unit price of the product, and
the discount and total `calculateDiscount` computes from `q` and `unit price * q`, so
that, the amounts being computed in exact arithmetic,
`totalPrice + discount = q * unitPrice`. In double precision the sum of the total and
the discount of the purchase is the subtotal `unit price * q` when `q < 5`. -/
theorem purchaseProduct_transaction_snapshot (s : Store) (n : String) (q : Int)
    (date time : String) (i : Nat) (hn : n ≠ "") (hf : findProductByName s n = some i)
    (hq : 1 ≤ q) (hle : q ≤ (s.productAt i).quantity) (hlog : s.transactions.length < 200) :
    (purchaseProduct s n (.ok q) date time).1.transactions =
      s.transactions ++
        [{ transactionId := s.nextTransactionId,
           productName := (s.productAt i).name,
           productId := (s.productAt i).id,
           quantity := q,
           unitPrice := (s.productAt i).price,
           totalPrice := (calculateDiscount q ((s.productAt i).price * q)).2,
           discount := (calculateDiscount q ((s.productAt i).price * q)).1,
           date := date, time := time }] ∧
    (purchaseProduct s n (.ok q) date time).1.nextTransactionId = s.nextTransactionId + 1 ∧
    (s.productAt i).name = n ∧ (s.productAt i).active = true ∧
    (calculateDiscount q ((s.productAt i).price * q)).2 +
      (calculateDiscount q ((s.productAt i).price * q)).1 = q * (s.productAt i).price ∧
    (q < 5 →
      Binary64.add (Binary64.purchaseAmounts (Binary64.ofRat (s.productAt i).price) q).2.2
        (Binary64.purchaseAmounts (Binary64.ofRat (s.productAt i).price) q).2.1 =
      Binary64.mul (Binary64.ofRat (s.productAt i).price) (Binary64.ofInt q)) := by
  have hlen : ¬ (MAX_TRANSACTIONS ≤ s.transactions.length) := by
    simp [MAX_TRANSACTIONS]; omega
  obtain ⟨_, hname, hact, _⟩ := findProductByName_some s n i hf
  rw [purchaseProduct_accepted s n q date time i hn hf (by omega) hle]
  refine ⟨?_, ?_, hname, hact, ?_, ?_⟩
  · simp [recordTransaction, Store.transactionCount, Store.modifyProduct, hlen]
  · simp [recordTransaction, Store.transactionCount, Store.modifyProduct, hlen]
  · simp only [calculateDiscount]
    ring
  · intro h5
    rw [Binary64.purchaseAmounts_small _ q h5]
    dsimp only
    exact Binary64.add_zero _ (Binary64.isDouble_mul _ _)

/-- Six Laptop bought on the seed store: the first transaction gets identifier 1, the
counter moves to 2. The amounts of the record are the exact ones, discount 539.994 and
total 4859.946; in double precision they are 539.994 and 4859.946000000001, of the
subtotal 5399.9400000000005. -/
theorem purchaseProduct_transaction_snapshot_witness :
    (purchaseProduct seedStore "Laptop" (.ok 6) "01/01/2026" "09:00:00").1.transactions =
      [{ transactionId := 1, productName := "Laptop", productId := 1, quantity := 6,
         unitPrice := 899.99, totalPrice := 4859.946, discount := 539.994,
         date := "01/01/2026", time := "09:00:00" }] ∧
    (purchaseProduct seedStore "Laptop" (.ok 6) "01/01/2026" "09:00:00").1.nextTransactionId
      = 2 ∧
    Binary64.purchaseAmounts (Binary64.ofRat 899.99) 6 =
      (Binary64.ofRat 5399.9400000000005, Binary64.ofRat 539.994,
        Binary64.ofRat 4859.946000000001) := by
  have hfind : findProductByName seedStore "Laptop" = some 0 := by
    simp [findProductByName, seedStore, loadSampleData, initialStore, firstIndex]
  have hp : seedStore.productAt 0 = ⟨1, "Laptop", "Electronics", 15, 899.99, true⟩ := by
    simp [Store.productAt, seedStore, loadSampleData, initialStore]
  have hlen : seedStore.transactions = [] := by
    simp [seedStore, loadSampleData, initialStore]
  have hnext : seedStore.nextTransactionId = 1 := by
    simp [seedStore, loadSampleData, initialStore]
  have h := purchaseProduct_transaction_snapshot seedStore "Laptop" 6 "01/01/2026"
    "09:00:00" 0 (by decide) hfind (by decide) (by rw [hp]; decide)
    (by rw [hlen]; decide)
  refine ⟨?_, ?_, by decide!⟩
  · rw [h.1, hp, hlen, hnext]
    norm_num [calculateDiscount, BULK_DISCOUNT_THRESHOLD, BULK_DISCOUNT_RATE]
  · rw [h.2.1, hnext]
    rfl

/-- C5: on the seed store Laptop has stock 15 and price 899.99; purchasing 6 Laptop
gives subtotal 5399.94, discount 539.994 and total 4859.946 in exact arithmetic, leaves
the stock of Laptop at 9 and prints no low-stock notice (9 is above the threshold 5). -/
theorem seed_purchase_six_laptops (date time : String) :
    seedStore.productAt 0 = ⟨1, "Laptop", "Electronics", 15, 899.99, true⟩ ∧
    (899.99 : ℚ) * (6 : Int) = 5399.94 ∧
    calculateDiscount 6 5399.94 = (539.994, 4859.946) ∧
    (purchaseProduct seedStore "Laptop" (.ok 6) date time).2 =
      [Output.invoiceHeader 1, Output.invoiceItem "Laptop" 6 899.99 5399.94,
       Output.invoiceSubtotal 5399.94, Output.invoiceDiscount 539.994,
       Output.warning "Bulk discount applied!", Output.invoiceTotal 4859.946] ∧
    Output.warning "Low stock alert for this product!" ∉
      (purchaseProduct seedStore "Laptop" (.ok 6) date time).2 ∧
    ((purchaseProduct seedStore "Laptop" (.ok 6) date time).1.productAt 0).quantity = 9 ∧
    ¬ ((9 : Int) ≤ MIN_STOCK_THRESHOLD) ∧
    (purchaseProduct seedStore "Laptop" (.ok 6) date time).1 =
      { seedStore with
        products := [⟨1, "Laptop", "Electronics", 9, 899.99, true⟩,
          ⟨2, "Mouse", "Electronics", 50, 19.99, true⟩,
          ⟨3, "Keyboard", "Electronics", 3, 49.99, true⟩,
          ⟨4, "T-Shirt", "Clothing", 100, 15.99, true⟩,
          ⟨5, "Jeans", "Clothing", 2, 39.99, true⟩],
        transactions := [⟨1, "Laptop", 1, 6, 899.99, 4859.946, 539.994, date, time⟩],
        nextTransactionId := 2 } := by
  have hout : (purchaseProduct seedStore "Laptop" (.ok 6) date time).2 =
      [Output.invoiceHeader 1, Output.invoiceItem "Laptop" 6 899.99 5399.94,
       Output.invoiceSubtotal 5399.94, Output.invoiceDiscount 539.994,
       Output.warning "Bulk discount applied!", Output.invoiceTotal 4859.946] := by
    simp [purchaseProduct, seedStore, loadSampleData, initialStore, findProductByName,
      firstIndex, Store.productAt, calculateDiscount, updateInventoryStock, recordTransaction,
      Store.modifyProduct, Store.transactionCount, MAX_TRANSACTIONS, MIN_STOCK_THRESHOLD,
      BULK_DISCOUNT_THRESHOLD, BULK_DISCOUNT_RATE, printWarning]
    norm_num
  refine ⟨?_, ?_, ?_, hout, ?_, ?_, ?_, ?_⟩
  · simp [seedStore, loadSampleData, initialStore, Store.productAt]
  · norm_num
  · norm_num [calculateDiscount, BULK_DISCOUNT_THRESHOLD, BULK_DISCOUNT_RATE]
  · rw [hout]
    simp
  · simp [purchaseProduct, seedStore, loadSampleData, initialStore, findProductByName,
      firstIndex, Store.productAt, calculateDiscount, updateInventoryStock, recordTransaction,
      Store.modifyProduct, Store.transactionCount, MAX_TRANSACTIONS, MIN_STOCK_THRESHOLD,
      BULK_DISCOUNT_THRESHOLD, BULK_DISCOUNT_RATE, printWarning]
  · simp [MIN_STOCK_THRESHOLD]
  · simp [purchaseProduct, seedStore, loadSampleData, initialStore, findProductByName,
      firstIndex, Store.productAt, calculateDiscount, updateInventoryStock, recordTransaction,
      Store.modifyProduct, Store.transactionCount, MAX_TRANSACTIONS, MIN_STOCK_THRESHOLD,
      BULK_DISCOUNT_THRESHOLD, BULK_DISCOUNT_RATE, printWarning]
    norm_num

/-! ## Reporting -/

/-- C6, counterexample to the claim as stated: on the seed store Laptop is active with
stock 15 and price 899.99. In double precision `getProductStatistics` reports the total
value 16328.3 before all 15 Laptop are bought and 2828.45 after; `15 * 899.99` is 13499.85
and `16328.3 - 13499.85` is 2828.449999999999, so the total value after is not the total
value before lowered by `stock * price`. -/
theorem sellOut_totalValue_double_counterexample :
    findProductByName seedStore "Laptop" = some 0 ∧
    (seedStore.productAt 0).active = true ∧
    (seedStore.productAt 0).quantity = 15 ∧ (seedStore.productAt 0).price = 899.99 ∧
    Binary64.totalValue seedStore.products = Binary64.ofRat 16328.3 ∧
    Binary64.totalValue
      (purchaseProduct seedStore "Laptop" (.ok 15) "01/01/2026" "09:00:00").1.products =
        Binary64.ofRat 2828.45 ∧
    Binary64.mul (Binary64.ofRat 899.99) (Binary64.ofInt 15) = Binary64.ofRat 13499.85 ∧
    Binary64.sub (Binary64.totalValue seedStore.products)
      (Binary64.mul (Binary64.ofRat 899.99) (Binary64.ofInt 15)) =
        Binary64.ofRat 2828.449999999999 ∧
    Binary64.totalValue
      (purchaseProduct seedStore "Laptop" (.ok 15) "01/01/2026" "09:00:00").1.products ≠
    Binary64.sub (Binary64.totalValue seedStore.products)
      (Binary64.mul (Binary64.ofRat 899.99) (Binary64.ofInt 15)) := by
  decide!

/-- C6, amended: when a purchase by a non-empty name resolves to slot `i` whose stock is at
least 1, buying the whole stock of that product brings its quantity to 0, raises the
`outOfStock` count of `getProductStatistics` by exactly one and lowers `totalValue`,
computed in exact arithmetic, by exactly `stock * price` of that product. -/
theorem sellOut_statistics (s : Store) (n : String) (date time : String) (i : Nat)
    (hn : n ≠ "") (hf : findProductByName s n = some i)
    (hs : 1 ≤ (s.productAt i).quantity) :
    ((purchaseProduct s n (.ok (s.productAt i).quantity) date time).1.productAt i).quantity
      = 0 ∧
    (getProductStatistics
      (purchaseProduct s n (.ok (s.productAt i).quantity) date time).1).outOfStock =
        (getProductStatistics s).outOfStock + 1 ∧
    (getProductStatistics
      (purchaseProduct s n (.ok (s.productAt i).quantity) date time).1).totalValue =
        (getProductStatistics s).totalValue -
          ((s.productAt i).quantity : ℚ) * (s.productAt i).price := by
  obtain ⟨hi, _, hact, _⟩ := findProductByName_some s n i hf
  have hget := getElem?_productAt s i hi
  have hne : (s.productAt i).quantity ≠ 0 := by omega
  rw [purchaseProduct_accepted s n _ date time i hn hf (by omega) (le_refl _)]
  refine ⟨?_, ?_, ?_⟩
  · rw [recordTransaction_productAt, productAt_modifyProduct_self s i _ hi]
    simp
  · simp only [getProductStatistics, recordTransaction_products, foldl_statisticsStep,
      Store.modifyProduct]
    have h := countP_set (fun p : Product => p.active && decide (p.quantity = 0)) s.products i
      (s.productAt i)
      { s.productAt i with quantity := (s.productAt i).quantity - (s.productAt i).quantity }
      hget
    simp [hact, hne] at h
    simp [hact]
    exact_mod_cast h
  · simp only [getProductStatistics, recordTransaction_products, foldl_statisticsStep,
      Store.modifyProduct]
    rw [sum_map_set _ _ _ _ _ hget]
    simp [hact]
    ring

/-- Buying all 15 Laptop on the seed store: the out-of-stock count goes from 0 to 1 and
the inventory value, in exact arithmetic, drops by `15 * 899.99`. -/
theorem sellOut_statistics_witness :
    (seedStore.productAt 0).name = "Laptop" ∧ (seedStore.productAt 0).quantity = 15 ∧
    (getProductStatistics seedStore).outOfStock = 0 ∧
    (getProductStatistics
      (purchaseProduct seedStore "Laptop" (.ok (seedStore.productAt 0).quantity)
        "01/01/2026" "09:00:00").1).outOfStock = 1 ∧
    (getProductStatistics
      (purchaseProduct seedStore "Laptop" (.ok (seedStore.productAt 0).quantity)
        "01/01/2026" "09:00:00").1).totalValue = 16328.30 - 15 * 899.99 := by
  have hfind : findProductByName seedStore "Laptop" = some 0 := by
    simp [findProductByName, seedStore, loadSampleData, initialStore, firstIndex]
  have hp : seedStore.productAt 0 = ⟨1, "Laptop", "Electronics", 15, 899.99, true⟩ := by
    simp [Store.productAt, seedStore, loadSampleData, initialStore]
  have hstat : getProductStatistics seedStore = ⟨5, 2, 0, 16328.30⟩ := by
    norm_num [getProductStatistics, seedStore, loadSampleData, initialStore, statisticsStep,
      MIN_STOCK_THRESHOLD]
  have h := sellOut_statistics seedStore "Laptop" "01/01/2026" "09:00:00" 0 (by decide)
    hfind (by rw [hp]; decide)
  refine ⟨by rw [hp], by rw [hp], by rw [hstat], ?_, ?_⟩
  · rw [h.2.1, hstat]
    rfl
  · rw [h.2.2, hstat, hp]
    norm_num

/-- C7, counterexample to the claim as stated: after an `updateProduct` of Laptop on the
seed store with the new quantity -1 (stored before it is rejected), three active products
are counted as low stock by `getProductStatistics` although only two active products
have `0 < quantity ≤ 5`. On the same store the sum over the active products of
`quantity * price` is 1928.46, while the total value `getProductStatistics` arrives at in
double precision is 1928.4599999999998. -/
theorem getProductStatistics_counterexample :
    Reachable (updateProduct seedStore (.ok 1) "Laptop" "Electronics" (.ok (-1)) (.ok 0)).1 ∧
    (updateProduct seedStore (.ok 1) "Laptop" "Electronics" (.ok (-1)) (.ok 0)).2 =
      [Output.currentDetails "Laptop" "Electronics" 15 899.99,
       Output.error "Invalid quantity!"] ∧
    (getProductStatistics
      (updateProduct seedStore (.ok 1) "Laptop" "Electronics" (.ok (-1)) (.ok 0)).1).lowStock
      = 3 ∧
    (statisticsSpec
      (updateProduct seedStore (.ok 1) "Laptop" "Electronics" (.ok (-1)) (.ok 0)).1).lowStock
      = 2 ∧
    getProductStatistics
      (updateProduct seedStore (.ok 1) "Laptop" "Electronics" (.ok (-1)) (.ok 0)).1 ≠
    statisticsSpec
      (updateProduct seedStore (.ok 1) "Laptop" "Electronics" (.ok (-1)) (.ok 0)).1 ∧
    (statisticsSpec
      (updateProduct seedStore (.ok 1) "Laptop" "Electronics" (.ok (-1)) (.ok 0)).1).totalValue
      = 1928.46 ∧
    Binary64.totalValue
      (updateProduct seedStore (.ok 1) "Laptop" "Electronics" (.ok (-1)) (.ok 0)).1.products =
        Binary64.ofRat 1928.4599999999998 ∧
    Binary64.totalValue
      (updateProduct seedStore (.ok 1) "Laptop" "Electronics" (.ok (-1)) (.ok 0)).1.products ≠
        Binary64.ofRat 1928.46 := by
  have h3 : (getProductStatistics
      (updateProduct seedStore (.ok 1) "Laptop" "Electronics" (.ok (-1)) (.ok 0)).1).lowStock
      = 3 := by
    simp [getProductStatistics, statisticsStep, updateProduct, findProductById,
      findCategoryByName, categoryExists, isValidQuantity, NumInput.store, firstIndex,
      seedStore, loadSampleData, initialStore, Store.modifyProduct, Store.productAt,
      MIN_STOCK_THRESHOLD, printError]
  have h2 : (statisticsSpec
      (updateProduct seedStore (.ok 1) "Laptop" "Electronics" (.ok (-1)) (.ok 0)).1).lowStock
      = 2 := by
    simp [statisticsSpec, updateProduct, findProductById,
      findCategoryByName, categoryExists, isValidQuantity, NumInput.store, firstIndex,
      seedStore, loadSampleData, initialStore, Store.modifyProduct, Store.productAt,
      printError, List.filter]
  refine ⟨Reachable.step seedStore
    (Op.updateProduct (.ok 1) "Laptop" "Electronics" (.ok (-1)) (.ok 0)) Reachable.seed,
    ?_, h3, h2, ?_, by decide!, by decide!, by decide!⟩
  · simp [updateProduct, findProductById,
      findCategoryByName, categoryExists, isValidQuantity, NumInput.store, firstIndex,
      seedStore, loadSampleData, initialStore, Store.modifyProduct, Store.productAt,
      printError]
  · intro heq
    have := congrArg Statistics.lowStock heq
    rw [h3, h2] at this
    exact absurd this (by decide)

/-- C7, amended: for every store `getProductStatistics` returns `totalProducts` = the
number of active products, `lowStock` = the number of active products with
`quantity ≠ 0` and `quantity ≤ 5`, `outOfStock` = the number of active products with
`quantity = 0`, and, computed in exact arithmetic, `totalValue` = the sum over the active
products of `quantity * price`; deactivated records contribute to none of the four (the
result is that of the store with the deactivated records removed), nor to the total
value computed in double precision. When no active product has a negative quantity the
result is the one the specification words, with `lowStock` the number of active products
with `0 < quantity ≤ 5`. -/
theorem getProductStatistics_eq (s : Store) :
    (getProductStatistics s).totalProducts =
      ((s.products.filter (fun p => p.active)).length : Nat) ∧
    (getProductStatistics s).lowStock =
      ((s.products.filter (fun p =>
        p.active && decide (p.quantity ≠ 0) && decide (p.quantity ≤ 5))).length : Nat) ∧
    (getProductStatistics s).outOfStock =
      ((s.products.filter (fun p => p.active && decide (p.quantity = 0))).length : Nat) ∧
    (getProductStatistics s).totalValue =
      ((s.products.filter (fun p => p.active)).map
        (fun p => (p.quantity : ℚ) * p.price)).sum ∧
    getProductStatistics { s with products := s.products.filter (fun p => p.active) } =
      getProductStatistics s ∧
    Binary64.totalValue (s.products.filter (fun p => p.active)) =
      Binary64.totalValue s.products ∧
    ((∀ p ∈ s.products, p.active = true → 0 ≤ p.quantity) →
      getProductStatistics s = statisticsSpec s) := by
  have hmain : getProductStatistics s =
      { totalProducts := ((s.products.filter (fun p => p.active)).length : Nat),
        lowStock := ((s.products.filter (fun p =>
          p.active && decide (p.quantity ≠ 0) && decide (p.quantity ≤ 5))).length : Nat),
        outOfStock :=
          ((s.products.filter (fun p => p.active && decide (p.quantity = 0))).length : Nat),
        totalValue := ((s.products.filter (fun p => p.active)).map
          (fun p => (p.quantity : ℚ) * p.price)).sum } := by
    simp only [getProductStatistics, foldl_statisticsStep, sum_map_active,
      List.countP_eq_length_filter]
    simp
  refine ⟨by rw [hmain], by rw [hmain], by rw [hmain], by rw [hmain], ?_,
    Binary64.foldl_totalValue_filter s.products _, ?_⟩
  · simp only [getProductStatistics, foldl_statisticsStep, sum_map_active,
      List.countP_eq_length_filter, List.filter_filter]
    simp
    refine ⟨?_, ?_⟩
    · congr 2
      funext p
      cases p.active <;> simp
    · congr 2
      funext p
      cases p.active <;> simp
  · intro hnn
    rw [hmain]
    simp only [statisticsSpec]
    congr 3
    apply List.filter_congr
    intro p hp
    by_cases ha : p.active = true
    · have := hnn p hp ha
      have hiff : (p.quantity ≠ 0) ↔ 0 < p.quantity := by omega
      simp [ha, hiff]
    · simp [ha]

/-- The seed store: 5 products, 2 of them low on stock (Keyboard 3, Jeans 2), none out
of stock, total value 16328.30, in exact arithmetic and in double precision alike. -/
theorem getProductStatistics_eq_witness :
    getProductStatistics seedStore = statisticsSpec seedStore ∧
    getProductStatistics seedStore = ⟨5, 2, 0, 16328.30⟩ ∧
    Binary64.totalValue seedStore.products = Binary64.ofRat 16328.30 := by
  have h := (getProductStatistics_eq seedStore).2.2.2.2.2.2 (by
    intro p hp _
    simp [seedStore, loadSampleData, initialStore] at hp
    rcases hp with rfl | rfl | rfl | rfl | rfl <;> decide)
  refine ⟨h, ?_, by decide!⟩
  norm_num [getProductStatistics, seedStore, loadSampleData, initialStore, statisticsStep,
    MIN_STOCK_THRESHOLD]

/-- C8: `checkLowStock` does not modify the store. When no active product has
`quantity ≤ 5` it prints nothing, in particular no alert header. Otherwise it prints the
alert header, then one row for each active product with `quantity ≤ 5`, in storage order
and each once, then the closing rule; the row of a product is tagged OUT OF STOCK when
its quantity is 0 and LOW STOCK when its quantity is above 0. -/
theorem checkLowStock_spec (s : Store) :
    (checkLowStock s).1 = s ∧
    (lowStockProducts s = [] → (checkLowStock s).2 = []) ∧
    (lowStockProducts s ≠ [] →
      (checkLowStock s).2 =
        lowStockHead ++ (lowStockProducts s).map lowStockRowOf ++ [Output.rule]) ∧
    (∀ p : Product, p.quantity = 0 →
      lowStockRowOf p = Output.lowStockRow p.id p.name p.quantity "OUT OF STOCK") ∧
    (∀ p : Product, 0 < p.quantity →
      lowStockRowOf p = Output.lowStockRow p.id p.name p.quantity "LOW STOCK") := by
  refine ⟨rfl, ?_, ?_, ?_, ?_⟩
  · intro h
    simp only [lowStockProducts] at h
    simp [checkLowStock, checkLowStockLoop_eq, h]
  · intro h
    simp only [lowStockProducts] at h
    have h2 : (s.products.filter (fun p => p.active && decide (p.quantity ≤ 5))).isEmpty
        = false := by
      cases hl : s.products.filter (fun p => p.active && decide (p.quantity ≤ 5)) with
      | nil => exact absurd hl h
      | cons a as => rfl
    simp [checkLowStock, checkLowStockLoop_eq, lowStockProducts, h2]
  · intro p hp
    simp [lowStockRowOf, hp]
  · intro p hp
    have : p.quantity ≠ 0 := by omega
    simp [lowStockRowOf, this]

/-- The seed store: the alert lists Keyboard (3) and Jeans (2), both LOW STOCK. -/
theorem checkLowStock_spec_witness :
    (checkLowStock seedStore).2 =
      [Output.warning "LOW STOCK ALERT!", Output.rule,
       Output.columns ["ID", "Product", "Quantity", "Status"], Output.rule,
       Output.lowStockRow 3 "Keyboard" 3 "LOW STOCK",
       Output.lowStockRow 5 "Jeans" 2 "LOW STOCK", Output.rule] := by
  have hl : lowStockProducts seedStore =
      [⟨3, "Keyboard", "Electronics", 3, 49.99, true⟩,
       ⟨5, "Jeans", "Clothing", 2, 39.99, true⟩] := by
    simp [lowStockProducts, seedStore, loadSampleData, initialStore, List.filter]
  rw [(checkLowStock_spec seedStore).2.2.1 (by rw [hl]; simp), hl]
  simp [lowStockHead, lowStockRowOf, printWarning]

/-! ## Product creation -/

/-- C9: `validateProductData` returns true exactly when the id is positive, no active
product has that id, the quantity and the price are non-negative and an active category
has exactly the given name. When it returns false it prints one error, that of the first
failing check in the order invalid id, duplicate id, invalid quantity, invalid price,
unknown category; the five messages are pairwise distinct. `addProduct` then stores
nothing: the store, its product list and its product count are what they were, and what
`addProduct` prints is the message of `validateProductData`. -/
theorem validateProductData_spec (s : Store) (id quantity : Int) (price : ℚ)
    (category : String) :
    ((validateProductData s id quantity price category).1 = true ↔
      0 < id ∧ (¬ ∃ p ∈ s.products, p.active = true ∧ p.id = id) ∧ 0 ≤ quantity ∧
        0 ≤ price ∧ ∃ c ∈ s.categories, c.active = true ∧ c.name = category) ∧
    (id ≤ 0 → validateProductData s id quantity price category =
      (false, printError "Invalid ID! Must be positive.")) ∧
    (0 < id → (∃ p ∈ s.products, p.active = true ∧ p.id = id) →
      validateProductData s id quantity price category =
        (false, printError "Product ID already exists!")) ∧
    (0 < id → (¬ ∃ p ∈ s.products, p.active = true ∧ p.id = id) → quantity < 0 →
      validateProductData s id quantity price category =
        (false, printError "Invalid quantity! Must be non-negative.")) ∧
    (0 < id → (¬ ∃ p ∈ s.products, p.active = true ∧ p.id = id) → 0 ≤ quantity →
      price < 0 →
      validateProductData s id quantity price category =
        (false, printError "Invalid price! Must be non-negative.")) ∧
    (0 < id → (¬ ∃ p ∈ s.products, p.active = true ∧ p.id = id) → 0 ≤ quantity →
      0 ≤ price → (¬ ∃ c ∈ s.categories, c.active = true ∧ c.name = category) →
      validateProductData s id quantity price category =
        (false, printError "Category does not exist! Please create it first.")) ∧
    List.Nodup ["Invalid ID! Must be positive.", "Product ID already exists!",
      "Invalid quantity! Must be non-negative.", "Invalid price! Must be non-negative.",
      "Category does not exist! Please create it first."] ∧
    (∀ name : String, (validateProductData s id quantity price category).1 = false →
      (addProduct s (.ok id) name category (.ok quantity) (.ok price)).1 = s ∧
      (addProduct s (.ok id) name category (.ok quantity) (.ok price)).1.products
        = s.products ∧
      (addProduct s (.ok id) name category (.ok quantity) (.ok price)).1.productCount
        = s.productCount ∧
      (s.productCount < MAX_ITEMS → name ≠ "" → category ≠ "" →
        (addProduct s (.ok id) name category (.ok quantity) (.ok price)).2 =
          (validateProductData s id quantity price category).2)) := by
  have hdup := isDuplicateProductId_iff s id
  have hcat := categoryExists_iff s category
  refine ⟨?_, ?_, ?_, ?_, ?_, ?_, by decide, ?_⟩
  · unfold validateProductData
    by_cases h1 : id ≤ 0
    · simp [h1]
    · by_cases h2 : isDuplicateProductId s id = true
      · have := hdup.mp h2
        simp [h1, h2]
        intro _ h; exact absurd this (by simpa using h)
      · have h2' := mt hdup.mpr h2
        by_cases h3 : quantity < 0
        · simp [h1, h2, h3]
        · by_cases h4 : price < 0
          · simp [h1, h2, h3, h4]
          · by_cases h5 : categoryExists s category = true
            · have := hcat.mp h5
              simp [h1, h2, h3, h4, h5]
              refine ⟨by omega, by simpa using h2', by omega, by simpa using h4,
                by simpa using this⟩
            · have h5' := mt hcat.mpr h5
              simp [h1, h2, h3, h4, h5]
              intro _ _ _ _
              simpa using h5'
  · intro h1
    simp [validateProductData, h1]
  · intro h1 h2
    have h1' : ¬ id ≤ 0 := by omega
    simp [validateProductData, h1', hdup.mpr h2]
  · intro h1 h2 h3
    have h1' : ¬ id ≤ 0 := by omega
    have h2' : ¬ isDuplicateProductId s id = true := mt hdup.mp h2
    simp [validateProductData, h1', h2', h3]
  · intro h1 h2 h3 h4
    have h1' : ¬ id ≤ 0 := by omega
    have h2' : ¬ isDuplicateProductId s id = true := mt hdup.mp h2
    have h3' : ¬ quantity < 0 := by omega
    simp [validateProductData, h1', h2', h3', h4]
  · intro h1 h2 h3 h4 h5
    have h1' : ¬ id ≤ 0 := by omega
    have h2' : ¬ isDuplicateProductId s id = true := mt hdup.mp h2
    have h3' : ¬ quantity < 0 := by omega
    have h4' : ¬ price < 0 := by simpa using h4
    have h5' : ¬ categoryExists s category = true := mt hcat.mp h5
    simp [validateProductData, h1', h2', h3', h4', h5']
  · intro name hv
    have hs : (addProduct s (.ok id) name category (.ok quantity) (.ok price)).1 = s := by
      unfold addProduct
      simp only [hv]
      split_ifs <;> simp_all
    refine ⟨hs, by rw [hs], by rw [hs], ?_⟩
    intro hcap hname hcategory
    have hcap' : ¬ s.productCount ≥ MAX_ITEMS := by omega
    simp [addProduct, hcap', hname, hcategory, hv]

/-- The seed store: a candidate with id 1 is a duplicate of Laptop; the message is the
duplicate-id one although the quantity is negative too, and nothing is stored. -/
theorem validateProductData_spec_witness :
    validateProductData seedStore 1 (-4) 10 "Electronics" =
      (false, printError "Product ID already exists!") ∧
    (addProduct seedStore (.ok 1) "Tablet" "Electronics" (.ok (-4)) (.ok 10)).1 = seedStore := by
  have h := validateProductData_spec seedStore 1 (-4) 10 "Electronics"
  have hv : validateProductData seedStore 1 (-4) 10 "Electronics" =
      (false, printError "Product ID already exists!") :=
    h.2.2.1 (by decide)
      ⟨⟨1, "Laptop", "Electronics", 15, 899.99, true⟩,
        by simp [seedStore, loadSampleData, initialStore], rfl, rfl⟩
  exact ⟨hv, (h.2.2.2.2.2.2.2 "Tablet" (by rw [hv])).1⟩

/-! ## Category deletion -/

/-- C10: in every store reachable from the seed data, for every name `c` of an active
category: if at least one active product has category `c`, `deleteCategory` is refused
and the store is unchanged; otherwise it succeeds, the store afterwards differs from the
store before only in the active flag of that category (the one `findCategoryByName`
returns), which is false, and a second `deleteCategory` of `c` right afterwards prints
"Category not found!" and changes nothing. -/
theorem deleteCategory_spec (s : Store) (hr : Reachable s) (c : String)
    (hc : ∃ cat ∈ s.categories, cat.active = true ∧ cat.name = c) :
    ((∃ p ∈ s.products, p.active = true ∧ p.category = c) →
      deleteCategory s c = (s, printError "Cannot delete! Category is in use by products.")) ∧
    ((¬ ∃ p ∈ s.products, p.active = true ∧ p.category = c) →
      ∃ i, findCategoryByName s c = some i ∧
        (s.categoryAt i).name = c ∧ (s.categoryAt i).active = true ∧
        deleteCategory s c =
          ({ s with categories :=
              s.categories.set i { s.categoryAt i with active := false } },
            printSuccess "Category deleted successfully!") ∧
        deleteCategory (deleteCategory s c).1 c =
          ((deleteCategory s c).1, printError "Category not found!")) := by
  have hinv := reachable_categoryInv s hr
  have hne : c ≠ "" := by
    obtain ⟨cat, hmem, hact, hname⟩ := hc
    rw [← hname]
    exact hinv.1 cat hmem hact
  have hsome : (findCategoryByName s c).isSome = true := (categoryExists_iff s c).mpr hc
  obtain ⟨i, hi⟩ := Option.isSome_iff_exists.mp hsome
  obtain ⟨hlt, hget, hname, hact⟩ := findCategoryByName_some s c i hi
  have huse : (s.products.any (fun p => p.active && p.category == c)) = true ↔
      ∃ p ∈ s.products, p.active = true ∧ p.category = c := by
    simp [List.any_eq_true]
  constructor
  · intro h
    simp [deleteCategory, hne, hi, huse.mpr h]
  · intro h
    have hno : ¬ (s.products.any (fun p => p.active && p.category == c)) = true :=
      mt huse.mp h
    have hdel : deleteCategory s c =
        ({ s with categories :=
            s.categories.set i { s.categoryAt i with active := false } },
          printSuccess "Category deleted successfully!") := by
      simp only [deleteCategory, hne, hi, if_false]
      rw [if_neg hno]
    refine ⟨i, hi, hname, hact, hdel, ?_⟩
    have hnone : findCategoryByName (deleteCategory s c).1 c = none := by
      rw [hdel, findCategoryByName, firstIndex_eq_none_iff]
      intro x hx
      obtain ⟨k, hk⟩ := List.getElem?_of_mem hx
      by_cases hik : i = k
      · subst hik
        simp only [List.getElem?_set_self', hget] at hk
        simp at hk
        subst hk
        simp
      · simp only [List.getElem?_set_ne hik] at hk
        by_contra hcon
        simp only [Bool.not_eq_false, Bool.and_eq_true, beq_iff_eq] at hcon
        exact hik (hinv.2 i k _ x hget hk hact hcon.2 (by rw [hname, hcon.1]))
    have key : ∀ s' : Store, findCategoryByName s' c = none →
        deleteCategory s' c = (s', printError "Category not found!") := by
      intro s' h'
      simp [deleteCategory, hne, h']
    exact key _ hnone

/-- The seed store: Electronics is in use and cannot be deleted; Food is not in use, is
deleted, and a second deletion does not find it. -/
theorem deleteCategory_spec_witness :
    deleteCategory seedStore "Electronics" =
      (seedStore, printError "Cannot delete! Category is in use by products.") ∧
    (deleteCategory seedStore "Food").2 = printSuccess "Category deleted successfully!" ∧
    (deleteCategory seedStore "Food").1.categories =
      [⟨"Electronics", "Electronic devices and accessories", true⟩,
       ⟨"Clothing", "Apparel and fashion items", true⟩,
       ⟨"Food", "Food and beverages", false⟩] ∧
    deleteCategory (deleteCategory seedStore "Food").1 "Food" =
      ((deleteCategory seedStore "Food").1, printError "Category not found!") := by
  have he := (deleteCategory_spec seedStore Reachable.seed "Electronics"
    ⟨⟨"Electronics", "Electronic devices and accessories", true⟩,
      by simp [seedStore, loadSampleData, initialStore], rfl, rfl⟩).1
    ⟨⟨1, "Laptop", "Electronics", 15, 899.99, true⟩,
      by simp [seedStore, loadSampleData, initialStore], rfl, rfl⟩
  obtain ⟨i, hi, _, _, hdel, hagain⟩ := (deleteCategory_spec seedStore Reachable.seed "Food"
    ⟨⟨"Food", "Food and beverages", true⟩,
      by simp [seedStore, loadSampleData, initialStore], rfl, rfl⟩).2
    (by
      rintro ⟨p, hp, _, hcat⟩
      simp [seedStore, loadSampleData, initialStore] at hp
      rcases hp with rfl | rfl | rfl | rfl | rfl <;> exact absurd hcat (by decide))
  have hi2 : i = 2 := by
    have : findCategoryByName seedStore "Food" = some 2 := by
      simp [findCategoryByName, seedStore, loadSampleData, initialStore, firstIndex]
    rw [this] at hi
    exact (Option.some.inj hi).symm
  subst hi2
  refine ⟨he, by rw [hdel], ?_, hagain⟩
  rw [hdel]
  simp [seedStore, loadSampleData, initialStore, Store.categoryAt]

/-! ## Identifiers and names among active records -/

/-- C11: in every store reachable from the seed data that holds fewer than 100 product
records, for every identifier `i` of an active product: `deleteProduct` of `i` succeeds
and only clears the active flag of the record `findProductById` returns; afterwards no
active product has identifier `i` (`isDuplicateProductId` is false); and an `addProduct`
with identifier `i`, a non-empty name, a non-negative quantity, a non-negative price and
the name of an active category succeeds: it appends a new active record with identifier
`i`, while the deactivated record is still in its slot. -/
theorem deleteProduct_then_addProduct (s : Store) (hr : Reachable s)
    (hcap : s.productCount < 100) (i : Int)
    (hi : ∃ p ∈ s.products, p.active = true ∧ p.id = i)
    (name category : String) (quantity : Int) (price : ℚ)
    (hname : name ≠ "") (hq : 0 ≤ quantity) (hp : 0 ≤ price)
    (hcat : ∃ c ∈ s.categories, c.active = true ∧ c.name = category) :
    ∃ k, findProductById s i = some k ∧ (s.productAt k).id = i ∧
      (s.productAt k).active = true ∧
      deleteProduct s (.ok i) =
        ({ s with products := s.products.set k { s.productAt k with active := false } },
          printSuccess "Product deleted successfully!") ∧
      isDuplicateProductId (deleteProduct s (.ok i)).1 i = false ∧
      (∀ p ∈ (deleteProduct s (.ok i)).1.products, p.active = true → p.id ≠ i) ∧
      addProduct (deleteProduct s (.ok i)).1 (.ok i) name category (.ok quantity) (.ok price) =
        ({ (deleteProduct s (.ok i)).1 with
            products := (deleteProduct s (.ok i)).1.products ++
              [⟨i, name, category, quantity, price, true⟩] },
          printSuccess "Product added successfully!" ++
            (if quantity ≤ 5 then printWarning "This product has low stock!" else [])) ∧
      (addProduct (deleteProduct s (.ok i)).1 (.ok i) name category (.ok quantity)
          (.ok price)).1.products[k]? = some { s.productAt k with active := false } := by
  have hinv := reachable_productIdInv s hr
  have hcinv := reachable_categoryInv s hr
  have hsome : (findProductById s i).isSome = true := (isDuplicateProductId_iff s i).mpr hi
  obtain ⟨k, hk⟩ := Option.isSome_iff_exists.mp hsome
  have hklt : k < s.products.length := firstIndex_lt_length _ _ _ hk
  obtain ⟨⟨x, hx, hc⟩, _⟩ := firstIndex_some_spec _ _ _ hk
  have hxk : s.productAt k = x := by
    simp [Store.productAt, List.getD_eq_getElem?_getD, hx]
  simp only [Bool.and_eq_true, beq_iff_eq] at hc
  have hdel : deleteProduct s (.ok i) =
      ({ s with products := s.products.set k { s.productAt k with active := false } },
        printSuccess "Product deleted successfully!") := by
    simp [deleteProduct, hk, Store.modifyProduct]
  have hnone : ∀ p ∈ (deleteProduct s (.ok i)).1.products, p.active = true → p.id ≠ i := by
    rw [hdel]
    intro p hp hact hid
    obtain ⟨j, hj⟩ := List.getElem?_of_mem hp
    by_cases hkj : k = j
    · subst hkj
      simp only [List.getElem?_set_self', hx] at hj
      simp at hj
      subst hj
      simp at hact
    · simp only [List.getElem?_set_ne hkj] at hj
      exact hkj (hinv.2 k j x p hx hj hc.2 hact (hc.1.trans hid.symm))
  have hdup : isDuplicateProductId (deleteProduct s (.ok i)).1 i = false := by
    by_contra hcon
    obtain ⟨p, hp, hact, hid⟩ :=
      (isDuplicateProductId_iff _ i).mp (by simpa using hcon)
    exact hnone p hp hact hid
  have hpos : 0 < i := by
    obtain ⟨p, hp, hact, hid⟩ := hi
    rw [← hid]
    exact hinv.1 p hp hact
  have hcatne : category ≠ "" := by
    obtain ⟨c, hc1, hc2, hc3⟩ := hcat
    rw [← hc3]
    exact hcinv.1 c hc1 hc2
  have hcats : (deleteProduct s (.ok i)).1.categories = s.categories :=
    deleteProduct_categories s (.ok i)
  have hcatex : categoryExists (deleteProduct s (.ok i)).1 category = true := by
    rw [categoryExists_iff, hcats]
    exact hcat
  have hlen : (deleteProduct s (.ok i)).1.productCount = s.productCount := by
    rw [hdel]
    simp [Store.productCount]
  have hv : validateProductData (deleteProduct s (.ok i)).1 i quantity price category =
      (true, []) := by
    have h1 : ¬ i ≤ 0 := by omega
    have h3 : ¬ quantity < 0 := by omega
    have h4 : ¬ price < 0 := by simpa using hp
    simp [validateProductData, h1, hdup, h3, h4, hcatex]
  have hadd : addProduct (deleteProduct s (.ok i)).1 (.ok i) name category (.ok quantity)
      (.ok price) =
      ({ (deleteProduct s (.ok i)).1 with
          products := (deleteProduct s (.ok i)).1.products ++
            [⟨i, name, category, quantity, price, true⟩] },
        printSuccess "Product added successfully!" ++
          (if quantity ≤ 5 then printWarning "This product has low stock!" else [])) := by
    have hcap' : ¬ (deleteProduct s (.ok i)).1.productCount ≥ MAX_ITEMS := by
      rw [hlen]
      simp only [MAX_ITEMS]
      omega
    simp [addProduct, hcap', hname, hcatne, hv, MIN_STOCK_THRESHOLD]
  refine ⟨k, hk, by rw [hxk]; exact hc.1, by rw [hxk]; exact hc.2, hdel, hdup, hnone,
    hadd, ?_⟩
  rw [hadd, hdel]
  simp only
  rw [List.getElem?_append_left (by simp; exact hklt), List.getElem?_set_self', hx]
  simp [hxk]

/-- The scenario of the specification: product 7 is added to the seed store, deleted, and
added again; the deactivated record and the new one both sit in storage. -/
theorem deleteProduct_then_addProduct_witness :
    isDuplicateProductId
      (deleteProduct (addProduct seedStore (.ok 7) "Tablet" "Electronics" (.ok 4)
        (.ok 300)).1 (.ok 7)).1 7 = false ∧
    (addProduct
      (deleteProduct (addProduct seedStore (.ok 7) "Tablet" "Electronics" (.ok 4)
        (.ok 300)).1 (.ok 7)).1
      (.ok 7) "Phone" "Electronics" (.ok 20) (.ok 310)).1.products.map
        (fun p => (p.id, p.name, p.active)) =
      [(1, "Laptop", true), (2, "Mouse", true), (3, "Keyboard", true), (4, "T-Shirt", true),
       (5, "Jeans", true), (7, "Tablet", false), (7, "Phone", true)] := by
  have h300 : ¬ ((300 : ℚ) < 0) := by norm_num
  have hs : (addProduct seedStore (.ok 7) "Tablet" "Electronics" (.ok 4) (.ok 300)).1 =
      { seedStore with
        products := seedStore.products ++ [⟨7, "Tablet", "Electronics", 4, 300, true⟩] } := by
    simp [addProduct, validateProductData, isDuplicateProductId, categoryExists,
      findCategoryByName, findProductById, firstIndex, seedStore, loadSampleData,
      initialStore, Store.productCount, MAX_ITEMS, h300]
  have hreach : Reachable
      (addProduct seedStore (.ok 7) "Tablet" "Electronics" (.ok 4) (.ok 300)).1 :=
    Reachable.step seedStore (Op.addProduct (.ok 7) "Tablet" "Electronics" (.ok 4) (.ok 300))
      Reachable.seed
  obtain ⟨k, hk, _, _, hdel, hdup, _, hadd, _⟩ :=
    deleteProduct_then_addProduct
      (addProduct seedStore (.ok 7) "Tablet" "Electronics" (.ok 4) (.ok 300)).1 hreach
      (by rw [hs]; simp [Store.productCount, seedStore, loadSampleData, initialStore])
      7
      ⟨⟨7, "Tablet", "Electronics", 4, 300, true⟩, by rw [hs]; simp, rfl, rfl⟩
      "Phone" "Electronics" 20 310 (by decide) (by decide) (by norm_num)
      ⟨⟨"Electronics", "Electronic devices and accessories", true⟩,
        by rw [hs]; simp [seedStore, loadSampleData, initialStore], rfl, rfl⟩
  have hk5 : k = 5 := by
    have : findProductById
        (addProduct seedStore (.ok 7) "Tablet" "Electronics" (.ok 4) (.ok 300)).1 7 = some 5 := by
      rw [hs]
      simp [findProductById, firstIndex, seedStore, loadSampleData, initialStore]
    rw [this] at hk
    exact (Option.some.inj hk).symm
  subst hk5
  refine ⟨hdup, ?_⟩
  rw [hadd, hdel, hs]
  simp [seedStore, loadSampleData, initialStore, Store.productAt]

/-! ## Product update -/

/-- C12, the code at the failing inputs. On the seed store, an `updateProduct` of product 1
(Laptop, Electronics, 15, 899.99) is rejected with each of the five validation errors,
and each time the rejected value, with the values read before it, is already stored in
the product: the empty name; the name and the empty category; the name and the unknown
category "Toys"; the name, the category and the quantity -1; the name, the category, the
quantity and the price -1. -/
theorem updateProduct_rejected_mutates :
    seedStore.productAt 0 = ⟨1, "Laptop", "Electronics", 15, 899.99, true⟩ ∧
    ((updateProduct seedStore (.ok 1) "" "Electronics" (.ok 15) (.ok 899.99)).2 =
        [Output.currentDetails "Laptop" "Electronics" 15 899.99,
         Output.error "Product name cannot be empty!"] ∧
      (updateProduct seedStore (.ok 1) "" "Electronics" (.ok 15) (.ok 899.99)).1.productAt 0 =
        ⟨1, "", "Electronics", 15, 899.99, true⟩) ∧
    ((updateProduct seedStore (.ok 1) "Notebook" "" (.ok 15) (.ok 899.99)).2 =
        [Output.currentDetails "Laptop" "Electronics" 15 899.99,
         Output.error "Category cannot be empty!"] ∧
      (updateProduct seedStore (.ok 1) "Notebook" "" (.ok 15) (.ok 899.99)).1.productAt 0 =
        ⟨1, "Notebook", "", 15, 899.99, true⟩) ∧
    ((updateProduct seedStore (.ok 1) "Notebook" "Toys" (.ok 15) (.ok 899.99)).2 =
        [Output.currentDetails "Laptop" "Electronics" 15 899.99,
         Output.error "Category does not exist!"] ∧
      (updateProduct seedStore (.ok 1) "Notebook" "Toys" (.ok 15) (.ok 899.99)).1.productAt 0 =
        ⟨1, "Notebook", "Toys", 15, 899.99, true⟩) ∧
    ((updateProduct seedStore (.ok 1) "Notebook" "Clothing" (.ok (-1)) (.ok 899.99)).2 =
        [Output.currentDetails "Laptop" "Electronics" 15 899.99,
         Output.error "Invalid quantity!"] ∧
      (updateProduct seedStore (.ok 1) "Notebook" "Clothing" (.ok (-1))
          (.ok 899.99)).1.productAt 0 =
        ⟨1, "Notebook", "Clothing", -1, 899.99, true⟩) ∧
    ((updateProduct seedStore (.ok 1) "Notebook" "Clothing" (.ok 7) (.ok (-1))).2 =
        [Output.currentDetails "Laptop" "Electronics" 15 899.99,
         Output.error "Invalid price!"] ∧
      (updateProduct seedStore (.ok 1) "Notebook" "Clothing" (.ok 7) (.ok (-1))).1.productAt 0 =
        ⟨1, "Notebook", "Clothing", 7, -1, true⟩) := by
  have hneg : ¬ ((0 : ℚ) ≤ -1) := by norm_num
  refine ⟨?_, ⟨?_, ?_⟩, ⟨?_, ?_⟩, ⟨?_, ?_⟩, ⟨?_, ?_⟩, ⟨?_, ?_⟩⟩ <;>
  simp [updateProduct, findProductById, findCategoryByName, categoryExists,
    isValidQuantity, isValidPrice, NumInput.store, firstIndex, seedStore, loadSampleData,
    initialStore, Store.modifyProduct, Store.productAt, printError, hneg]

/-! ## Invariants of the record store -/

/-- C13: in every store reachable from the seed data by menu choices, every active
product has a positive identifier and no two active products (records at different
positions) share an identifier; no two active categories share a name and no two active
suppliers share a name; every active category name and every active supplier name is
non-empty. -/
theorem reachable_unique_among_active (s : Store) (hr : Reachable s) :
    (∀ p ∈ s.products, p.active = true → 0 < p.id) ∧
    (∀ (i j : Nat) (a b : Product), s.products[i]? = some a → s.products[j]? = some b →
      a.active = true → b.active = true → a.id = b.id → i = j) ∧
    (∀ (i j : Nat) (a b : Category), s.categories[i]? = some a → s.categories[j]? = some b →
      a.active = true → b.active = true → a.name = b.name → i = j) ∧
    (∀ (i j : Nat) (a b : Supplier), s.suppliers[i]? = some a → s.suppliers[j]? = some b →
      a.active = true → b.active = true → a.name = b.name → i = j) ∧
    (∀ c ∈ s.categories, c.active = true → c.name ≠ "") ∧
    (∀ c ∈ s.suppliers, c.active = true → c.name ≠ "") := by
  obtain ⟨hp1, hp2⟩ := reachable_productIdInv s hr
  obtain ⟨hc1, hc2⟩ := reachable_categoryInv s hr
  obtain ⟨hs1, hs2⟩ := reachable_supplierInv s hr
  exact ⟨hp1, hp2, hc2, hs2, hc1, hs1⟩

/-- The store in which product 7 was added, deleted and added again: two records carry
the identifier 7, one of them active. -/
theorem reachable_unique_among_active_witness :
    reuseStore.products.map (fun p => (p.id, p.active)) =
      [(1, true), (2, true), (3, true), (4, true), (5, true), (7, false), (7, true)] ∧
    (∀ (i j : Nat) (a b : Product), reuseStore.products[i]? = some a →
      reuseStore.products[j]? = some b → a.active = true → b.active = true →
      a.id = b.id → i = j) := by
  have h300 : ¬ ((300 : ℚ) < 0) := by norm_num
  have h310 : ¬ ((310 : ℚ) < 0) := by norm_num
  have hreach : Reachable reuseStore :=
    Reachable.step _ (Op.addProduct (.ok 7) "Phone" "Electronics" (.ok 20) (.ok 310))
      (Reachable.step _ (Op.deleteProduct (.ok 7))
        (Reachable.step seedStore
          (Op.addProduct (.ok 7) "Tablet" "Electronics" (.ok 4) (.ok 300)) Reachable.seed))
  refine ⟨?_, (reachable_unique_among_active reuseStore hreach).2.1⟩
  simp [reuseStore, addProduct, deleteProduct, validateProductData, isDuplicateProductId,
    categoryExists, findCategoryByName, findProductById, firstIndex, seedStore,
    loadSampleData, initialStore, Store.productCount, Store.modifyProduct, Store.productAt,
    MAX_ITEMS, h300, h310]

/-- C14, the code at the failing inputs. Four stores, each reached from the seed store by
one rejected `updateProduct` of product 1, hold an active product with an empty name,
with a negative quantity, with a negative price, and with a category that no active
category is named after. -/
theorem reachable_product_constraints_broken :
    (Reachable (updateProduct seedStore (.ok 1) "" "" (.ok 0) (.ok 0)).1 ∧
      ((updateProduct seedStore (.ok 1) "" "" (.ok 0) (.ok 0)).1.productAt 0).active = true ∧
      ((updateProduct seedStore (.ok 1) "" "" (.ok 0) (.ok 0)).1.productAt 0).name = "") ∧
    (Reachable (updateProduct seedStore (.ok 1) "Laptop" "Electronics" (.ok (-1)) (.ok 0)).1 ∧
      ((updateProduct seedStore (.ok 1) "Laptop" "Electronics" (.ok (-1))
        (.ok 0)).1.productAt 0).active = true ∧
      ((updateProduct seedStore (.ok 1) "Laptop" "Electronics" (.ok (-1))
        (.ok 0)).1.productAt 0).quantity = -1) ∧
    (Reachable (updateProduct seedStore (.ok 1) "Laptop" "Electronics" (.ok 15)
        (.ok (-1))).1 ∧
      ((updateProduct seedStore (.ok 1) "Laptop" "Electronics" (.ok 15)
        (.ok (-1))).1.productAt 0).active = true ∧
      ((updateProduct seedStore (.ok 1) "Laptop" "Electronics" (.ok 15)
        (.ok (-1))).1.productAt 0).price = -1) ∧
    (Reachable (updateProduct seedStore (.ok 1) "Laptop" "Toys" (.ok 0) (.ok 0)).1 ∧
      ((updateProduct seedStore (.ok 1) "Laptop" "Toys" (.ok 0) (.ok 0)).1.productAt 0).active
        = true ∧
      ((updateProduct seedStore (.ok 1) "Laptop" "Toys" (.ok 0) (.ok 0)).1.productAt 0).category
        = "Toys" ∧
      ¬ ∃ c ∈ (updateProduct seedStore (.ok 1) "Laptop" "Toys" (.ok 0) (.ok 0)).1.categories,
        c.active = true ∧ c.name = "Toys") := by
  have hneg : ¬ ((0 : ℚ) ≤ -1) := by norm_num
  refine ⟨⟨Reachable.step seedStore (Op.updateProduct (.ok 1) "" "" (.ok 0) (.ok 0))
      Reachable.seed, ?_, ?_⟩,
    ⟨Reachable.step seedStore
      (Op.updateProduct (.ok 1) "Laptop" "Electronics" (.ok (-1)) (.ok 0)) Reachable.seed,
      ?_, ?_⟩,
    ⟨Reachable.step seedStore
      (Op.updateProduct (.ok 1) "Laptop" "Electronics" (.ok 15) (.ok (-1))) Reachable.seed,
      ?_, ?_⟩,
    ⟨Reachable.step seedStore (Op.updateProduct (.ok 1) "Laptop" "Toys" (.ok 0) (.ok 0))
      Reachable.seed, ?_, ?_, ?_⟩⟩ <;>
  simp [updateProduct, findProductById, findCategoryByName, categoryExists,
    isValidQuantity, isValidPrice, NumInput.store, firstIndex, seedStore, loadSampleData,
    initialStore, Store.modifyProduct, Store.productAt, printError, hneg]

/-! ## The transaction log -/

/-- C15: in every store reachable from the seed data the log holds at most 200 entries,
its transaction identifiers are strictly increasing in log order (so no two entries share
an identifier) and lie below the id counter, so that a later entry gets a fresh
identifier. Every menu choice, in any store, leaves the log a prefix of the log
afterwards. A purchase made when the log holds 200 entries (or more) leaves the log and
the id counter as they are: nothing is appended, nothing is evicted. -/
theorem transaction_log_bounded_append_only :
    (∀ s : Store, Reachable s →
      s.transactions.length ≤ 200 ∧
      (s.transactions.map (fun t => t.transactionId)).Pairwise (fun a b => a < b) ∧
      (s.transactions.map (fun t => t.transactionId)).Nodup ∧
      (∀ t ∈ s.transactions, t.transactionId < s.nextTransactionId)) ∧
    (∀ (s : Store) (op : Op),
      ∃ added, (op.run s).1.transactions = s.transactions ++ added) ∧
    (∀ (s : Store) (n : String) (q : NumInput Int) (date time : String),
      200 ≤ s.transactions.length →
      (purchaseProduct s n q date time).1.transactions = s.transactions ∧
      (purchaseProduct s n q date time).1.nextTransactionId = s.nextTransactionId) := by
  refine ⟨?_, ?_, ?_⟩
  · intro s hr
    obtain ⟨hlen, hsorted, hbelow⟩ := reachable_logInv s hr
    refine ⟨hlen, hsorted, ?_, hbelow⟩
    exact hsorted.imp (fun h => ne_of_lt h)
  · intro s op
    rcases run_log s op with ⟨ht, _⟩ | ⟨_, t, _, ht, _⟩
    · exact ⟨[], by rw [ht]; simp⟩
    · exact ⟨[t], ht⟩
  · intro s n q date time hfull
    rcases purchaseProduct_log s n q date time with h | ⟨hlt, _⟩
    · exact h
    · simp only [MAX_TRANSACTIONS] at hlt
      omega

/-- The store after 200 purchases: the log is full and sorted, and one more purchase
leaves the log and the id counter alone while it still takes the unit out of stock. -/
theorem transaction_log_bounded_append_only_witness :
    fullLogStore.transactions.length = 200 ∧
    (fullLogStore.transactions.map (fun t => t.transactionId)).Pairwise (fun a b => a < b) ∧
    (purchaseProduct fullLogStore "Bulk" (.ok 1) "02/01/2026" "10:00:00").1.transactions =
      fullLogStore.transactions ∧
    (purchaseProduct fullLogStore "Bulk" (.ok 1) "02/01/2026" "10:00:00").1.nextTransactionId
      = 201 ∧
    ((purchaseProduct fullLogStore "Bulk" (.ok 1) "02/01/2026" "10:00:00").1.productAt
      5).quantity = 799 := by
  obtain ⟨hreach, hlen, hfind, hstock, hnext⟩ := fullLogStore_spec
  obtain ⟨h1, _, h3⟩ := transaction_log_bounded_append_only
  have hfull := h3 fullLogStore "Bulk" (.ok 1) "02/01/2026" "10:00:00" (by rw [hlen])
  refine ⟨hlen, (h1 fullLogStore hreach).2.1, hfull.1, by rw [hfull.2, hnext], ?_⟩
  rw [purchaseProduct_accepted fullLogStore "Bulk" 1 "02/01/2026" "10:00:00" 5 (by decide)
    hfind (by decide) (by rw [hstock]; decide), recordTransaction_productAt,
    productAt_modifyProduct_self _ _ _ (firstIndex_lt_length _ _ _ hfind)]
  simp [hstock]

/-! ## Capacity -/

/-- C16: in every reachable store the product, category and supplier record counts are
each at most 100. No menu choice, in any store, decreases any of the three counts. A
delete of a product, a category or a supplier either leaves the store as it is or only
clears the active flag of the record found, which stays in its slot. A delete that finds
its record (for a category: one that no active product refers to) does clear the flag:
the record found was active, afterwards its slot holds the same record with the active
flag false, every other slot and the record count are as before, and the success message
is printed. Consequently, from a store that holds 100 product records (active or not)
on, whatever menu choices follow, every `addProduct` prints the capacity error and
changes nothing. -/
theorem capacity_fixed_no_compaction :
    (∀ s : Store, Reachable s →
      s.productCount ≤ 100 ∧ s.categoryCount ≤ 100 ∧ s.supplierCount ≤ 100) ∧
    (∀ (s : Store) (op : Op),
      s.productCount ≤ (op.run s).1.productCount ∧
      s.categoryCount ≤ (op.run s).1.categoryCount ∧
      s.supplierCount ≤ (op.run s).1.supplierCount) ∧
    (∀ (s : Store) (id : NumInput Int),
      (deleteProduct s id).1 = s ∨
      ∃ (i : Int) (k : Nat), id = .ok i ∧ findProductById s i = some k ∧
        (deleteProduct s id).1 =
          { s with products := s.products.set k { s.productAt k with active := false } }) ∧
    (∀ (s : Store) (name : String),
      (deleteCategory s name).1 = s ∨
      ∃ k : Nat, findCategoryByName s name = some k ∧
        (deleteCategory s name).1 =
          { s with categories :=
              s.categories.set k { s.categoryAt k with active := false } }) ∧
    (∀ (s : Store) (name : String),
      (deleteSupplier s name).1 = s ∨
      ∃ k : Nat, findSupplierByName s name = some k ∧
        (deleteSupplier s name).1 =
          { s with suppliers := s.suppliers.set k { s.supplierAt k with active := false } }) ∧
    (∀ (s : Store) (i : Int) (k : Nat), findProductById s i = some k →
      k < s.productCount ∧ (s.productAt k).active = true ∧
      deleteProduct s (.ok i) =
        ({ s with products := s.products.set k { s.productAt k with active := false } },
          printSuccess "Product deleted successfully!") ∧
      (deleteProduct s (.ok i)).1.productAt k = { s.productAt k with active := false } ∧
      (∀ j, j ≠ k → (deleteProduct s (.ok i)).1.productAt j = s.productAt j) ∧
      (deleteProduct s (.ok i)).1.productCount = s.productCount) ∧
    (∀ (s : Store) (name : String) (k : Nat), name ≠ "" →
      findCategoryByName s name = some k →
      (∀ p ∈ s.products, p.active = true → p.category ≠ name) →
      k < s.categoryCount ∧ (s.categoryAt k).active = true ∧
      deleteCategory s name =
        ({ s with categories :=
            s.categories.set k { s.categoryAt k with active := false } },
          printSuccess "Category deleted successfully!") ∧
      (deleteCategory s name).1.categoryAt k = { s.categoryAt k with active := false } ∧
      (∀ j, j ≠ k → (deleteCategory s name).1.categoryAt j = s.categoryAt j) ∧
      (deleteCategory s name).1.categoryCount = s.categoryCount) ∧
    (∀ (s : Store) (name : String) (k : Nat), name ≠ "" →
      findSupplierByName s name = some k →
      k < s.supplierCount ∧ (s.supplierAt k).active = true ∧
      deleteSupplier s name =
        ({ s with suppliers := s.suppliers.set k { s.supplierAt k with active := false } },
          printSuccess "Supplier deleted successfully!") ∧
      (deleteSupplier s name).1.supplierAt k = { s.supplierAt k with active := false } ∧
      (∀ j, j ≠ k → (deleteSupplier s name).1.supplierAt j = s.supplierAt j) ∧
      (deleteSupplier s name).1.supplierCount = s.supplierCount) ∧
    (∀ (s t : Store), 100 ≤ s.productCount → ReachableFrom s t →
      ∀ (id : NumInput Int) (name category : String) (quantity : NumInput Int)
        (price : NumInput ℚ),
        addProduct t id name category quantity price =
          (t, printError "Product limit reached!")) := by
  refine ⟨?_, ?_, deleteProduct_cases, deleteCategory_cases, deleteSupplier_cases,
    deleteProduct_found, deleteCategory_found, deleteSupplier_found, ?_⟩
  · intro s hr
    exact reachable_capacityInv s hr
  · intro s op
    obtain ⟨h1, h2, h3⟩ := run_counts s op
    refine ⟨?_, ?_, ?_⟩
    · rcases h1 with h1 | ⟨_, h1⟩ <;> omega
    · rcases h2 with h2 | ⟨_, h2⟩ <;> omega
    · rcases h3 with h3 | ⟨_, h3⟩ <;> omega
  · intro s t hfull hreach id name category quantity price
    have hle := reachableFrom_productCount s t hreach
    have hcap : t.productCount ≥ MAX_ITEMS := by
      simp only [MAX_ITEMS]
      omega
    simp [addProduct, hcap]

/-- The store with 100 product records: deleting product 1 there clears the active flag
of slot 0, which was set, and keeps the 100 records; `addProduct` is still rejected with
the capacity error afterwards. -/
theorem capacity_fixed_no_compaction_witness :
    fullProductStore.productCount = 100 ∧
    findProductById fullProductStore 1 = some 0 ∧
    (fullProductStore.productAt 0).active = true ∧
    ((deleteProduct fullProductStore (.ok 1)).1.productAt 0).active = false ∧
    (deleteProduct fullProductStore (.ok 1)).1.productCount = 100 ∧
    (deleteProduct fullProductStore (.ok 1)).2 =
      printSuccess "Product deleted successfully!" ∧
    addProduct (deleteProduct fullProductStore (.ok 1)).1 (.ok 500) "New" "Food" (.ok 1)
        (.ok 1) =
      ((deleteProduct fullProductStore (.ok 1)).1, printError "Product limit reached!") := by
  obtain ⟨_, hcount, hfind⟩ := fullProductStore_spec
  obtain ⟨_, hact, hdel, hslot, _, hsame⟩ :=
    capacity_fixed_no_compaction.2.2.2.2.2.1 fullProductStore 1 0 hfind
  refine ⟨hcount, hfind, hact, by rw [hslot], by rw [hsame, hcount], by rw [hdel], ?_⟩
  exact capacity_fixed_no_compaction.2.2.2.2.2.2.2.2 fullProductStore
    (deleteProduct fullProductStore (.ok 1)).1 (by rw [hcount])
    (ReachableFrom.step fullProductStore (Op.deleteProduct (.ok 1)) ReachableFrom.refl)
    (.ok 500) "New" "Food" (.ok 1) (.ok 1)

/-! ## Frame of a purchase -/

/-- C17: a purchase that passes all checks (non-empty name `n` resolved to slot `i`,
`1 ≤ q ≤ stock`) changes one product field only. Slot `i` holds the active product named
`n` with the lowest storage index; the product list afterwards is the list before with
the quantity of slot `i` lowered by `q`, so the id, name, category, price and active flag
of that product and every other product record are unchanged; the categories, the
suppliers and the three record counts are unchanged. -/
theorem purchaseProduct_frame (s : Store) (n : String) (q : Int) (date time : String)
    (i : Nat) (hn : n ≠ "") (hf : findProductByName s n = some i) (hq : 1 ≤ q)
    (hle : q ≤ (s.productAt i).quantity) :
    ((s.productAt i).name = n ∧ (s.productAt i).active = true ∧
      ∀ j, j < i → ¬ ((s.productAt j).name = n ∧ (s.productAt j).active = true)) ∧
    (purchaseProduct s n (.ok q) date time).1.products =
      s.products.set i { s.productAt i with quantity := (s.productAt i).quantity - q } ∧
    (purchaseProduct s n (.ok q) date time).1.productAt i =
      { s.productAt i with quantity := (s.productAt i).quantity - q } ∧
    (∀ j, j ≠ i →
      (purchaseProduct s n (.ok q) date time).1.productAt j = s.productAt j) ∧
    (purchaseProduct s n (.ok q) date time).1.categories = s.categories ∧
    (purchaseProduct s n (.ok q) date time).1.suppliers = s.suppliers ∧
    (purchaseProduct s n (.ok q) date time).1.productCount = s.productCount ∧
    (purchaseProduct s n (.ok q) date time).1.categoryCount = s.categoryCount ∧
    (purchaseProduct s n (.ok q) date time).1.supplierCount = s.supplierCount := by
  obtain ⟨hi, hname, hact, hfirst⟩ := findProductByName_some s n i hf
  have hacc := purchaseProduct_accepted s n q date time i hn hf (by omega) hle
  have hprod : (purchaseProduct s n (.ok q) date time).1.products =
      s.products.set i { s.productAt i with quantity := (s.productAt i).quantity - q } := by
    rw [hacc, recordTransaction_products]
    rfl
  refine ⟨⟨hname, hact, hfirst⟩, hprod, ?_, ?_, purchaseProduct_categories _ _ _ _ _,
    purchaseProduct_suppliers _ _ _ _ _, ?_, ?_, ?_⟩
  · rw [hacc, recordTransaction_productAt, productAt_modifyProduct_self s i _ hi]
  · intro j hj
    rw [hacc, recordTransaction_productAt, productAt_modifyProduct_other s i j _ (Ne.symm hj)]
  · simp only [Store.productCount, hprod, List.length_set]
  · simp only [Store.categoryCount, purchaseProduct_categories]
  · simp only [Store.supplierCount, purchaseProduct_suppliers]

/-- Two active products are named "Laptop": a purchase of 6 takes them from the one
stored first (slot 0) and leaves the other (slot 5) as it is. -/
theorem purchaseProduct_frame_witness :
    (twoLaptopStore.productAt 0).name = "Laptop" ∧
    (twoLaptopStore.productAt 5).name = "Laptop" ∧
    (purchaseProduct twoLaptopStore "Laptop" (.ok 6) "01/01/2026" "09:00:00").1.productAt 0 =
      ⟨1, "Laptop", "Electronics", 9, 899.99, true⟩ ∧
    (purchaseProduct twoLaptopStore "Laptop" (.ok 6) "01/01/2026" "09:00:00").1.productAt 5 =
      ⟨6, "Laptop", "Electronics", 100, 1, true⟩ := by
  have hprice : ¬ ((1 : ℚ) < 0) := by norm_num
  have hs : twoLaptopStore =
      { seedStore with
        products := seedStore.products ++ [⟨6, "Laptop", "Electronics", 100, 1, true⟩] } := by
    simp [twoLaptopStore, addProduct, validateProductData, isDuplicateProductId,
      categoryExists, findCategoryByName, findProductById, firstIndex, seedStore,
      loadSampleData, initialStore, Store.productCount, MAX_ITEMS, hprice]
  have hfind : findProductByName twoLaptopStore "Laptop" = some 0 := by
    rw [hs]
    simp [findProductByName, firstIndex, seedStore, loadSampleData, initialStore]
  have h0 : twoLaptopStore.productAt 0 = ⟨1, "Laptop", "Electronics", 15, 899.99, true⟩ := by
    rw [hs]
    simp [Store.productAt, seedStore, loadSampleData, initialStore]
  have h5 : twoLaptopStore.productAt 5 = ⟨6, "Laptop", "Electronics", 100, 1, true⟩ := by
    rw [hs]
    simp [Store.productAt, seedStore, loadSampleData, initialStore]
  have h := purchaseProduct_frame twoLaptopStore "Laptop" 6 "01/01/2026" "09:00:00" 0
    (by decide) hfind (by decide) (by rw [h0]; decide)
  refine ⟨by rw [h0], by rw [h5], ?_, ?_⟩
  · rw [h.2.2.1, h0]
    simp
  · rw [h.2.2.2.1 5 (by decide), h5]

end Inventory
